import Mathlib

/-!
# Design pattern conceptual examples: a verification development

Each C++ example of the repository is a separate program; each one is embedded
in a namespace of its own.  Objects that the C++ code reaches through pointers
live in an explicit heap (a map from addresses to object states), pointer
comparison is comparison of addresses, and recursion through pointers carries
a fuel argument.  Text written to `std::cout` is returned as a string.
-/

/-! # Definitions -/

/-! ## Composite (`STRUCTURAL/COMPOSITE/Composite_Conceptual_Example.cpp`) -/


namespace CompositeExample

/-- The state of one object of the `Component` hierarchy: a `Leaf` has no
fields, a `Composite` holds `m_children`, a list of pointers. -/
inductive Component where
  | Leaf : Component
  | Composite (m_children : List Nat) : Component
deriving DecidableEq, Repr

/-- The heap: the object (if any) that lives at each address. -/
abbrev Heap := Nat → Option Component

/-- Storing an object at address `p` (`new`, or a field update). -/
def Heap.store (heap : Heap) (p : Nat) (c : Component) : Heap :=
  fun q => if q = p then some c else heap q

/-- `Component::add` / `Composite::add`: `m_children.push_back(component)` on a
composite, the empty base method on a leaf.  (A call through a pointer without
a live object is not modelled: the heap is returned as it is.) -/
def add (heap : Heap) (self component : Nat) : Heap :=
  match heap self with
  | some (Component.Composite m_children) =>
    heap.store self (Component.Composite (m_children ++ [component]))
  | _ => heap

/-- `Component::remove` / `Composite::remove`: `m_children.remove(component)`
erases every occurrence of the pointer; the empty base method on a leaf. -/
def remove (heap : Heap) (self component : Nat) : Heap :=
  match heap self with
  | some (Component.Composite m_children) =>
    heap.store self (Component.Composite (m_children.filter (fun c => c ≠ component)))
  | _ => heap

/-- `Component::isComposite`. -/
def isComposite (heap : Heap) (self : Nat) : Bool :=
  match heap self with
  | some (Component.Composite _) => true
  | _ => false

/-- The range-for loop of `Composite::operation`: for every child pointer `c`,
`result += (c == m_children.back()) ? c->operation() : (c->operation() + " + ")`.
`back` is `m_children.back()` and `op` the virtual call `c->operation()`. -/
def operationLoop (op : Nat → Option String) (back : Option Nat) :
    List Nat → String → Option String
  | [], result => some result
  | c :: rest, result =>
    match op c with
    | none => none
    | some r =>
      operationLoop op back rest (result ++ (if some c = back then r else r ++ " + "))

/-- The virtual method `operation()` called on the object at address `self`.
`none` stands for a call that does not return a value: a dangling pointer, or
recursion deeper than `fuel`. -/
def operation (heap : Heap) : Nat → Nat → Option String
  | 0, _ => none
  | fuel + 1, self =>
    match heap self with
    | none => none
    | some Component.Leaf => some "Leaf"
    | some (Component.Composite m_children) =>
      match operationLoop (operation heap fuel) m_children.getLast? m_children "" with
      | none => none
      | some result => some ("Branch( " ++ result ++ " )")

/-- The call `p->operation()` returns `r`. -/
def Returns (heap : Heap) (p : Nat) (r : String) : Prop :=
  ∃ fuel, operation heap fuel p = some r

/-- The empty heap. -/
def emptyHeap : Heap := fun _ => none

/-- The object graph of `main` after line 94: `simple` at address 0, `tree` at
1, `branch1` at 2, `leaf1`, `leaf2`, `leaf3` at 3, 4, 5 and `branch2` at 6. -/
def mainHeap : Heap :=
  let h := emptyHeap.store 0 Component.Leaf
  let h := h.store 1 (Component.Composite [])
  let h := h.store 2 (Component.Composite [])
  let h := h.store 3 Component.Leaf
  let h := h.store 4 Component.Leaf
  let h := h.store 5 Component.Leaf
  let h := add h 2 3
  let h := add h 2 4
  let h := h.store 6 (Component.Composite [])
  let h := add h 6 5
  let h := add h 1 2
  add h 1 6

end CompositeExample

/-! ## Flyweight (`STRUCTURAL/FLYWEIGHT/Flyweight_Conceptual_Example.cpp`) -/

namespace FlyweightExample

/-- The class `Flyweight`: the shared (intrinsic) state. -/
structure Flyweight where
  m_brand : String
  m_model : String
  m_color : String
deriving DecidableEq, Repr

/-- The contents of a `std::unordered_map<std::string, Flyweight>` as a list of
(key, value) entries.  The iteration order of the map is unspecified, and
nothing below depends on the order of the entries. -/
abbrev FlyweightMap := List (String × Flyweight)

/-- `unordered_map::find`: the value stored under `key`, if any (`none` is
`end()`). -/
def FlyweightMap.find (m : FlyweightMap) (key : String) : Option Flyweight :=
  match m with
  | [] => none
  | (k, f) :: rest => if k = key then some f else FlyweightMap.find rest key

/-- `unordered_map::emplace(key, value).first`: when `key` is absent the entry
is inserted, when it is present the map is left as it is; the second component
is the value of the entry the returned iterator points to. -/
def FlyweightMap.emplace (m : FlyweightMap) (key : String) (f : Flyweight) :
    FlyweightMap × Flyweight :=
  match m.find key with
  | some stored => (m, stored)
  | none => (m ++ [(key, f)], f)

/-- The class `FlyweightFactory`. -/
structure FlyweightFactory where
  m_flyweights : FlyweightMap
deriving DecidableEq, Repr

/-- `FlyweightFactory::getKey`: `brand + '_' + model + '_' + color`. -/
def getKey (brand model color : String) : String :=
  brand ++ "_" ++ model ++ "_" ++ color

/-- The constructor `FlyweightFactory(sharedStates)`: one `emplace` per shared
state, in order. -/
def FlyweightFactory.new (sharedStates : List (String × String × String)) :
    FlyweightFactory :=
  ⟨sharedStates.foldl
    (fun m sharedState =>
      (m.emplace (getKey sharedState.1 sharedState.2.1 sharedState.2.2)
        ⟨sharedState.1, sharedState.2.1, sharedState.2.2⟩).1)
    []⟩

/-- `m_flyweights.size()`. -/
def FlyweightFactory.size (self : FlyweightFactory) : Nat :=
  self.m_flyweights.length

/-- `FlyweightFactory::getFlyweight`: the factory after the call, the returned
flyweight and the text printed. -/
def getFlyweight (self : FlyweightFactory) (brand model color : String) :
    FlyweightFactory × Flyweight × String :=
  let key := getKey brand model color
  match self.m_flyweights.find key with
  | none =>
    let it := self.m_flyweights.emplace key ⟨brand, model, color⟩
    (⟨it.1⟩, it.2, "FlyweightFactory: Can't find a flyweight, creating new one.\n")
  | some stored =>
    (self, stored, "FlyweightFactory: Reusing existing flyweight.\n")

/-- The factory that `main` constructs. -/
def mainFactory : FlyweightFactory :=
  FlyweightFactory.new
    [("Chevrolet", "Camaro2018", "pink"),
     ("Mercedes Benz", "C300", "black"),
     ("Mercedes Benz", "C500", "red"),
     ("BMW", "M5", "red"),
     ("BMW", "X6", "white")]

end FlyweightExample

/-! ## Memento (`BEHAVIORAL/MEMENTO/Memento_Conceptual_Example.cpp`) -/

namespace MementoExample

/-- The dynamic type and fields of an object reached through a `Memento`
pointer: a plain `Memento` (constructor `Plain`) carries `m_metadata`, an
`Originator::ConcreteMemento` carries in addition the captured `m_state`. -/
inductive Memento where
  | Plain (m_metadata : String) : Memento
  | ConcreteMemento (m_metadata : String) (m_state : String) : Memento
deriving DecidableEq, Repr

/-- `Memento::getMetadata`. -/
def Memento.getMetadata : Memento → String
  | Memento.Plain m_metadata => m_metadata
  | Memento.ConcreteMemento m_metadata _ => m_metadata

/-- The class `Originator`. -/
structure Originator where
  m_state : String
deriving DecidableEq, Repr

/-- The constructor `Originator(state)` and the line it prints. -/
def Originator.new (state : String) : Originator × String :=
  (⟨state⟩, "Originator: My initial state is: " ++ state ++ "\n")

/-- `Originator::doSomething`. -/
def Originator.doSomething (_self : Originator) : Originator × String :=
  let self : Originator := ⟨"random state"⟩
  (self,
   "Originator: I'm doing something important.\n" ++
   "Originator: and my state has changed to: " ++ self.m_state ++ "\n")

/-- `Originator::save`. -/
def Originator.save (self : Originator) : Memento :=
  Memento.ConcreteMemento "some metadata" self.m_state

/-- `Originator::restore`.  The argument is the object the `unique_ptr` holds
(`none` for a null pointer); the `dynamic_cast` succeeds exactly on a
`ConcreteMemento`. -/
def Originator.restore (self : Originator) (memento : Option Memento) :
    Originator × String :=
  match memento with
  | some (Memento.ConcreteMemento _ m_state) =>
    (⟨m_state⟩, "Originator: My state has changed to: " ++ m_state ++ "\n")
  | _ =>
    (self, "Originator: My state not changed, because I got not correct memento\n")

/-- The class `Caretaker` together with the `Originator` its reference
`m_originator` designates.  `m_mementos` is the vector, oldest first. -/
structure Caretaker where
  m_mementos : List Memento
  m_originator : Originator
deriving DecidableEq, Repr

/-- The constructor `Caretaker(originator)`. -/
def Caretaker.new (originator : Originator) : Caretaker :=
  ⟨[], originator⟩

/-- `Caretaker::backup`. -/
def Caretaker.backup (self : Caretaker) : Caretaker × String :=
  let memento := self.m_originator.save
  ({ self with m_mementos := self.m_mementos ++ [memento] },
   "\nCaretaker: Saving Originator's state...\n" ++
   "Caretaker: Memento's metadata: " ++ memento.getMetadata ++ "\n")

/-- `Caretaker::undo`. -/
def Caretaker.undo (self : Caretaker) : Caretaker × String :=
  match self.m_mementos.getLast? with
  | none => (self, "")
  | some back =>
    let r := self.m_originator.restore (some back)
    (⟨self.m_mementos.dropLast, r.1⟩, "Caretaker: Restoring state\n" ++ r.2)

/-- The client reaches, one after the other, the originator states of the list
and calls `backup()` in each of them. -/
def backupsAt (states : List String) (self : Caretaker) : Caretaker :=
  states.foldl (fun c s => (Caretaker.backup { c with m_originator := ⟨s⟩ }).1) self

/-- `undo()` called `k` times in a row. -/
def undoTimes : Nat → Caretaker → Caretaker
  | 0, self => self
  | k + 1, self => undoTimes k (Caretaker.undo self).1

end MementoExample

/-! ## Observer (`BEHAVIORAL/OBSERVER/Observer_Conceptual_Example.cpp`) -/

namespace ObserverExample

/-- The fields of an `Observer` object (its reference `m_subject` is the one
subject of the program). -/
structure Observer where
  m_messageFromSubject : String
  m_number : Nat
deriving DecidableEq, Repr

/-- The heap of observer objects, by address. -/
abbrev Heap := Nat → Option Observer

/-- Writing an observer object at address `p`. -/
def Heap.store (heap : Heap) (p : Nat) (o : Observer) : Heap :=
  fun q => if q = p then some o else heap q

/-- The class `Subject`: `m_observers` is the `std::list` of observer
pointers. -/
structure Subject where
  m_observers : List Nat
  m_message : String
deriving DecidableEq, Repr

/-- The constructor `Subject()`. -/
def Subject.new : Subject := ⟨[], ""⟩

/-- `Subject::attach`: `m_observers.push_back(observer)`. -/
def Subject.attach (self : Subject) (observer : Nat) : Subject :=
  { self with m_observers := self.m_observers ++ [observer] }

/-- `Subject::detach`: `m_observers.remove(observer)`, which erases every
element equal to the pointer. -/
def Subject.detach (self : Subject) (observer : Nat) : Subject :=
  { self with m_observers := self.m_observers.filter (fun o => o ≠ observer) }

/-- `Subject::howManyObservers`. -/
def Subject.howManyObservers (self : Subject) : String :=
  "There are " ++ toString self.m_observers.length ++ " observers in the list.\n"

/-- `Observer::printInfo`. -/
def Observer.printInfo (self : Observer) : String :=
  "Observer \"" ++ toString self.m_number ++ "\": a new message is available --> " ++
    self.m_messageFromSubject ++ "\n"

/-- `Observer::update`. -/
def Observer.update (self : Observer) (messageFromSubject : String) : Observer × String :=
  let self : Observer := { self with m_messageFromSubject := messageFromSubject }
  (self, self.printInfo)

/-- What one run of `notify()` does: the heap afterwards, the `update` calls
made (receiver and argument, in call order) and the text printed. -/
structure NotifyResult where
  heap : Heap
  calls : List (Nat × String)
  output : String

/-- The range-for loop of `Subject::notify`: `observer->update(m_message)` for
every pointer of the list, front to back.  A pointer without a live object
makes the run undefined (`none`). -/
def notifyLoop (m_message : String) : List Nat → Heap → Option NotifyResult
  | [], heap => some ⟨heap, [], ""⟩
  | observer :: rest, heap =>
    match heap observer with
    | none => none
    | some o =>
      let u := o.update m_message
      match notifyLoop m_message rest (heap.store observer u.1) with
      | none => none
      | some r => some ⟨r.heap, (observer, m_message) :: r.calls, u.2 ++ r.output⟩

/-- `Subject::notify`. -/
def Subject.notify (self : Subject) (heap : Heap) : Option NotifyResult :=
  match notifyLoop self.m_message self.m_observers heap with
  | none => none
  | some r => some ⟨r.heap, r.calls, self.howManyObservers ++ r.output⟩

/-- `Subject::createMessage`. -/
def Subject.createMessage (self : Subject) (heap : Heap) (message : String) :
    Subject × Option NotifyResult :=
  let self : Subject := { self with m_message := message }
  (self, self.notify heap)

/-- The constructor `Observer(subject)` for the object created at address `p`:
`m_subject.attach(this)`, `++staticNumber`, `m_number = staticNumber`.  The
result is the subject, the heap, the counter `staticNumber` and the line
printed. -/
def Observer.new (subject : Subject) (heap : Heap) (staticNumber : Nat) (p : Nat) :
    Subject × Heap × Nat × String :=
  (subject.attach p, heap.store p ⟨"", staticNumber + 1⟩, staticNumber + 1,
    "Hi, I'm the Observer \"" ++ toString (staticNumber + 1) ++ "\".\n")

/-- The empty heap. -/
def emptyHeap : Heap := fun _ => none

/-- The subject and the heap of `main` after line 112: `observer1`,
`observer2`, `observer3` live at the addresses 1, 2, 3. -/
def mainObservers : Subject × Heap :=
  let r1 := Observer.new Subject.new emptyHeap 0 1
  let r2 := Observer.new r1.1 r1.2.1 r1.2.2.1 2
  let r3 := Observer.new r2.1 r2.2.1 r2.2.2.1 3
  (r3.1, r3.2.1)

/-- A run of `attach` calls, in list order. -/
def attachAll (self : Subject) (observers : List Nat) : Subject :=
  observers.foldl Subject.attach self

/-- A run of `detach` calls, in list order. -/
def detachAll (self : Subject) (observers : List Nat) : Subject :=
  observers.foldl Subject.detach self

end ObserverExample

/-! ## Chain of Responsibility
(`BEHAVIORAL/CHAIN_OF_RESPONSIBILITY/Chain_Of_Responsibility_Conceptual_Example.cpp`) -/

namespace ChainExample

/-- The dynamic type of a handler object. -/
inductive Kind where
  | HandlerBase
  | MonkeyHandler
  | SquirrelHandler
  | DogHandler
deriving DecidableEq, Repr

/-- A handler object: its dynamic type and the field `m_nextHandler` of
`HandlerBase` (`none` is `nullptr`). -/
structure HandlerObj where
  kind : Kind
  m_nextHandler : Option Nat
deriving DecidableEq, Repr

/-- The heap of handler objects, by address. -/
abbrev Heap := Nat → Option HandlerObj

/-- Writing a handler object at address `p`. -/
def Heap.store (heap : Heap) (p : Nat) (o : HandlerObj) : Heap :=
  fun q => if q = p then some o else heap q

/-- The constructor `HandlerBase()` run by `new` for an object of dynamic type
`kind` at address `p`: `m_nextHandler(nullptr)`. -/
def Heap.alloc (heap : Heap) (p : Nat) (kind : Kind) : Heap :=
  heap.store p ⟨kind, none⟩

/-- `HandlerBase::setNext`: the heap afterwards and the returned pointer.  (A
call through a pointer without a live object is not modelled: the heap is
returned as it is.) -/
def setNext (heap : Heap) (self handler : Nat) : Heap × Nat :=
  match heap self with
  | some o => (heap.store self { o with m_nextHandler := some handler }, handler)
  | none => (heap, handler)

/-- The virtual method `handle(request)` called on the object at address
`self`.  `none` stands for a call that does not return a value: a dangling
pointer, or a chain longer than `fuel`. -/
def handle (heap : Heap) : Nat → Nat → String → Option String
  | 0, _, _ => none
  | fuel + 1, self, request =>
    match heap self with
    | none => none
    | some o =>
      -- `HandlerBase::handle`
      let base : Option String :=
        match o.m_nextHandler with
        | some next => handle heap fuel next request
        | none => some ""
      match o.kind with
      | Kind.HandlerBase => base
      | Kind.MonkeyHandler =>
        if request = "Banana" then some ("Monkey: I'll eat the " ++ request ++ ".\n") else base
      | Kind.SquirrelHandler =>
        if request = "Nut" then some ("Squirrel: I'll eat the " ++ request ++ ".\n") else base
      | Kind.DogHandler =>
        if request = "MeatBall" then some ("Dog: I'll eat the " ++ request ++ ".\n") else base

/-- The request a concrete handler answers itself. -/
def Kind.food : Kind → Option String
  | Kind.HandlerBase => none
  | Kind.MonkeyHandler => some "Banana"
  | Kind.SquirrelHandler => some "Nut"
  | Kind.DogHandler => some "MeatBall"

/-- The name a concrete handler answers with. -/
def Kind.name : Kind → String
  | Kind.HandlerBase => ""
  | Kind.MonkeyHandler => "Monkey"
  | Kind.SquirrelHandler => "Squirrel"
  | Kind.DogHandler => "Dog"

/-- The handlers at the addresses `chain` (with their dynamic types) are linked
in this order through `m_nextHandler`, and the last one has no next handler. -/
def IsChain (heap : Heap) : List (Nat × Kind) → Prop
  | [] => True
  | [(p, k)] => heap p = some ⟨k, none⟩
  | (p, k) :: (q, k') :: rest =>
    heap p = some ⟨k, some q⟩ ∧ IsChain heap ((q, k') :: rest)

/-- The response of the first handler of the list whose food is the request,
the empty string when there is none. -/
def firstResponse : List Kind → String → String
  | [], _ => ""
  | k :: rest, request =>
    if k.food = some request then k.name ++ ": I'll eat the " ++ request ++ ".\n"
    else firstResponse rest request

/-- `new` run for every handler of the list: a fresh object of the stated
dynamic type at the stated address. -/
def allocAll (heap : Heap) : List (Nat × Kind) → Heap
  | [] => heap
  | (p, k) :: rest => allocAll (heap.alloc p k) rest

/-- The chained call `self->setNext(h1)->setNext(h2)->...` over the addresses
`h1, h2, ...` of the list: every `setNext` is called on the pointer the
previous one returned. -/
def linkAll (heap : Heap) (self : Nat) : List Nat → Heap
  | [] => heap
  | handler :: rest =>
    linkAll (setNext heap self handler).1 (setNext heap self handler).2 rest

/-- The empty heap. -/
def emptyHeap : Heap := fun _ => none

/-- The chain of `main`: `monkey` at address 0, `squirrel` at 1, `dog` at 2,
linked by `monkey->setNext(squirrel)->setNext(dog)`. -/
def mainHeap : Heap :=
  let h := emptyHeap.alloc 0 Kind.MonkeyHandler
  let h := h.alloc 1 Kind.SquirrelHandler
  let h := h.alloc 2 Kind.DogHandler
  let r := setNext h 0 1
  (setNext r.1 r.2 2).1

end ChainExample

/-! ## Decorator (`STRUCTURAL/DECORATOR/Decorator_Conceptual_Example.cpp`) -/

namespace DecoratorExample

/-- An object of the `Component` hierarchy.  The reference member
`m_component` of a decorator is bound, at construction, to a component that
exists already and is never rebound, so the wrapped component is a
sub-term. -/
inductive Component where
  | ConcreteComponent : Component
  | Decorator (m_component : Component) : Component
  | ConcreteDecoratorA (m_component : Component) : Component
  | ConcreteDecoratorB (m_component : Component) : Component
deriving DecidableEq, Repr

/-- The virtual method `operation()`.  `Decorator::operation` returns
`m_component.operation()`, and the concrete decorators wrap the value of
`Decorator::operation()` in their tag. -/
def Component.operation : Component → String
  | Component.ConcreteComponent => "ConcreteComponent"
  | Component.Decorator m_component => m_component.operation
  | Component.ConcreteDecoratorA m_component =>
    "ConcreteDecoratorA(" ++ m_component.operation ++ ")"
  | Component.ConcreteDecoratorB m_component =>
    "ConcreteDecoratorB(" ++ m_component.operation ++ ")"

/-- `clientCode`: the text printed. -/
def clientCode (component : Component) : String :=
  "RESULT: " ++ component.operation

/-- The two concrete decorator classes. -/
inductive Tag where
  | A
  | B
deriving DecidableEq, Repr

/-- The class an object is declared with: the static type of the expression
that names it. -/
inductive Declared where
  | Component
  | ConcreteComponent
  | Decorator
  | ConcreteDecoratorA
  | ConcreteDecoratorB
deriving DecidableEq, Repr

/-- The class a variable of a concrete decorator class is declared with. -/
def Tag.declared : Tag → Declared
  | Tag.A => Declared.ConcreteDecoratorA
  | Tag.B => Declared.ConcreteDecoratorB

/-- The declaration `ConcreteDecoratorA x(arg);` or `ConcreteDecoratorB x(arg);`
where `arg` is declared with the class `declared`.  Both classes have, besides
the constructor from `const Component&`, the implicit copy constructor.  When
`arg` is declared with the class that is being constructed, the copy
constructor is the better match (no conversion to a base class), and the new
object is a copy of `arg`, with the same `m_component`; in every other case
the constructor from `const Component&` runs and the new object wraps
`arg`. -/
def Tag.construct : Tag → Declared → Component → Component
  | Tag.A, Declared.ConcreteDecoratorA, Component.ConcreteDecoratorA m_component =>
    Component.ConcreteDecoratorA m_component
  | Tag.B, Declared.ConcreteDecoratorB, Component.ConcreteDecoratorB m_component =>
    Component.ConcreteDecoratorB m_component
  | Tag.A, _, component => Component.ConcreteDecoratorA component
  | Tag.B, _, component => Component.ConcreteDecoratorB component

/-- The constructor from `const Component&` of a concrete decorator: what a
declaration runs when its argument is named through a `const Component&`. -/
def Tag.wrap (t : Tag) (component : Component) : Component :=
  t.construct Declared.Component component

/-- The class name of a concrete decorator. -/
def Tag.name : Tag → String
  | Tag.A => "ConcreteDecoratorA"
  | Tag.B => "ConcreteDecoratorB"

/-- Decorators applied one after the other, the head of the list first, each
to a `const Component&` that names the object built so far. -/
def wrapAll (component : Component) (tags : List Tag) : Component :=
  tags.foldl (fun c t => t.wrap c) component

/-- Declarations as in `main`, one per tag, the head of the list first: each
new object is declared with its own class and constructed from the variable
declared before it.  `declared` is the class the object to start from is
declared with. -/
def declareAll : Component → Declared → List Tag → Component
  | component, _, [] => component
  | component, declared, t :: rest =>
    declareAll (t.construct declared component) t.declared rest

/-- The text with the tags nested around `inner`, the head of the list
innermost and the last tag outermost. -/
def nested (inner : String) (tags : List Tag) : String :=
  tags.foldl (fun s t => t.name ++ "(" ++ s ++ ")") inner

/-- The objects of `main`: `concreteDecoratorB` wraps `concreteDecoratorA`,
which wraps `concreteComponent`. -/
def mainDecorated : Component :=
  Component.ConcreteDecoratorB (Component.ConcreteDecoratorA Component.ConcreteComponent)

end DecoratorExample

/-! ## State (`BEHAVIORAL/STATE/State_Conceptual_Example.cpp`) -/

namespace StateExample

/-- The dynamic type of a state object. -/
inductive Kind where
  | ConcreteStateA
  | ConcreteStateB
deriving DecidableEq, Repr

/-- A state object: its dynamic type and whether `setContext` has pointed its
`m_context` at the context (`false`: the pointer is still uninitialised). -/
structure State where
  kind : Kind
  m_context : Bool
deriving DecidableEq, Repr

/-- The program state: the heap of state objects, the next address `new`
hands out, and the field `m_state` of the one `Context` (`none` is
`nullptr`). -/
structure World where
  heap : Nat → Option State
  next : Nat
  m_state : Option Nat

/-- `new ConcreteStateA` / `new ConcreteStateB`: a fresh object whose
`m_context` is not initialised; the world afterwards and the new pointer. -/
def World.alloc (w : World) (kind : Kind) : World × Nat :=
  ({ w with
      heap := fun q => if q = w.next then some ⟨kind, false⟩ else w.heap q,
      next := w.next + 1 },
    w.next)

/-- `delete p`: nothing for `nullptr`, the object is released otherwise;
undefined (`none`) when there is no object at `p`. -/
def World.delete (w : World) (p : Option Nat) : Option World :=
  match p with
  | none => some w
  | some a =>
    match w.heap a with
    | none => none
    | some _ => some { w with heap := fun q => if q = a then none else w.heap q }

/-- `Context::transitionTo(state)`: the world afterwards and the text printed.
`typeName` stands for `typeid(...).name()`, which the implementation
defines. -/
def transitionTo (typeName : Kind → String) (w : World) (state : Nat) :
    Option (World × String) :=
  match w.heap state with
  | none => none
  | some o =>
    let out := "Context: Transition to " ++ typeName o.kind ++ ".\n"
    -- `delete m_state;`
    match w.delete w.m_state with
    | none => none
    | some w1 =>
      -- `m_state = state; m_state->setContext(this);`
      match w1.heap state with
      | none => none
      | some o1 =>
        some ({ w1 with
                  heap := fun q => if q = state then some { o1 with m_context := true }
                                   else w1.heap q,
                  m_state := some state },
              out)

/-- The constructor `Context(state)`: `m_state(nullptr)`, then
`transitionTo(state)`. -/
def Context.new (typeName : Kind → String) (w : World) (state : Nat) :
    Option (World × String) :=
  transitionTo typeName { w with m_state := none } state

/-- The virtual method `handle1()` called on the state object at `self`. -/
def handle1 (typeName : Kind → String) (w : World) (self : Nat) : Option (World × String) :=
  match w.heap self with
  | none => none
  | some o =>
    match o.kind with
    | Kind.ConcreteStateA =>
      let out := "ConcreteStateA handles request1.\n" ++
        "ConcreteStateA wants to change the state of the context.\n"
      let a := w.alloc Kind.ConcreteStateB
      if o.m_context then
        match transitionTo typeName a.1 a.2 with
        | none => none
        | some r => some (r.1, out ++ r.2)
      else none
    | Kind.ConcreteStateB => some (w, "ConcreteStateB handles request1.\n")

/-- The virtual method `handle2()` called on the state object at `self`. -/
def handle2 (typeName : Kind → String) (w : World) (self : Nat) : Option (World × String) :=
  match w.heap self with
  | none => none
  | some o =>
    match o.kind with
    | Kind.ConcreteStateA => some (w, "ConcreteStateA handles request2.\n")
    | Kind.ConcreteStateB =>
      let out := "ConcreteStateB handles request2.\n" ++
        "ConcreteStateB wants to change the state of the context.\n"
      let a := w.alloc Kind.ConcreteStateA
      if o.m_context then
        match transitionTo typeName a.1 a.2 with
        | none => none
        | some r => some (r.1, out ++ r.2)
      else none

/-- `Context::request1`: `m_state->handle1()`. -/
def request1 (typeName : Kind → String) (w : World) : Option (World × String) :=
  match w.m_state with
  | none => none
  | some s => handle1 typeName w s

/-- `Context::request2`: `m_state->handle2()`. -/
def request2 (typeName : Kind → String) (w : World) : Option (World × String) :=
  match w.m_state with
  | none => none
  | some s => handle2 typeName w s

/-- The context is in the state `kind`: its `m_state` points to a live object
of that dynamic type whose `m_context` points back, at an address that `new`
has handed out. -/
def InState (w : World) (kind : Kind) : Prop :=
  ∃ a, w.m_state = some a ∧ w.heap a = some ⟨kind, true⟩ ∧ a < w.next

/-- The world before `main` runs: no object. -/
def emptyWorld : World := ⟨fun _ => none, 0, none⟩

/-- Line 78 of `main`: `new Context(new ConcreteStateA)`. -/
def mainStart (typeName : Kind → String) : Option (World × String) :=
  let a := emptyWorld.alloc Kind.ConcreteStateA
  Context.new typeName a.1 a.2

end StateExample

/-! ## Strategy (`BEHAVIORAL/STRATEGY/Strategy_Conceptual_Example.cpp`) -/

namespace StrategyExample

/-- An object of the `Strategy` interface, given by its virtual method
`doAlgorithm`. -/
structure Strategy where
  doAlgorithm : String → String

/-- A `std::string` is the Lean string whose characters are its bytes (codes 0
to 255). -/
def IsByteString (data : String) : Prop :=
  ∀ c ∈ data.toList, c.toNat < 256

/-- The value of the `char` that holds the byte `c`.  Whether `char` is a
signed type is defined by the implementation (`signed`): a signed `char`
holds the bytes from 128 on as the negative values -128 to -1. -/
def charValue (signed : Bool) (c : Char) : Int :=
  if signed = true ∧ 128 ≤ c.toNat then (c.toNat : Int) - 256 else (c.toNat : Int)

/-- `std::sort(begin, end, comp)` on the characters of a string: the characters
arranged so that `comp` never holds between the values of a later and an
earlier one.  `value` gives the value of a `char`. -/
def stdSort (value : Char → Int) (comp : Int → Int → Prop) [DecidableRel comp]
    (data : String) : String :=
  ⟨data.toList.insertionSort (fun a b => ¬ comp (value b) (value a))⟩

/-- `ConcreteStrategyA`: `std::sort(std::begin(data), std::end(data))`, which
compares the `char` values with `<`. -/
def ConcreteStrategyA (signed : Bool) : Strategy :=
  ⟨fun data => stdSort (charValue signed) (fun a b => a < b) data⟩

/-- `ConcreteStrategyB`: `std::sort` with `std::greater`, which compares the
`char` values with `>`. -/
def ConcreteStrategyB (signed : Bool) : Strategy :=
  ⟨fun data => stdSort (charValue signed) (fun a b => a > b) data⟩

/-- The class `Context`: `m_strategy` is the `unique_ptr` (`none` when it is
empty). -/
structure Context where
  m_strategy : Option Strategy

/-- The constructor `Context(strategy)`. -/
def Context.new (strategy : Option Strategy) : Context := ⟨strategy⟩

/-- `Context::setStrategy`. -/
def Context.setStrategy (_self : Context) (strategy : Option Strategy) : Context :=
  ⟨strategy⟩

/-- `Context::doSomeBusinessLogic`: the text printed. -/
def Context.doSomeBusinessLogic (self : Context) : String :=
  match self.m_strategy with
  | some strategy =>
    "Context: Sorting data using the strategy (not sure how it'll do it)\n" ++
      strategy.doAlgorithm "aecbd" ++ "\n"
  | none => "Context: Strategy isn't set\n"

end StrategyExample

/-! ## Template Method
(`BEHAVIORAL/TEMPLATE_METHOD/Template_Method_Conceptual_Example.cpp`) -/

namespace TemplateMethodExample

/-- An object of a concrete subclass of `AbstractClass`, given by the text each
of its virtual operations prints.  The hooks default to the empty
implementation of `AbstractClass`. -/
structure AbstractClass where
  requiredOperations1 : String
  requiredOperation2 : String
  hook1 : String := ""
  hook2 : String := ""
deriving DecidableEq, Repr

/-- `AbstractClass::baseOperation1`. -/
def baseOperation1 : String := "AbstractClass says: I am doing the bulk of the work\n"

/-- `AbstractClass::baseOperation2`. -/
def baseOperation2 : String :=
  "AbstractClass says: But I let subclasses override some operations\n"

/-- `AbstractClass::baseOperation3`. -/
def baseOperation3 : String :=
  "AbstractClass says: But I am doing the bulk of the work anyway\n"

/-- `AbstractClass::templateMethod`: the text printed by the seven calls. -/
def AbstractClass.templateMethod (self : AbstractClass) : String :=
  baseOperation1 ++ self.requiredOperations1 ++ baseOperation2 ++ self.hook1 ++
    self.requiredOperation2 ++ baseOperation3 ++ self.hook2

/-- The class `ConcreteClass1`. -/
def ConcreteClass1 : AbstractClass :=
  { requiredOperations1 := "ConcreteClass1 says: Implemented Operation1\n",
    requiredOperation2 := "ConcreteClass1 says: Implemented Operation2\n" }

/-- The class `ConcreteClass2`, which overrides `hook1`. -/
def ConcreteClass2 : AbstractClass :=
  { requiredOperations1 := "ConcreteClass2 says: Implemented Operation1\n",
    requiredOperation2 := "ConcreteClass2 says: Implemented Operation2\n",
    hook1 := "ConcreteClass2 says: Overridden Hook1\n" }

/-- `clientCode`. -/
def clientCode (c : AbstractClass) : String := c.templateMethod

/-- The number of lines of a text: its line terminators. -/
def lineCount (text : String) : Nat := text.toList.count '\n'

end TemplateMethodExample

/-! ## Iterator (`BEHAVIORAL/ITERATOR/Iterator_Conceptual_Example.cpp`) -/

namespace IteratorExample

/-- The class template `Container<T>`: `m_data` is the vector. -/
structure Container (T : Type) where
  m_data : List T
deriving DecidableEq, Repr

/-- A default-constructed container. -/
def Container.new {T : Type} : Container T := ⟨[]⟩

/-- `Container::add`: `m_data.push_back(a)`. -/
def Container.add {T : Type} (self : Container T) (a : T) : Container T :=
  ⟨self.m_data ++ [a]⟩

/-- The class template `Iterator<T, U>`: `m_it` is the position of the vector
iterator, counted from `m_data.begin()`; the container `m_container` points to
is passed to every method. -/
structure Iterator where
  m_it : Nat
deriving DecidableEq, Repr

/-- `Container::createIterator`: the constructor sets
`m_it(m_container->m_data.begin())`. -/
def Container.createIterator {T : Type} (_self : Container T) : Iterator := ⟨0⟩

/-- `Iterator::first`. -/
def Iterator.first {T : Type} (_self : Iterator) (_container : Container T) : Iterator := ⟨0⟩

/-- `Iterator::next`: `m_it++`, undefined (`none`) on an iterator that is not
before `end()`. -/
def Iterator.next {T : Type} (self : Iterator) (container : Container T) : Option Iterator :=
  if self.m_it < container.m_data.length then some ⟨self.m_it + 1⟩ else none

/-- `Iterator::isDone`: `m_it == m_container->m_data.end()`. -/
def Iterator.isDone {T : Type} (self : Iterator) (container : Container T) : Bool :=
  self.m_it == container.m_data.length

/-- `*current()`: the element the iterator returned by `Iterator::current`
points to; undefined (`none`) at `end()` and beyond. -/
def Iterator.current {T : Type} (self : Iterator) (container : Container T) : Option T :=
  container.m_data[self.m_it]?

/-- The result of a traversal: the elements read, the iterator at the end and
the number of `next()` calls made. -/
structure Traversal (T : Type) where
  reads : List T
  iterator : Iterator
  nextCalls : Nat
deriving DecidableEq, Repr

/-- The loop `for (...; !it->isDone(); it->next()) { read *it->current(); }` of
`main`, from the position of `it`.  `none` stands for a run that is undefined
or makes more than `fuel` tests of `isDone()`. -/
def traverseLoop {T : Type} (container : Container T) :
    Nat → Iterator → Option (Traversal T)
  | 0, _ => none
  | fuel + 1, it =>
    if it.isDone container then some ⟨[], it, 0⟩
    else
      match it.current container with
      | none => none
      | some x =>
        match it.next container with
        | none => none
        | some it' =>
          match traverseLoop container fuel it' with
          | none => none
          | some r => some ⟨x :: r.reads, r.iterator, r.nextCalls + 1⟩

/-- The whole loop of `main`, `it->first()` included. -/
def traverse {T : Type} (container : Container T) (fuel : Nat) (it : Iterator) :
    Option (Traversal T) :=
  traverseLoop container fuel (it.first container)

/-- The calls `add(x1)`, ..., `add(xn)` on a container. -/
def addAll {T : Type} (self : Container T) (xs : List T) : Container T :=
  xs.foldl Container.add self

/-- `next()` called `k` times in a row. -/
def nextTimes {T : Type} (container : Container T) : Nat → Iterator → Option Iterator
  | 0, it => some it
  | k + 1, it =>
    match it.next container with
    | none => none
    | some it' => nextTimes container k it'

/-- The class `Data`. -/
structure Data where
  m_data : Int
deriving DecidableEq, Repr

/-- `Data::data`. -/
def Data.data (self : Data) : Int := self.m_data

/-- The container `cont1` of `main`: `add(i)` for `i` from 0 to 9. -/
def cont1 : Container Int :=
  addAll Container.new [0, 1, 2, 3, 4, 5, 6, 7, 8, 9]

/-- The container `cont2` of `main`. -/
def cont2 : Container Data :=
  ((Container.new.add ⟨100⟩).add ⟨1000⟩).add ⟨10000⟩

end IteratorExample

/-! ## Builder (`CREATIONAL/BUILDER/Builder_Conceptual_Example.cpp`) -/

namespace BuilderExample

/-- The class `Product1`. -/
structure Product1 where
  m_parts : List String
deriving DecidableEq, Repr

/-- `Product1::listParts`: the text printed. -/
def Product1.listParts (self : Product1) : String :=
  "Product parts: " ++ String.join (self.m_parts.map (fun part => part ++ ", ")) ++ "\n\n"

/-- The class `ConcreteBuilder1`: `m_product` is a pointer to a product. -/
structure ConcreteBuilder1 where
  m_product : Nat
deriving DecidableEq, Repr

/-- The program state: the heap of products, the next address
`new Product1()` hands out, and the heap of builders. -/
structure World where
  products : Nat → Option Product1
  next : Nat
  builders : Nat → Option ConcreteBuilder1

/-- `ConcreteBuilder1::reset` on a builder object that is being set to
`builder`: `m_product = new Product1()`.  The product held before is not
released. -/
def World.reset (w : World) (self : Nat) : World :=
  { products := fun q => if q = w.next then some ⟨[]⟩ else w.products q,
    next := w.next + 1,
    builders := fun q => if q = self then some ⟨w.next⟩ else w.builders q }

/-- `new ConcreteBuilder1()` with the new builder at address `self`: the
constructor calls `reset()`. -/
def ConcreteBuilder1.new (w : World) (self : Nat) : World :=
  w.reset self

/-- `m_product->m_parts.emplace_back(part)` on the builder at `self`; undefined
(`none`) without a live builder or a live product. -/
def producePart (w : World) (self : Nat) (part : String) : Option World :=
  match w.builders self with
  | none => none
  | some builder =>
    match w.products builder.m_product with
    | none => none
    | some product =>
      some { w with
        products := fun q =>
          if q = builder.m_product then some ⟨product.m_parts ++ [part]⟩ else w.products q }

/-- `ConcreteBuilder1::producePartA`. -/
def producePartA (w : World) (self : Nat) : Option World := producePart w self "PartA1"

/-- `ConcreteBuilder1::producePartB`. -/
def producePartB (w : World) (self : Nat) : Option World := producePart w self "PartB1"

/-- `ConcreteBuilder1::producePartC`. -/
def producePartC (w : World) (self : Nat) : Option World := producePart w self "PartC1"

/-- `ConcreteBuilder1::getProduct`: the world afterwards and the returned
pointer. -/
def getProduct (w : World) (self : Nat) : Option (World × Nat) :=
  match w.builders self with
  | none => none
  | some builder => some (w.reset self, builder.m_product)

/-- The class `Director`: `m_builder` is a pointer to a builder (`none` is
`nullptr`). -/
structure Director where
  m_builder : Option Nat
deriving DecidableEq, Repr

/-- `Director::setBuilder`. -/
def Director.setBuilder (_self : Director) (builder : Nat) : Director := ⟨some builder⟩

/-- `Director::buildMinimalViableProduct`. -/
def Director.buildMinimalViableProduct (self : Director) (w : World) : Option World :=
  match self.m_builder with
  | none => none
  | some builder => producePartA w builder

/-- `Director::buildFullFeaturedProduct`. -/
def Director.buildFullFeaturedProduct (self : Director) (w : World) : Option World :=
  match self.m_builder with
  | none => none
  | some builder =>
    match producePartA w builder with
    | none => none
    | some w1 =>
      match producePartB w1 builder with
      | none => none
      | some w2 => producePartC w2 builder

/-- The three building steps. -/
inductive Step where
  | producePartA
  | producePartB
  | producePartC
deriving DecidableEq, Repr

/-- The part name a step appends. -/
def Step.part : Step → String
  | Step.producePartA => "PartA1"
  | Step.producePartB => "PartB1"
  | Step.producePartC => "PartC1"

/-- One step called on the builder at `self`. -/
def Step.run (w : World) (self : Nat) : Step → Option World
  | Step.producePartA => BuilderExample.producePartA w self
  | Step.producePartB => BuilderExample.producePartB w self
  | Step.producePartC => BuilderExample.producePartC w self

/-- A call on the builder: a building step or `getProduct()`. -/
inductive Op where
  | step (s : Step)
  | getProduct
deriving DecidableEq, Repr

/-- A sequence of calls on the builder at `self`, in list order (the pointers
that `getProduct()` returns are dropped). -/
def runOps (w : World) (self : Nat) : List Op → Option World
  | [] => some w
  | Op.step s :: rest =>
    match s.run w self with
    | none => none
    | some w' => runOps w' self rest
  | Op.getProduct :: rest =>
    match getProduct w self with
    | none => none
    | some r => runOps r.1 self rest

/-- A sequence of building steps on the builder at `self`, in list order. -/
def runSteps (w : World) (self : Nat) (steps : List Step) : Option World :=
  runOps w self (steps.map Op.step)

/-- The builder at `self` holds the live product at `p`, whose parts are
`parts`. -/
def Holds (w : World) (self p : Nat) (parts : List String) : Prop :=
  w.builders self = some ⟨p⟩ ∧ w.products p = some ⟨parts⟩ ∧ p < w.next

/-- The builder at `self` holds a blank product. -/
def Blank (w : World) (self : Nat) : Prop :=
  ∃ p, Holds w self p []

/-- The world before `clientCode` runs: no object. -/
def emptyWorld : World := ⟨fun _ => none, 0, fun _ => none⟩

/-- The parts of the product a pointer returned by `getProduct()` points to. -/
def partsOf (r : Option (World × Nat)) : Option (List String) :=
  match r with
  | none => none
  | some (w, p) => (w.products p).map (fun product => product.m_parts)

/-- Lines 84 to 88 of `clientCode`: a new builder (at address 0) is given to
the director, `buildMinimalViableProduct()`, then `getProduct()`. -/
def clientMinimal : Option (World × Nat) :=
  let w := ConcreteBuilder1.new emptyWorld 0
  let director := (Director.mk none).setBuilder 0
  match director.buildMinimalViableProduct w with
  | none => none
  | some w1 => getProduct w1 0

/-- Lines 93 and 94 of `clientCode`: `buildFullFeaturedProduct()`, then
`getProduct()`, on the world the first retrieval left. -/
def clientFull : Option (World × Nat) :=
  match clientMinimal with
  | none => none
  | some r =>
    match ((Director.mk none).setBuilder 0).buildFullFeaturedProduct r.1 with
    | none => none
    | some w1 => getProduct w1 0

end BuilderExample

/-! ## Mediator (`BEHAVIORAL/MEDIATOR/Mediator_Conceptual_Example.cpp`) -/

namespace MediatorExample

/-- An object of the program: a `Component1` or `Component2` with the field
`m_mediator` of `BaseComponent` (`none` is `nullptr`), or a `ConcreteMediator`
with its two component pointers. -/
inductive Obj where
  | Component1 (m_mediator : Option Nat) : Obj
  | Component2 (m_mediator : Option Nat) : Obj
  | ConcreteMediator (m_component1 m_component2 : Nat) : Obj
deriving DecidableEq, Repr

/-- The heap of objects, by address. -/
abbrev Heap := Nat → Option Obj

/-- Writing an object at address `p`. -/
def Heap.store (heap : Heap) (p : Nat) (o : Obj) : Heap :=
  fun q => if q = p then some o else heap q

/-- `BaseComponent::setMediator` on the component at `self`.  (A call through
a pointer without a live component is not modelled: the heap is returned as it
is.) -/
def setMediator (heap : Heap) (self mediator : Nat) : Heap :=
  match heap self with
  | some (Obj.Component1 _) => heap.store self (Obj.Component1 (some mediator))
  | some (Obj.Component2 _) => heap.store self (Obj.Component2 (some mediator))
  | _ => heap

/-- The constructor `ConcreteMediator(c1, c2)` for the mediator created at
address `self`: it stores the two pointers and calls `setMediator(this)` on
both components. -/
def ConcreteMediator.new (heap : Heap) (self c1 c2 : Nat) : Heap :=
  let h := heap.store self (Obj.ConcreteMediator c1 c2)
  let h := setMediator h c1 self
  setMediator h c2 self

/-- A method call of the program. -/
inductive Call where
  | doA (self : Nat)
  | doB (self : Nat)
  | doC (self : Nat)
  | doD (self : Nat)
  | notify (self sender : Nat) (event : String)
deriving DecidableEq, Repr

/-- The text a call prints.  `none` stands for a call that does not return: a
null or dangling pointer, or calls nested deeper than `fuel`.
`Component1::doA`, `Component1::doB`, `Component2::doC`, `Component2::doD`
print their line and call `m_mediator->notify(this, tag)`;
`ConcreteMediator::notify` runs its two `if` statements. -/
def exec (heap : Heap) : Nat → Call → Option String
  | 0, _ => none
  | fuel + 1, Call.doA self =>
    match heap self with
    | some (Obj.Component1 (some mediator)) =>
      match exec heap fuel (Call.notify mediator self "A") with
      | none => none
      | some out => some ("Component1 does A.\n" ++ out)
    | _ => none
  | fuel + 1, Call.doB self =>
    match heap self with
    | some (Obj.Component1 (some mediator)) =>
      match exec heap fuel (Call.notify mediator self "B") with
      | none => none
      | some out => some ("Component1 does B.\n" ++ out)
    | _ => none
  | fuel + 1, Call.doC self =>
    match heap self with
    | some (Obj.Component2 (some mediator)) =>
      match exec heap fuel (Call.notify mediator self "C") with
      | none => none
      | some out => some ("Component2 does C.\n" ++ out)
    | _ => none
  | fuel + 1, Call.doD self =>
    match heap self with
    | some (Obj.Component2 (some mediator)) =>
      match exec heap fuel (Call.notify mediator self "D") with
      | none => none
      | some out => some ("Component2 does D.\n" ++ out)
    | _ => none
  | fuel + 1, Call.notify self _ event =>
    match heap self with
    | some (Obj.ConcreteMediator m_component1 m_component2) =>
      -- `if (event == "A")`
      let onA : Option String :=
        if event = "A" then
          match exec heap fuel (Call.doC m_component2) with
          | none => none
          | some out =>
            some ("Mediator reacts on A and triggers following operations:\n" ++ out)
        else some ""
      match onA with
      | none => none
      | some outA =>
        -- `if (event == "D")`
        let onD : Option String :=
          if event = "D" then
            match exec heap fuel (Call.doB m_component1) with
            | none => none
            | some outB =>
              match exec heap fuel (Call.doC m_component2) with
              | none => none
              | some outC =>
                some ("Mediator reacts on D and triggers following operations:\n" ++
                  outB ++ outC)
          else some ""
        match onD with
        | none => none
        | some outD => some (outA ++ outD)
    | _ => none

/-- `Component1::doA` on the component at `self`. -/
def doA (heap : Heap) (fuel self : Nat) : Option String := exec heap fuel (Call.doA self)

/-- `Component1::doB` on the component at `self`. -/
def doB (heap : Heap) (fuel self : Nat) : Option String := exec heap fuel (Call.doB self)

/-- `Component2::doC` on the component at `self`. -/
def doC (heap : Heap) (fuel self : Nat) : Option String := exec heap fuel (Call.doC self)

/-- `Component2::doD` on the component at `self`. -/
def doD (heap : Heap) (fuel self : Nat) : Option String := exec heap fuel (Call.doD self)

/-- `ConcreteMediator::notify` on the mediator at `self`. -/
def notify (heap : Heap) (fuel self sender : Nat) (event : String) : Option String :=
  exec heap fuel (Call.notify self sender event)

/-- The `Component1` at `c1` and the `Component2` at `c2` are wired to the
`ConcreteMediator` at `m`, and `m` to them. -/
def Wired (heap : Heap) (c1 c2 m : Nat) : Prop :=
  heap c1 = some (Obj.Component1 (some m))
  ∧ heap c2 = some (Obj.Component2 (some m))
  ∧ heap m = some (Obj.ConcreteMediator c1 c2)

/-- The empty heap. -/
def emptyHeap : Heap := fun _ => none

/-- The objects of `main` after line 96: `c1` at address 1, `c2` at 2 and
`mediator` at 0. -/
def mainHeap : Heap :=
  let h := emptyHeap.store 1 (Obj.Component1 none)
  let h := h.store 2 (Obj.Component2 none)
  ConcreteMediator.new h 0 1 2

end MediatorExample

/-! ## Command (`BEHAVIORAL/COMMAND/Command_Conceptual_Example.cpp`) -/

namespace CommandExample

/-- The class `Receiver`, which has no fields. -/
structure Receiver where
deriving DecidableEq, Repr

/-- `Receiver::doSomething`: the text printed. -/
def Receiver.doSomething (_self : Receiver) (a : String) : String :=
  "Receiver: Working on (" ++ a ++ ").\n"

/-- `Receiver::doSomethingElse`: the text printed. -/
def Receiver.doSomethingElse (_self : Receiver) (b : String) : String :=
  "Receiver: Also working on (" ++ b ++ ").\n"

/-- An object of the `Command` hierarchy.  `m_receiver` is the receiver the
pointer of a `ComplexCommand` designates (`none` is `nullptr`). -/
inductive Command where
  | SimpleCommand (m_payload : String) : Command
  | ComplexCommand (m_receiver : Option Receiver) (m_a m_b : String) : Command
deriving DecidableEq, Repr

/-- The virtual method `execute()`: the text printed; undefined (`none`) when a
`ComplexCommand` calls through a null receiver pointer. -/
def Command.execute : Command → Option String
  | Command.SimpleCommand m_payload =>
    some ("SimpleCommand: See, I can do simple things like printing (" ++ m_payload ++ ").\n")
  | Command.ComplexCommand m_receiver m_a m_b =>
    match m_receiver with
    | none => none
    | some receiver =>
      some ("ComplexCommand: Complex stuff should be done by a receiver object.\n" ++
        receiver.doSomething m_a ++ receiver.doSomethingElse m_b)

/-- The value of a pointer member of type `const Command*`: never written
(`indeterminate`), `nullptr`, or the address of a command (given by the
command itself, which the invoker owns). -/
inductive Ptr where
  | indeterminate : Ptr
  | null : Ptr
  | object (command : Command) : Ptr
deriving DecidableEq, Repr

/-- A pointer passed as an argument: `nullptr` or the address of a command. -/
def Ptr.ofArg : Option Command → Ptr
  | none => Ptr.null
  | some command => Ptr.object command

/-- The class `Invoker`. -/
structure Invoker where
  m_onStart : Ptr
  m_onFinish : Ptr
deriving DecidableEq, Repr

/-- `new Invoker` as in `main`: the class declares no constructor and no member
initialiser, so both pointers are left unwritten. -/
def Invoker.new : Invoker := ⟨Ptr.indeterminate, Ptr.indeterminate⟩

/-- `Invoker::setOnStart`. -/
def Invoker.setOnStart (self : Invoker) (command : Option Command) : Invoker :=
  { self with m_onStart := Ptr.ofArg command }

/-- `Invoker::setOnFinish`. -/
def Invoker.setOnFinish (self : Invoker) (command : Option Command) : Invoker :=
  { self with m_onFinish := Ptr.ofArg command }

/-- The statement `if (p) { p->execute(); }`: the text printed; undefined
(`none`) when `p` was never written. -/
def Ptr.executeIfSet : Ptr → Option String
  | Ptr.indeterminate => none
  | Ptr.null => some ""
  | Ptr.object command => command.execute

/-- `Invoker::doSomethingImportant`: the text printed. -/
def Invoker.doSomethingImportant (self : Invoker) : Option String :=
  match self.m_onStart.executeIfSet with
  | none => none
  | some outStart =>
    match self.m_onFinish.executeIfSet with
    | none => none
    | some outFinish =>
      some ("Invoker: Does anybody want something done before I begin?\n" ++
        outStart ++
        "Invoker: ...doing something really important...\n" ++
        "Invoker: Does anybody want something done after I finish?\n" ++
        outFinish)

/-- The invoker of `main` after line 107. -/
def mainInvoker : Invoker :=
  (Invoker.new.setOnStart (some (Command.SimpleCommand "Say Hi!"))).setOnFinish
    (some (Command.ComplexCommand (some ⟨⟩) "Send email" "Save report"))

end CommandExample

/-! ## Prototype (`CREATIONAL/PROTOTYPE/Prototype_Conceptual_Example.cpp`) -/

namespace PrototypeExample

/-- The enumeration `Type`. -/
inductive ProtoType where
  | PROTOTYPE_1
  | PROTOTYPE_2
deriving DecidableEq, Repr

/-- The two concrete classes. -/
inductive Class where
  | ConcretePrototype1
  | ConcretePrototype2
deriving DecidableEq, Repr

/-- An object of the `Prototype` hierarchy: its dynamic class and the two
fields of `Prototype`.  `F` is the type of the values of `float`; the program
only stores and copies them. -/
structure Prototype (F : Type) where
  dynamicClass : Class
  m_prototypeName : String
  m_prototypeField : F

/-- The program state: the heap of prototype objects and the next address `new`
hands out. -/
structure World (F : Type) where
  heap : Nat → Option (Prototype F)
  next : Nat

/-- `new` of a prototype object: the world afterwards and the new pointer. -/
def World.alloc {F : Type} (w : World F) (obj : Prototype F) : World F × Nat :=
  (⟨fun q => if q = w.next then some obj else w.heap q, w.next + 1⟩, w.next)

/-- `delete p`: undefined (`none`) when there is no object at `p`. -/
def World.delete {F : Type} (w : World F) (p : Nat) : Option (World F) :=
  match w.heap p with
  | none => none
  | some _ => some ⟨fun q => if q = p then none else w.heap q, w.next⟩

/-- The virtual method `clone()` called on the object at `self`:
`new ConcretePrototype1(*this)` or `new ConcretePrototype2(*this)`, by the
dynamic class; the copy constructor copies both fields. -/
def clone {F : Type} (w : World F) (self : Nat) : Option (World F × Nat) :=
  match w.heap self with
  | none => none
  | some obj =>
    match obj.dynamicClass with
    | Class.ConcretePrototype1 =>
      some (w.alloc ⟨Class.ConcretePrototype1, obj.m_prototypeName, obj.m_prototypeField⟩)
    | Class.ConcretePrototype2 =>
      some (w.alloc ⟨Class.ConcretePrototype2, obj.m_prototypeName, obj.m_prototypeField⟩)

/-- `Prototype::method(prototypeField)` called on the object at `self`: the
world afterwards and the text printed.  `fmt` is the text `operator<<` prints
for a `float`. -/
def method {F : Type} (fmt : F → String) (w : World F) (self : Nat) (prototypeField : F) :
    Option (World F × String) :=
  match w.heap self with
  | none => none
  | some obj =>
    some (⟨fun q => if q = self then some { obj with m_prototypeField := prototypeField }
                    else w.heap q, w.next⟩,
          "call method from " ++ obj.m_prototypeName ++ " with field: " ++
            fmt prototypeField ++ "\n")

/-- The class `PrototypeFactory`: the pointer `m_prototypes` holds for each of
the two keys, which the constructor writes and nothing removes. -/
structure PrototypeFactory where
  m_prototypes : ProtoType → Nat

/-- The constructor `PrototypeFactory()`.  `f50` and `f60` are the `float`
values `50.f` and `60.f`. -/
def PrototypeFactory.new {F : Type} (f50 f60 : F) (w : World F) :
    World F × PrototypeFactory :=
  let a1 := w.alloc ⟨Class.ConcretePrototype1, "PROTOTYPE_1 ", f50⟩
  let a2 := a1.1.alloc ⟨Class.ConcretePrototype2, "PROTOTYPE_2 ", f60⟩
  (a2.1, ⟨fun t => match t with
    | ProtoType.PROTOTYPE_1 => a1.2
    | ProtoType.PROTOTYPE_2 => a2.2⟩)

/-- `PrototypeFactory::createPrototype`: `m_prototypes[type]->clone()`. -/
def PrototypeFactory.createPrototype {F : Type} (self : PrototypeFactory) (w : World F)
    (type : ProtoType) : Option (World F × Nat) :=
  clone w (self.m_prototypes type)

/-- The prototype the constructor registers for a type. -/
def registered {F : Type} (f50 f60 : F) : ProtoType → Prototype F
  | ProtoType.PROTOTYPE_1 => ⟨Class.ConcretePrototype1, "PROTOTYPE_1 ", f50⟩
  | ProtoType.PROTOTYPE_2 => ⟨Class.ConcretePrototype2, "PROTOTYPE_2 ", f60⟩

/-- What a client of the factory can do: ask for a clone, call `method` on the
`i`-th clone it was given, or `delete` the `i`-th clone it was given. -/
inductive ClientOp (F : Type) where
  | createPrototype (type : ProtoType) : ClientOp F
  | method (i : Nat) (prototypeField : F) : ClientOp F
  | delete (i : Nat) : ClientOp F

/-- The client: the world and the pointers `createPrototype` has returned to
it, oldest first. -/
structure Client (F : Type) where
  world : World F
  clones : List Nat

/-- One operation of the client; `none` when it is undefined. -/
def runOp {F : Type} (fmt : F → String) (factory : PrototypeFactory) (c : Client F) :
    ClientOp F → Option (Client F)
  | ClientOp.createPrototype type =>
    match factory.createPrototype c.world type with
    | none => none
    | some r => some ⟨r.1, c.clones ++ [r.2]⟩
  | ClientOp.method i prototypeField =>
    match c.clones[i]? with
    | none => none
    | some p =>
      match method fmt c.world p prototypeField with
      | none => none
      | some r => some ⟨r.1, c.clones⟩
  | ClientOp.delete i =>
    match c.clones[i]? with
    | none => none
    | some p =>
      match c.world.delete p with
      | none => none
      | some w => some ⟨w, c.clones⟩

/-- A sequence of operations of the client, in list order. -/
def runOps {F : Type} (fmt : F → String) (factory : PrototypeFactory) :
    Client F → List (ClientOp F) → Option (Client F)
  | c, [] => some c
  | c, op :: rest =>
    match runOp fmt factory c op with
    | none => none
    | some c' => runOps fmt factory c' rest

/-- The registered prototypes are in place, and the clones handed out are other
objects: all addresses in use are below `next`. -/
def FactoryIntact {F : Type} (f50 f60 : F) (factory : PrototypeFactory) (c : Client F) :
    Prop :=
  (∀ t, c.world.heap (factory.m_prototypes t) = some (registered f50 f60 t)
        ∧ factory.m_prototypes t < c.world.next)
  ∧ (∀ q ∈ c.clones, q < c.world.next ∧ ∀ t, q ≠ factory.m_prototypes t)

/-- The world before `main` runs: no object. -/
def emptyWorld {F : Type} : World F := ⟨fun _ => none, 0⟩

end PrototypeExample

/-! ## Proxy (`STRUCTURAL/PROXY/Proxy_Conceptual_Example.cpp`) -/

namespace ProxyExample

/-- The class `RealSubject`, which has no fields. -/
structure RealSubject where
deriving DecidableEq, Repr

/-- `RealSubject::request`: the text printed. -/
def RealSubject.request (_self : RealSubject) : String :=
  "RealSubject: Handling request.\n"

/-- The class `Proxy`: `m_realSubject` is the real subject the constructor
creates with `new RealSubject` and the destructor deletes. -/
structure Proxy where
  m_realSubject : RealSubject
deriving DecidableEq, Repr

/-- The constructor `Proxy()`. -/
def Proxy.new : Proxy := ⟨⟨⟩⟩

/-- `Proxy::checkAccess`: the text printed and the value returned. -/
def Proxy.checkAccess (_self : Proxy) : String × Bool :=
  ("Proxy: Checking access prior to firing a real request.\n", true)

/-- `Proxy::logAccess`: the text printed. -/
def Proxy.logAccess (_self : Proxy) : String :=
  "Proxy: Logging the time of request.\n"

/-- The body of `Proxy::request` for a given outcome `check` of the call
`checkAccess()`: `if (check) { m_realSubject->request(); logAccess(); }`. -/
def Proxy.requestAfter (self : Proxy) (check : String × Bool) : String :=
  check.1 ++ (if check.2 then self.m_realSubject.request ++ self.logAccess else "")

/-- `Proxy::request`: the text printed. -/
def Proxy.request (self : Proxy) : String :=
  self.requestAfter self.checkAccess

/-- An object seen through the `Subject` interface. -/
inductive Subject where
  | RealSubject (s : RealSubject) : Subject
  | Proxy (p : Proxy) : Subject
deriving DecidableEq, Repr

/-- The virtual method `request()`. -/
def Subject.request : Subject → String
  | Subject.RealSubject s => s.request
  | Subject.Proxy p => p.request

/-- `clientCode`. -/
def clientCode (subject : Subject) : String := subject.request

end ProxyExample

/-! ## Adapter, class variant
(`STRUCTURAL/ADAPTER/Class_Adapter_Conceptual_Example.cpp`) -/

namespace ClassAdapterExample

/-- The class `Adaptee`, which has no fields. -/
structure Adaptee where
deriving DecidableEq, Repr

/-- `Adaptee::specificRequest`. -/
def Adaptee.specificRequest (_self : Adaptee) : String :=
  "Adaptee: std::string specificRequest() const"

/-- An object seen through a `Target` pointer: a plain `Target` (constructor
`Plain`), or an `Adapter`, which derives from `Target` and from `Adaptee` and so contains an
`Adaptee` base object. -/
inductive Target where
  | Plain : Target
  | Adapter (adaptee : Adaptee) : Target
deriving DecidableEq, Repr

/-- The virtual method `request()`: the default of `Target`, and the override
of `Adapter`, which returns `specificRequest()` of its own `Adaptee` base. -/
def Target.request : Target → String
  | Target.Plain => "Target: virtual std::string request() const"
  | Target.Adapter adaptee => adaptee.specificRequest

/-- `clientCode`: the text printed. -/
def clientCode (target : Target) : String :=
  "void clientCode(const Target* const target)\n" ++ target.request ++ "\n"

end ClassAdapterExample

/-! ## Adapter, object variant
(`STRUCTURAL/ADAPTER/Object_Adapter_Conceptual_Example.cpp`) -/

namespace ObjectAdapterExample

/-- The class `Adaptee`, which has no fields. -/
structure Adaptee where
deriving DecidableEq, Repr

/-- `Adaptee::specificRequest`. -/
def Adaptee.specificRequest (_self : Adaptee) : String :=
  "Adaptee: std::string specificRequest() const"

/-- An object seen through a `Target` pointer: a plain `Target` (constructor
`Plain`), or an `Adapter` with the adaptee its pointer `m_adaptee` designates (`none` is
`nullptr`). -/
inductive Target where
  | Plain : Target
  | Adapter (m_adaptee : Option Adaptee) : Target
deriving DecidableEq, Repr

/-- The virtual method `request()`: the default of `Target`, and the override
of `Adapter`, which returns `m_adaptee->specificRequest()`; undefined (`none`)
through a null pointer. -/
def Target.request : Target → Option String
  | Target.Plain => some "Target: virtual std::string request() const"
  | Target.Adapter m_adaptee =>
    match m_adaptee with
    | none => none
    | some adaptee => some adaptee.specificRequest

/-- `clientCode`: the text printed. -/
def clientCode (target : Target) : Option String :=
  match target.request with
  | none => none
  | some r => some ("void clientCode(const Target* const target)\n" ++ r ++ "\n")

end ObjectAdapterExample

/-! ## Composite: a child added twice -/

namespace CompositeExample

/-- A composite (address 0) on which `add(leaf)` is called twice with the same
leaf (address 1). -/
def twiceHeap : Heap :=
  let h := emptyHeap.store 0 (Component.Composite [])
  let h := h.store 1 Component.Leaf
  let h := add h 0 1
  add h 0 1

/-- A composite (address 0) with `add(leaf1)`, `add(leaf2)`, `add(leaf1)`, the
leaves at the addresses 1 and 2. -/
def thriceHeap : Heap :=
  let h := emptyHeap.store 0 (Component.Composite [])
  let h := h.store 1 Component.Leaf
  let h := h.store 2 Component.Leaf
  let h := add h 0 1
  let h := add h 0 2
  add h 0 1

end CompositeExample

/-! ## Observer: sequences of `attach` and `detach`, and `update` methods that
detach -/

namespace ObserverExample

/-- A subscription call on the subject. -/
inductive Op where
  | attach (observer : Nat)
  | detach (observer : Nat)
deriving DecidableEq, Repr

/-- A sequence of `attach` and `detach` calls, in list order. -/
def Subject.run (self : Subject) : List Op → Subject
  | [] => self
  | Op.attach o :: rest => Subject.run (self.attach o) rest
  | Op.detach o :: rest => Subject.run (self.detach o) rest

/-- In the sequence of calls no observer is attached while it is attached
already. -/
def AttachesAbsent : Subject → List Op → Prop
  | _, [] => True
  | self, Op.attach o :: rest => o ∉ self.m_observers ∧ AttachesAbsent (self.attach o) rest
  | self, Op.detach o :: rest => AttachesAbsent (self.detach o) rest

/-- The range-for loop of `Subject::notify` over observers whose `update` calls
`detach` on the subject: `detaching o` lists the observers that the `update` of
observer `o` detaches.  The loop walks the list itself: a node erased before
the loop reaches it is not visited (`removed` collects the pointers erased so
far), and erasing the node the loop stands on leaves its iterator dangling
(undefined, `none`).  The result is the `update` calls made (receiver and
argument, in call order) and the pointers erased. -/
def notifyLoopDetaching (detaching : Nat → List Nat) (m_message : String) :
    List Nat → List Nat → Option (List (Nat × String) × List Nat)
  | [], removed => some ([], removed)
  | observer :: rest, removed =>
    if observer ∈ removed then notifyLoopDetaching detaching m_message rest removed
    else if observer ∈ detaching observer then none
    else
      match notifyLoopDetaching detaching m_message rest (removed ++ detaching observer) with
      | none => none
      | some r => some ((observer, m_message) :: r.1, r.2)

/-- `Subject::notify` over observers whose `update` detaches: the subject
afterwards and the `update` calls made. -/
def Subject.notifyDetaching (self : Subject) (detaching : Nat → List Nat) :
    Option (Subject × List (Nat × String)) :=
  match notifyLoopDetaching detaching self.m_message self.m_observers [] with
  | none => none
  | some r =>
    some ({ self with m_observers := self.m_observers.filter (fun o => o ∉ r.2) }, r.1)

/-- Every `update` detaches only observers that come before its own observer
in the list or are not in the list. -/
def DetachesOnlyEarlier (detaching : Nat → List Nat) : List Nat → Prop
  | [] => True
  | observer :: rest =>
    (∀ d ∈ detaching observer, d ∉ observer :: rest) ∧ DetachesOnlyEarlier detaching rest

end ObserverExample

/-! ## State: sequences of requests -/

namespace StateExample

/-- A request of the client to the context. -/
inductive Request where
  | request1
  | request2
deriving DecidableEq, Repr

/-- One request: `Context::request1` or `Context::request2`. -/
def Request.run (typeName : Kind → String) (w : World) : Request → Option (World × String)
  | Request.request1 => StateExample.request1 typeName w
  | Request.request2 => StateExample.request2 typeName w

/-- A sequence of requests, in list order: the world afterwards and all the
text printed. -/
def runRequests (typeName : Kind → String) : World → List Request → Option (World × String)
  | w, [] => some (w, "")
  | w, r :: rest =>
    match r.run typeName w with
    | none => none
    | some (w1, out1) =>
      match runRequests typeName w1 rest with
      | none => none
      | some (w2, out2) => some (w2, out1 ++ out2)

/-- The transition table: A goes to B on `request1`, B goes to A on
`request2`, and nothing else changes the state. -/
def Kind.step : Kind → Request → Kind
  | Kind.ConcreteStateA, Request.request1 => Kind.ConcreteStateB
  | Kind.ConcreteStateB, Request.request2 => Kind.ConcreteStateA
  | kind, _ => kind

/-- The context is in the state `kind` and its state object is the only live
state object. -/
def OnlyState (w : World) (kind : Kind) : Prop :=
  InState w kind ∧ ∀ a, (w.heap a).isSome = true → w.m_state = some a

end StateExample

/-! ## Flyweight: the reachable registries -/

namespace FlyweightExample

/-- A sequence of `getFlyweight` calls, in list order (the returned flyweights
and the text printed are dropped). -/
def FlyweightFactory.run (self : FlyweightFactory) :
    List (String × String × String) → FlyweightFactory
  | [] => self
  | request :: rest =>
    FlyweightFactory.run (getFlyweight self request.1 request.2.1 request.2.2).1 rest

/-- Every entry is registered under the key of its own fields, and no key
occurs twice. -/
def RegistryOK (m : FlyweightMap) : Prop :=
  (∀ e ∈ m, e.1 = getKey e.2.m_brand e.2.m_model e.2.m_color)
  ∧ (m.map Prod.fst).Nodup

end FlyweightExample

/-! ## Flyweight: which object a call returns -/

namespace FlyweightExample

/-- Which `Flyweight` object: the one stored in the registry entry under a key,
or the result object of the `getFlyweight` call with a given number
(calls are numbered in program order). -/
inductive Instance where
  | stored (key : String)
  | result (call : Nat)
deriving DecidableEq, Repr

/-- What a `getFlyweight` call hands over: the stored object `it->second`
designates (`found`), the object the caller receives (`object`) and its
fields (`value`). -/
structure Returned where
  found : Instance
  object : Instance
  value : Flyweight
deriving DecidableEq, Repr

/-- `FlyweightFactory::getFlyweight` with the identity of the objects.  `it`
points to the entry under the key; the return type is `Flyweight`, not a
reference, so `return it->second;` copy-initialises the result object of the
call from the stored flyweight. -/
def getFlyweightObject (call : Nat) (self : FlyweightFactory) (brand model color : String) :
    FlyweightFactory × Returned × String :=
  let r := getFlyweight self brand model color
  (r.1, ⟨Instance.stored (getKey brand model color), Instance.result call, r.2.1⟩, r.2.2)

end FlyweightExample

/-! # Theorems -/

/-! ## Helper lemmas on strings -/


theorem String.intercalate_go_append (s : String) :
    ∀ (l : List String) (a b : String),
      String.intercalate.go (a ++ b) s l = a ++ String.intercalate.go b s l := by
  intro l
  induction l with
  | nil => intro a b; rfl
  | cons x xs ih =>
    intro a b
    show String.intercalate.go (a ++ b ++ s ++ x) s xs
        = a ++ String.intercalate.go (b ++ s ++ x) s xs
    rw [← ih a (b ++ s ++ x)]
    simp [String.append_assoc]

theorem String.intercalate_cons_cons (s x y : String) (l : List String) :
    String.intercalate s (x :: y :: l) = x ++ s ++ String.intercalate s (y :: l) := by
  show String.intercalate.go (x ++ s ++ y) s l = x ++ s ++ String.intercalate.go y s l
  exact String.intercalate_go_append s l (x ++ s) y

/-! ## Composite -/

namespace CompositeExample


theorem operationLoop_mono {op op' : Nat → Option String}
    (hop : ∀ c r, op c = some r → op' c = some r) (back : Option Nat) :
    ∀ (cs : List Nat) (acc res : String),
      operationLoop op back cs acc = some res → operationLoop op' back cs acc = some res := by
  intro cs
  induction cs with
  | nil => intro acc res h; exact h
  | cons c rest ih =>
    intro acc res h
    unfold operationLoop at h ⊢
    cases hc : op c with
    | none => rw [hc] at h; cases h
    | some r =>
      rw [hc] at h
      rw [hop c r hc]
      exact ih _ _ h

/-- More fuel never changes a result already obtained. -/
theorem operation_mono (heap : Heap) :
    ∀ (fuel : Nat) (p : Nat) (r : String),
      operation heap fuel p = some r → operation heap (fuel + 1) p = some r := by
  intro fuel
  induction fuel with
  | zero => intro p r h; cases h
  | succ n ih =>
    intro p r h
    unfold operation at h ⊢
    cases hp : heap p with
    | none => rw [hp] at h; cases h
    | some obj =>
      rw [hp] at h
      cases obj with
      | Leaf => exact h
      | Composite cs =>
        simp only at h ⊢
        cases hl : operationLoop (operation heap n) cs.getLast? cs "" with
        | none => rw [hl] at h; cases h
        | some res =>
          rw [hl] at h
          rw [operationLoop_mono ih cs.getLast? cs "" res hl]
          exact h

theorem operation_mono_le (heap : Heap) (p : Nat) (r : String) :
    ∀ (fuel fuel' : Nat), fuel ≤ fuel' →
      operation heap fuel p = some r → operation heap fuel' p = some r := by
  intro fuel fuel' hle h
  induction hle with
  | refl => exact h
  | step _ ih => exact operation_mono heap _ p r ih

/-- Children that each return have a common fuel at which all of them return. -/
theorem returns_common_fuel (heap : Heap) :
    ∀ (cs : List Nat) (rs : List String),
      List.Forall₂ (fun c r => Returns heap c r) cs rs →
      ∃ fuel, List.Forall₂ (fun c r => operation heap fuel c = some r) cs rs := by
  intro cs rs h
  induction h with
  | nil => exact ⟨0, List.Forall₂.nil⟩
  | @cons c r cs rs hc _ ih =>
    obtain ⟨f1, h1⟩ := hc
    obtain ⟨f2, h2⟩ := ih
    refine ⟨max f1 f2, List.Forall₂.cons ?_ ?_⟩
    · exact operation_mono_le heap c r f1 _ (le_max_left _ _) h1
    · exact h2.imp (fun {a b} hab => operation_mono_le heap a b f2 _ (le_max_right _ _) hab)

/-- The loop over pairwise distinct children appends the separated join. -/
theorem operationLoop_nodup (op : Nat → Option String) (back : Nat) :
    ∀ (cs : List Nat) (rs : List String) (acc : String),
      cs.getLast? = some back → cs.Nodup →
      List.Forall₂ (fun c r => op c = some r) cs rs →
      operationLoop op (some back) cs acc = some (acc ++ String.intercalate " + " rs) := by
  intro cs
  induction cs with
  | nil => intro rs acc hlast; simp at hlast
  | cons c rest ih =>
    intro rs acc hlast hnd hrs
    cases hrs with
    | @cons _ r _ rs' hc hrest =>
      unfold operationLoop
      rw [hc]
      cases rest with
      | nil =>
        cases hrest
        simp at hlast
        subst hlast
        simp [operationLoop, String.intercalate, String.intercalate.go]
      | cons c' rest' =>
        have hlast' : (c' :: rest').getLast? = some back := by
          simpa [List.getLast?_cons_cons] using hlast
        have hmem : back ∈ c' :: rest' := List.mem_of_getLast?_eq_some hlast'
        have hne : c ≠ back := by
          intro hEq
          subst hEq
          exact (List.nodup_cons.mp hnd).1 hmem
        have hne' : ¬ (some c = some back) := by
          intro hEq
          exact hne (Option.some.inj hEq)
        cases hrest with
        | @cons _ r' _ rs'' hc' hrest' =>
          simp only [hne', if_false]
          rw [ih (r' :: rs'') _ hlast' (List.nodup_cons.mp hnd).2 (List.Forall₂.cons hc' hrest')]
          rw [String.intercalate_cons_cons]
          simp [String.append_assoc]

/-- Running the loop of a composite whose children return. -/
theorem operation_composite_of_loop (heap : Heap) (self : Nat) (cs : List Nat)
    (fuel : Nat) (res : String) (hself : heap self = some (Component.Composite cs))
    (hloop : operationLoop (operation heap fuel) cs.getLast? cs "" = some res) :
    operation heap (fuel + 1) self = some ("Branch( " ++ res ++ " )") := by
  unfold operation
  rw [hself]
  simp only
  rw [hloop]

/-- C1: a `Composite` whose children `cs` (at least one) are pairwise distinct
components that return `rs` returns `"Branch( "`, then the results `rs` in
insertion order separated by `" + "`, then `" )"`; a `Leaf` returns `"Leaf"`;
and the tree that `main` builds, root[B1[L1, L2], B2[L3]], returns
`"Branch( Branch( Leaf + Leaf ) + Branch( Leaf ) )"`. -/
theorem composite_operation_distinct_children :
    (∀ (heap : Heap) (self : Nat) (cs : List Nat) (rs : List String),
      heap self = some (Component.Composite cs) → cs ≠ [] → cs.Nodup →
      List.Forall₂ (fun c r => Returns heap c r) cs rs →
      Returns heap self ("Branch( " ++ String.intercalate " + " rs ++ " )"))
    ∧ (∀ (heap : Heap) (self fuel : Nat), heap self = some Component.Leaf →
        operation heap (fuel + 1) self = some "Leaf")
    ∧ operation mainHeap 3 1 = some "Branch( Branch( Leaf + Leaf ) + Branch( Leaf ) )" := by
  refine ⟨?_, ?_, by decide⟩
  · intro heap self cs rs hself hne hnd hrs
    obtain ⟨fuel, hfuel⟩ := returns_common_fuel heap cs rs hrs
    obtain ⟨back, hback⟩ : ∃ back, cs.getLast? = some back := by
      cases hb : cs.getLast? with
      | none => exact absurd (List.getLast?_eq_none_iff.mp hb) hne
      | some b => exact ⟨b, rfl⟩
    refine ⟨fuel + 1, ?_⟩
    have hloop := operationLoop_nodup (operation heap fuel) back cs rs "" hback hnd hfuel
    rw [← hback] at hloop
    rw [operation_composite_of_loop heap self cs fuel _ hself hloop]
    simp
  · intro heap self fuel hself
    unfold operation
    rw [hself]

/-- The composite law at `branch1` of `main`: its two distinct leaves give
`"Branch( Leaf + Leaf )"`. -/
theorem composite_operation_distinct_children_witness :
    Returns mainHeap 2 ("Branch( " ++ String.intercalate " + " ["Leaf", "Leaf"] ++ " )") :=
  composite_operation_distinct_children.1 mainHeap 2 [3, 4] ["Leaf", "Leaf"]
    (by decide) (by decide) (by decide)
    (List.Forall₂.cons ⟨1, by decide⟩ (List.Forall₂.cons ⟨1, by decide⟩ List.Forall₂.nil))

end CompositeExample

/-! ## Flyweight -/

namespace FlyweightExample

theorem FlyweightMap.find_append_of_none (m : FlyweightMap) (key : String) (f : Flyweight)
    (h : m.find key = none) : FlyweightMap.find (m ++ [(key, f)]) key = some f := by
  induction m with
  | nil => simp [FlyweightMap.find]
  | cons e rest ih =>
    obtain ⟨k, g⟩ := e
    by_cases hk : k = key
    · simp [FlyweightMap.find, hk] at h
    · simp only [FlyweightMap.find, hk, if_false] at h
      simp only [List.cons_append, FlyweightMap.find, hk, if_false]
      exact ih h

/-- A lookup miss creates and registers: the new entry is appended under the
key, and the new flyweight, built from the arguments, is returned. -/
theorem getFlyweight_of_miss (self : FlyweightFactory) (brand model color : String)
    (h : self.m_flyweights.find (getKey brand model color) = none) :
    getFlyweight self brand model color =
      (⟨self.m_flyweights ++ [(getKey brand model color, ⟨brand, model, color⟩)]⟩,
        ⟨brand, model, color⟩,
        "FlyweightFactory: Can't find a flyweight, creating new one.\n") := by
  simp [getFlyweight, FlyweightMap.emplace, h]

/-- A lookup hit returns the stored flyweight and leaves the factory as it is. -/
theorem getFlyweight_of_hit (self : FlyweightFactory) (brand model color : String)
    (stored : Flyweight) (h : self.m_flyweights.find (getKey brand model color) = some stored) :
    getFlyweight self brand model color =
      (self, stored, "FlyweightFactory: Reusing existing flyweight.\n") := by
  simp [getFlyweight, h]

/-- The run of `main`: the factory is built with 5 flyweights, the request
("BMW", "M5", "red") reuses one of them and the request ("BMW", "X1", "red")
registers a sixth. -/
theorem getFlyweight_main :
    mainFactory.size = 5
    ∧ (getFlyweight mainFactory "BMW" "M5" "red").1 = mainFactory
    ∧ (getFlyweight mainFactory "BMW" "X1" "red").1.size = 6
    ∧ (getFlyweight mainFactory "BMW" "X1" "red").2.1 = ⟨"BMW", "X1", "red"⟩ := by
  decide

/-- C2 (the code at the failing input): the factory holds the one flyweight
("Mercedes_Benz", "C300", "black"); the request ("Mercedes", "Benz_C300",
"black") differs from every registered triple but has the same key, so
`getFlyweight` reuses the registered flyweight: the returned fields are not
the requested ones and the registry still has one entry. -/
theorem getFlyweight_key_collision :
    (∀ e ∈ (FlyweightFactory.new [("Mercedes_Benz", "C300", "black")]).m_flyweights,
        e.2 ≠ ⟨"Mercedes", "Benz_C300", "black"⟩)
    ∧ getFlyweight (FlyweightFactory.new [("Mercedes_Benz", "C300", "black")])
          "Mercedes" "Benz_C300" "black"
        = (FlyweightFactory.new [("Mercedes_Benz", "C300", "black")],
            ⟨"Mercedes_Benz", "C300", "black"⟩,
            "FlyweightFactory: Reusing existing flyweight.\n")
    ∧ (getFlyweight (FlyweightFactory.new [("Mercedes_Benz", "C300", "black")])
          "Mercedes" "Benz_C300" "black").1.size = 1 := by
  decide

/-- Two `getFlyweight` calls with the same (brand, model, color) return
flyweights with the same fields, those of the flyweight stored in the registry
under the key of the triple, and the second call leaves the registry unchanged
(same entries, same size). -/
theorem getFlyweight_twice_same (self : FlyweightFactory) (brand model color : String) :
    (getFlyweight (getFlyweight self brand model color).1 brand model color).2.1
        = (getFlyweight self brand model color).2.1
    ∧ (getFlyweight self brand model color).1.m_flyweights.find (getKey brand model color)
        = some (getFlyweight self brand model color).2.1
    ∧ (getFlyweight (getFlyweight self brand model color).1 brand model color).1
        = (getFlyweight self brand model color).1
    ∧ (getFlyweight (getFlyweight self brand model color).1 brand model color).1.size
        = (getFlyweight self brand model color).1.size := by
  cases h : self.m_flyweights.find (getKey brand model color) with
  | none =>
    have h' := FlyweightMap.find_append_of_none self.m_flyweights
      (getKey brand model color) ⟨brand, model, color⟩ h
    rw [getFlyweight_of_miss self brand model color h]
    rw [getFlyweight_of_hit _ brand model color _ h']
    exact ⟨rfl, h', rfl, rfl⟩
  | some stored =>
    rw [getFlyweight_of_hit self brand model color stored h]
    rw [getFlyweight_of_hit self brand model color stored h]
    exact ⟨rfl, h, rfl, rfl⟩

end FlyweightExample

/-! ## Memento -/

namespace MementoExample

/-- C4: round trip.  Whatever the state `s` of the originator, taking
`m = save()`, then `doSomething()` (which sets the state to "random state"),
then `restore(m)` leaves the originator's state equal to `s`. -/
theorem save_doSomething_restore (self : Originator) :
    ((self.doSomething).1.restore (some self.save)).1 = self
    ∧ ((self.doSomething).1.restore (some self.save)).1.m_state = self.m_state
    ∧ (self.doSomething).1.m_state = "random state" := by
  refine ⟨rfl, rfl, rfl⟩

/-- C6: `undo()` on a caretaker with an empty history returns normally, leaves
the originator and the (empty) history unchanged and prints nothing. -/
theorem undo_empty_history (self : Caretaker) (h : self.m_mementos = []) :
    Caretaker.undo self = (self, "")
    ∧ (Caretaker.undo self).1.m_originator = self.m_originator
    ∧ (Caretaker.undo self).1.m_mementos = []
    ∧ (Caretaker.undo self).2 = "" := by
  have hu : Caretaker.undo self = (self, "") := by
    unfold Caretaker.undo
    rw [h]
    rfl
  rw [hu]
  exact ⟨rfl, rfl, h, rfl⟩

/-- The empty-history law at the caretaker `main` constructs, before any
`backup()`. -/
theorem undo_empty_history_witness :
    Caretaker.undo (Caretaker.new ⟨"initial state"⟩) = (Caretaker.new ⟨"initial state"⟩, "")
    ∧ (Caretaker.undo (Caretaker.new ⟨"initial state"⟩)).1.m_originator = ⟨"initial state"⟩
    ∧ (Caretaker.undo (Caretaker.new ⟨"initial state"⟩)).1.m_mementos = []
    ∧ (Caretaker.undo (Caretaker.new ⟨"initial state"⟩)).2 = "" :=
  undo_empty_history (Caretaker.new ⟨"initial state"⟩) rfl

/-- C7: `restore(m)` sets the state exactly when `m` is a `ConcreteMemento`, and
then the state becomes the captured one; for any other snapshot (a plain
`Memento`, or no object at all) it returns normally, leaves the state unchanged
and prints exactly the line "Originator: My state not changed, because I got
not correct memento". -/
theorem restore_iff_concrete (self : Originator) (memento : Option Memento) :
    (∀ metadata state, memento = some (Memento.ConcreteMemento metadata state) →
        self.restore memento =
          (⟨state⟩, "Originator: My state has changed to: " ++ state ++ "\n"))
    ∧ ((∀ metadata state, memento ≠ some (Memento.ConcreteMemento metadata state)) →
        self.restore memento =
          (self, "Originator: My state not changed, because I got not correct memento\n"))
    ∧ ((self.restore memento).1 ≠ self →
        ∃ metadata state, memento = some (Memento.ConcreteMemento metadata state))
    ∧ ((self.restore memento).2 ≠
          "Originator: My state not changed, because I got not correct memento\n" →
        ∃ metadata state, memento = some (Memento.ConcreteMemento metadata state)) := by
  refine ⟨?_, ?_, ?_, ?_⟩
  · intro metadata state h
    rw [h]
    rfl
  · intro h
    match memento, h with
    | none, _ => rfl
    | some (Memento.Plain _), _ => rfl
    | some (Memento.ConcreteMemento metadata state), h => exact absurd rfl (h metadata state)
  · intro h
    match memento, h with
    | none, h => exact absurd rfl h
    | some (Memento.Plain _), h => exact absurd rfl h
    | some (Memento.ConcreteMemento metadata state), _ => exact ⟨metadata, state, rfl⟩
  · intro h
    match memento, h with
    | none, h => exact absurd rfl h
    | some (Memento.Plain _), h => exact absurd rfl h
    | some (Memento.ConcreteMemento metadata state), _ => exact ⟨metadata, state, rfl⟩

/-- The restore law at a plain `Memento` (unchanged state, the diagnostic) and
at a saved snapshot (the captured state). -/
theorem restore_iff_concrete_witness :
    Originator.restore ⟨"random state"⟩ (some (Memento.Plain "some metadata")) =
        (⟨"random state"⟩,
          "Originator: My state not changed, because I got not correct memento\n")
    ∧ Originator.restore ⟨"random state"⟩ (some (Originator.save ⟨"initial state"⟩)) =
        (⟨"initial state"⟩, "Originator: My state has changed to: " ++ "initial state" ++ "\n") :=
  ⟨(restore_iff_concrete ⟨"random state"⟩ (some (Memento.Plain "some metadata"))).2.1
      (by intro metadata state h; cases h),
   (restore_iff_concrete ⟨"random state"⟩ (some (Originator.save ⟨"initial state"⟩))).1
      "some metadata" "initial state" rfl⟩

/-! ### The history of the caretaker -/

theorem backupsAt_mementos (states : List String) :
    ∀ (self : Caretaker),
      (backupsAt states self).m_mementos =
        self.m_mementos ++ states.map (Memento.ConcreteMemento "some metadata") := by
  induction states with
  | nil => intro self; simp [backupsAt]
  | cons s rest ih =>
    intro self
    have hstep : backupsAt (s :: rest) self
        = backupsAt rest (Caretaker.backup { self with m_originator := ⟨s⟩ }).1 := rfl
    rw [hstep, ih]
    simp [Caretaker.backup, Originator.save]

theorem undo_snoc (hist : List Memento) (m : Memento) (o : Originator) :
    Caretaker.undo ⟨hist ++ [m], o⟩ =
      (⟨hist, (o.restore (some m)).1⟩,
        "Caretaker: Restoring state\n" ++ (o.restore (some m)).2) := by
  simp [Caretaker.undo]

theorem undoTimes_history :
    ∀ (k : Nat) (states : List String) (self : Caretaker), 1 ≤ k → k ≤ states.length →
      self.m_mementos = states.map (Memento.ConcreteMemento "some metadata") →
      (undoTimes k self).m_mementos =
          (states.take (states.length - k)).map (Memento.ConcreteMemento "some metadata")
      ∧ states[states.length - k]? = some (undoTimes k self).m_originator.m_state := by
  intro k
  induction k with
  | zero => intro states self h1; omega
  | succ k ih =>
    intro states self _ hk hself
    rcases List.eq_nil_or_concat states with hnil | ⟨init, s, hcons⟩
    · subst hnil; simp at hk
    · rw [List.concat_eq_append] at hcons
      subst hcons
      obtain ⟨hist, o⟩ := self
      simp only [List.map_append, List.map_cons, List.map_nil] at hself
      subst hself
      have hu : undoTimes (k + 1)
            ⟨init.map (Memento.ConcreteMemento "some metadata")
              ++ [Memento.ConcreteMemento "some metadata" s], o⟩
          = undoTimes k ⟨init.map (Memento.ConcreteMemento "some metadata"), ⟨s⟩⟩ := by
        show undoTimes k (Caretaker.undo _).1 = _
        rw [undo_snoc]
        rfl
      rw [hu]
      have hlen : (init ++ [s]).length - (k + 1) = init.length - k := by simp
      rw [hlen]
      rcases Nat.eq_zero_or_pos k with hk0 | hkpos
      · subst hk0
        simp [undoTimes]
      · have hk' : k ≤ init.length := by simpa using hk
        obtain ⟨ih1, ih2⟩ := ih init ⟨init.map (Memento.ConcreteMemento "some metadata"), ⟨s⟩⟩
          hkpos hk' rfl
        have hlt : init.length - k < init.length := by omega
        refine ⟨?_, ?_⟩
        · rw [ih1, List.take_append_of_le_length (Nat.sub_le _ _)]
        · rw [List.getElem?_append_left hlt]
          exact ih2

/-- C5: the caretaker is last-in-first-out and undoes one step per call.  Each
`undo()` on a history that ends with a snapshot of state `state` removes
exactly that last snapshot and sets the originator's state to `state`.  If
`backup()` was called while the originator's state was `s1, ..., sn`, then
after `k` successive `undo()` calls (`1 ≤ k ≤ n`) the originator's state is
`s_(n-k+1)` and the remaining history is the one of the first `n - k` backups,
of length `n - k`. -/
theorem undo_lifo :
    (∀ (self : Caretaker) (hist : List Memento) (metadata state : String),
      self.m_mementos = hist ++ [Memento.ConcreteMemento metadata state] →
      (Caretaker.undo self).1.m_mementos = hist
      ∧ (Caretaker.undo self).1.m_originator.m_state = state)
    ∧ (∀ (states : List String) (o o' : Originator) (k : Nat), 1 ≤ k → k ≤ states.length →
      (backupsAt states (Caretaker.new o)).m_mementos.length = states.length
      ∧ states[states.length - k]? =
          some (undoTimes k
            { backupsAt states (Caretaker.new o) with m_originator := o' }).m_originator.m_state
      ∧ (undoTimes k
            { backupsAt states (Caretaker.new o) with m_originator := o' }).m_mementos
          = (backupsAt (states.take (states.length - k)) (Caretaker.new o)).m_mementos
      ∧ (undoTimes k
            { backupsAt states (Caretaker.new o) with m_originator := o' }).m_mementos.length
          = states.length - k) := by
  refine ⟨?_, ?_⟩
  · intro self hist metadata state h
    obtain ⟨ms, o⟩ := self
    simp only at h
    subst h
    rw [undo_snoc]
    exact ⟨rfl, rfl⟩
  · intro states o o' k h1 hk
    have hb : (backupsAt states (Caretaker.new o)).m_mementos
        = states.map (Memento.ConcreteMemento "some metadata") := by
      rw [backupsAt_mementos]; rfl
    have hb' : (backupsAt (states.take (states.length - k)) (Caretaker.new o)).m_mementos
        = (states.take (states.length - k)).map (Memento.ConcreteMemento "some metadata") := by
      rw [backupsAt_mementos]; rfl
    obtain ⟨hm, hs⟩ := undoTimes_history k states
      { backupsAt states (Caretaker.new o) with m_originator := o' } h1 hk hb
    refine ⟨?_, hs, ?_, ?_⟩
    · rw [hb]; simp
    · rw [hm, hb']
    · rw [hm]; simp

/-- The last-in-first-out law on three backups, taken in the states "s1",
"s2", "s3": two `undo()` calls leave the originator in state "s2" and one
snapshot in the history. -/
theorem undo_lifo_witness :
    (["s1", "s2", "s3"] : List String)[3 - 2]? =
        some (undoTimes 2
          { backupsAt ["s1", "s2", "s3"] (Caretaker.new ⟨"initial state"⟩) with
            m_originator := ⟨"random state"⟩ }).m_originator.m_state
    ∧ (undoTimes 2
          { backupsAt ["s1", "s2", "s3"] (Caretaker.new ⟨"initial state"⟩) with
            m_originator := ⟨"random state"⟩ }).m_mementos.length = 3 - 2 :=
  ⟨(undo_lifo.2 ["s1", "s2", "s3"] ⟨"initial state"⟩ ⟨"random state"⟩ 2
      (by decide) (by decide)).2.1,
   (undo_lifo.2 ["s1", "s2", "s3"] ⟨"initial state"⟩ ⟨"random state"⟩ 2
      (by decide) (by decide)).2.2.2⟩

end MementoExample

/-! ## Observer -/

namespace ObserverExample

theorem attachAll_observers (observers : List Nat) :
    ∀ (self : Subject),
      attachAll self observers = ⟨self.m_observers ++ observers, self.m_message⟩ := by
  induction observers with
  | nil => intro self; simp [attachAll]
  | cons o rest ih =>
    intro self
    have hstep : attachAll self (o :: rest) = attachAll (self.attach o) rest := rfl
    rw [hstep, ih]
    simp [Subject.attach]

theorem detachAll_observers (detached : List Nat) :
    ∀ (self : Subject),
      detachAll self detached =
        ⟨self.m_observers.filter (fun o => o ∉ detached), self.m_message⟩ := by
  induction detached with
  | nil => intro self; simp [detachAll]
  | cons d rest ih =>
    intro self
    have hstep : detachAll self (d :: rest) = detachAll (self.detach d) rest := rfl
    rw [hstep, ih]
    simp only [Subject.detach, List.filter_filter, Subject.mk.injEq, and_true]
    apply List.filter_congr
    intro o _
    simp only [List.mem_cons, not_or, decide_not, Bool.decide_and, ne_eq]
    rw [Bool.and_comm]

/-- The loop of `notify` over live observers calls `update` on each pointer of
the list, front to back, and keeps every object alive. -/
theorem notifyLoop_calls (message : String) :
    ∀ (observers : List Nat) (heap : Heap), (∀ o ∈ observers, (heap o).isSome = true) →
      ∃ r, notifyLoop message observers heap = some r
        ∧ r.calls = observers.map (fun o => (o, message))
        ∧ ∀ p, (r.heap p).isSome = (heap p).isSome := by
  intro observers
  induction observers with
  | nil => intro heap _; exact ⟨⟨heap, [], ""⟩, rfl, rfl, fun _ => rfl⟩
  | cons o rest ih =>
    intro heap hlive
    obtain ⟨ob, hob⟩ := Option.isSome_iff_exists.mp (hlive o (List.mem_cons_self _ _))
    have hlive' : ∀ q ∈ rest,
        ((heap.store o (ob.update message).1) q).isSome = true := by
      intro q hq
      unfold Heap.store
      by_cases hqo : q = o
      · simp [hqo]
      · simp only [hqo, if_false]
        exact hlive q (List.mem_cons_of_mem _ hq)
    obtain ⟨r, hr, hcalls, hheap⟩ := ih (heap.store o (ob.update message).1) hlive'
    refine ⟨⟨r.heap, (o, message) :: r.calls, (ob.update message).2 ++ r.output⟩, ?_, ?_, ?_⟩
    · unfold notifyLoop
      rw [hob]
      simp only
      rw [hr]
    · simp [hcalls]
    · intro p
      rw [hheap p]
      unfold Heap.store
      by_cases hpo : p = o
      · simp [hpo, hob]
      · simp [hpo]

/-- C8: after `attach` calls of pairwise distinct observers on a subject with no
observers, followed by any `detach` calls, `notify()` calls `update`, with the
subject's current message, on exactly the observers still attached, once each,
in attachment order.  With O1, O2, O3 (addresses 1, 2, 3) attached the calls go
to 1, 2, 3 in this order, and after `detach(O2)` to 1 and 3 only. -/
theorem notify_updates_attached :
    (∀ (self : Subject) (observers detached : List Nat) (heap : Heap),
      self.m_observers = [] → observers.Nodup →
      (∀ o ∈ observers, o ∉ detached → (heap o).isSome = true) →
      ∃ r, Subject.notify (detachAll (attachAll self observers) detached) heap = some r
        ∧ r.calls =
            (observers.filter (fun o => o ∉ detached)).map (fun o => (o, self.m_message))
        ∧ r.calls.Nodup)
    ∧ ((mainObservers.1.createMessage mainObservers.2 "Hello World! :D").2.map
          (fun r => r.calls)
        = some [(1, "Hello World! :D"), (2, "Hello World! :D"), (3, "Hello World! :D")])
    ∧ (((mainObservers.1.detach 2).createMessage mainObservers.2 "Hello World! :D").2.map
          (fun r => r.calls)
        = some [(1, "Hello World! :D"), (3, "Hello World! :D")]) := by
  refine ⟨?_, by decide, by decide⟩
  intro self observers detached heap hempty hnd hlive
  rw [attachAll_observers, detachAll_observers, hempty]
  simp only [List.nil_append]
  have hlive' : ∀ o ∈ observers.filter (fun o => o ∉ detached), (heap o).isSome = true := by
    intro o ho
    rw [List.mem_filter] at ho
    exact hlive o ho.1 (by simpa using ho.2)
  obtain ⟨r, hr, hcalls, _⟩ := notifyLoop_calls self.m_message _ heap hlive'
  have hn : ∀ (s : Subject), notifyLoop s.m_message s.m_observers heap = some r →
      s.notify heap = some ⟨r.heap, r.calls, s.howManyObservers ++ r.output⟩ := by
    intro s h
    unfold Subject.notify
    rw [h]
  refine ⟨_, hn ⟨_, _⟩ hr, hcalls, ?_⟩
  show r.calls.Nodup
  rw [hcalls]
  refine List.Nodup.map ?_ (hnd.filter _)
  intro a b hab
  exact congrArg Prod.fst hab

/-- The notification law on the three observers of `main` after
`detach(observer3)`: `update` is called on 1 and 2. -/
theorem notify_updates_attached_witness :
    ∃ r, Subject.notify (detachAll (attachAll ⟨[], "Hello World! :D"⟩ [1, 2, 3]) [3])
          mainObservers.2 = some r
      ∧ r.calls = ([1, 2, 3].filter (fun o => o ∉ [3])).map
          (fun o => (o, (⟨[], "Hello World! :D"⟩ : Subject).m_message))
      ∧ r.calls.Nodup :=
  notify_updates_attached.1 ⟨[], "Hello World! :D"⟩ [1, 2, 3] [3] mainObservers.2
    rfl (by decide) (by decide)

/-- C9: `detach(o)` of an observer that is not attached leaves the observer
list (and the subject) unchanged, and `detach(o)` applied twice gives the same
subject as `detach(o)` applied once. -/
theorem detach_idempotent :
    (∀ (self : Subject) (o : Nat), o ∉ self.m_observers → self.detach o = self)
    ∧ (∀ (self : Subject) (o : Nat), (self.detach o).detach o = self.detach o) := by
  refine ⟨?_, ?_⟩
  · intro self o h
    obtain ⟨obs, msg⟩ := self
    simp only [Subject.detach, Subject.mk.injEq, and_true]
    rw [List.filter_eq_self]
    intro a ha
    have : a ≠ o := fun hEq => h (hEq ▸ ha)
    simpa using this
  · intro self o
    simp [Subject.detach, List.filter_filter]

/-- Detaching the absent observer 4 from the subject of `main` (observers 1, 2,
3) changes nothing. -/
theorem detach_idempotent_witness :
    mainObservers.1.detach 4 = mainObservers.1 :=
  detach_idempotent.1 mainObservers.1 4 (by decide)

end ObserverExample

/-! ## Chain of Responsibility -/

namespace ChainExample

/-- A handler that answers the request itself returns its own response. -/
theorem handle_of_food (heap : Heap) (fuel p : Nat) (o : HandlerObj) (request : String)
    (hp : heap p = some o) (hfood : o.kind.food = some request) :
    handle heap (fuel + 1) p request =
      some (o.kind.name ++ ": I'll eat the " ++ request ++ ".\n") := by
  obtain ⟨k, next⟩ := o
  unfold handle
  rw [hp]
  cases k <;> simp_all [Kind.food, Kind.name]

/-- A handler that does not answer the request itself and is the last one
returns the empty string. -/
theorem handle_of_last (heap : Heap) (fuel p : Nat) (k : Kind) (request : String)
    (hp : heap p = some ⟨k, none⟩) (hfood : k.food ≠ some request) :
    handle heap (fuel + 1) p request = some "" := by
  unfold handle
  rw [hp]
  cases k <;> simp_all [Kind.food, eq_comm]

/-- A handler that does not answer the request itself passes it to the next
handler. -/
theorem handle_of_next (heap : Heap) (fuel p q : Nat) (k : Kind) (request : String)
    (hp : heap p = some ⟨k, some q⟩) (hfood : k.food ≠ some request) :
    handle heap (fuel + 1) p request = handle heap fuel q request := by
  conv_lhs => unfold handle
  rw [hp]
  cases k <;> simp_all [Kind.food, eq_comm]

theorem handle_chain_head (heap : Heap) (request : String) :
    ∀ (rest : List (Nat × Kind)) (p : Nat) (k : Kind) (fuel : Nat),
      IsChain heap ((p, k) :: rest) → rest.length + 1 ≤ fuel →
      handle heap fuel p request =
        some (firstResponse (k :: rest.map Prod.snd) request) := by
  intro rest
  induction rest with
  | nil =>
    intro p k fuel hchain hfuel
    obtain ⟨n, rfl⟩ : ∃ n, fuel = n + 1 := ⟨fuel - 1, by simp at hfuel; omega⟩
    have hp : heap p = some ⟨k, none⟩ := hchain
    by_cases hfood : k.food = some request
    · rw [handle_of_food heap n p ⟨k, none⟩ request hp hfood]
      simp [firstResponse, hfood]
    · rw [handle_of_last heap n p k request hp hfood]
      simp [firstResponse, hfood]
  | cons e rest ih =>
    intro p k fuel hchain hfuel
    obtain ⟨q, k'⟩ := e
    obtain ⟨n, rfl⟩ : ∃ n, fuel = n + 1 := ⟨fuel - 1, by simp at hfuel; omega⟩
    have hp : heap p = some ⟨k, some q⟩ := hchain.1
    have htail : IsChain heap ((q, k') :: rest) := hchain.2
    by_cases hfood : k.food = some request
    · rw [handle_of_food heap n p ⟨k, some q⟩ request hp hfood]
      simp [firstResponse, hfood]
    · rw [handle_of_next heap n p q k request hp hfood]
      rw [ih q k' n htail (by simpa using hfuel)]
      simp [firstResponse, hfood]

/-- The part of a chain that starts at any of its handlers is a chain. -/
theorem IsChain.drop (heap : Heap) :
    ∀ (chain : List (Nat × Kind)) (i : Nat), IsChain heap chain → IsChain heap (chain.drop i) := by
  intro chain
  induction chain with
  | nil => intro i _; simp [IsChain]
  | cons e rest ih =>
    intro i h
    cases i with
    | zero => exact h
    | succ i =>
      have htail : IsChain heap rest := by
        cases rest with
        | nil => simp [IsChain]
        | cons e' rest' => exact h.2
      exact ih i htail

theorem setNext_snd (heap : Heap) (p q : Nat) : (setNext heap p q).2 = q := by
  unfold setNext
  cases heap p <;> rfl

/-- `linkAll` writes only at the receiver and at addresses of the list. -/
theorem linkAll_frame :
    ∀ (rest : List Nat) (heap : Heap) (p a : Nat), a ≠ p → a ∉ rest →
      linkAll heap p rest a = heap a := by
  intro rest
  induction rest with
  | nil => intro heap p a _ _; rfl
  | cons q rest ih =>
    intro heap p a hap ha
    have haq : a ≠ q := fun h => ha (h ▸ List.mem_cons_self _ _)
    have ha' : a ∉ rest := fun h => ha (List.mem_cons_of_mem _ h)
    show linkAll (setNext heap p q).1 (setNext heap p q).2 rest a = heap a
    rw [setNext_snd, ih (setNext heap p q).1 q a haq ha']
    unfold setNext
    cases heap p with
    | none => rfl
    | some o => simp [Heap.store, hap]

/-- After `allocAll` every handler of a list with pairwise distinct addresses
is a fresh object of its dynamic type. -/
theorem allocAll_fresh :
    ∀ (chain : List (Nat × Kind)) (heap : Heap), (chain.map Prod.fst).Nodup →
      (∀ e ∈ chain, allocAll heap chain e.1 = some ⟨e.2, none⟩)
      ∧ (∀ a, a ∉ chain.map Prod.fst → allocAll heap chain a = heap a) := by
  intro chain
  induction chain with
  | nil => intro heap _; exact ⟨fun e he => (by cases he), fun a _ => rfl⟩
  | cons e rest ih =>
    intro heap hnd
    obtain ⟨p, k⟩ := e
    rw [List.map_cons, List.nodup_cons] at hnd
    obtain ⟨ih1, ih2⟩ := ih (heap.alloc p k) hnd.2
    refine ⟨?_, ?_⟩
    · intro e he
      rcases List.mem_cons.mp he with rfl | he'
      · show allocAll (heap.alloc p k) rest p = _
        rw [ih2 p hnd.1]
        simp [Heap.alloc, Heap.store]
      · exact ih1 e he'
    · intro a ha
      rw [List.map_cons, List.mem_cons, not_or] at ha
      show allocAll (heap.alloc p k) rest a = _
      rw [ih2 a ha.2]
      simp [Heap.alloc, Heap.store, ha.1]

/-- Fresh handlers at pairwise distinct addresses, linked by the chained
`setNext` call, form a chain in the order of the call. -/
theorem linkAll_isChain :
    ∀ (rest : List (Nat × Kind)) (heap : Heap) (p : Nat) (k : Kind),
      (((p, k) :: rest).map Prod.fst).Nodup →
      (∀ e ∈ (p, k) :: rest, heap e.1 = some ⟨e.2, none⟩) →
      IsChain (linkAll heap p (rest.map Prod.fst)) ((p, k) :: rest) := by
  intro rest
  induction rest with
  | nil =>
    intro heap p k _ hfresh
    exact hfresh (p, k) (List.mem_cons_self _ _)
  | cons e' rest' ih =>
    intro heap p k hnd hfresh
    obtain ⟨q, k'⟩ := e'
    have hp : heap p = some ⟨k, none⟩ := hfresh (p, k) (List.mem_cons_self _ _)
    have hset : setNext heap p q = (heap.store p ⟨k, some q⟩, q) := by
      unfold setNext
      rw [hp]
    rw [List.map_cons, List.nodup_cons] at hnd
    have hfresh' : ∀ e ∈ (q, k') :: rest',
        (heap.store p ⟨k, some q⟩) e.1 = some ⟨e.2, none⟩ := by
      intro e he
      have hne : e.1 ≠ p := by
        intro hEq
        have hmem : e.1 ∈ ((q, k') :: rest').map Prod.fst := List.mem_map_of_mem Prod.fst he
        rw [hEq] at hmem
        exact hnd.1 hmem
      simp only [Heap.store, hne, if_false]
      exact hfresh e (List.mem_cons_of_mem _ he)
    have hlink : linkAll heap p (((q, k') :: rest').map Prod.fst)
        = linkAll (heap.store p ⟨k, some q⟩) q (rest'.map Prod.fst) := by
      show linkAll (setNext heap p q).1 (setNext heap p q).2 (rest'.map Prod.fst) = _
      rw [hset]
    rw [hlink]
    refine ⟨?_, ih (heap.store p ⟨k, some q⟩) q k' hnd.2 hfresh'⟩
    have hpq : p ≠ q := fun h => hnd.1 (h ▸ List.mem_cons_self _ _)
    have hprest : p ∉ rest'.map Prod.fst := fun h => hnd.1 (List.mem_cons_of_mem _ h)
    rw [linkAll_frame _ _ q p hpq hprest]
    simp [Heap.store]

/-- C10: in a chain of linked handlers that ends with a handler without next
handler (an acyclic chain), `handle` called on the handler at position `i`
returns the response "<Name>: I'll eat the <request>.\n" of the first handler at
or after position `i` in link order whose food is the request, and the empty
string if there is none; the handlers before position `i` play no part.  Fresh
handlers at pairwise distinct addresses linked by a chained `setNext` call form
such a chain, in the order of the call.  On
the chain Monkey -> Squirrel -> Dog built by
`monkey->setNext(squirrel)->setNext(dog)`, `monkey.handle("MeatBall")` returns
"Dog: I'll eat the MeatBall.\n" and `squirrel.handle("Banana")` returns the
empty string. -/
theorem handle_first_match :
    (∀ (heap : Heap) (chain : List (Nat × Kind)) (i p : Nat) (k : Kind)
        (request : String) (fuel : Nat),
      IsChain heap chain → chain[i]? = some (p, k) → chain.length - i ≤ fuel →
      handle heap fuel p request =
        some (firstResponse ((chain.drop i).map Prod.snd) request))
    ∧ (∀ (heap : Heap) (p : Nat) (k : Kind) (rest : List (Nat × Kind)),
        (((p, k) :: rest).map Prod.fst).Nodup →
        IsChain (linkAll (allocAll heap ((p, k) :: rest)) p (rest.map Prod.fst))
          ((p, k) :: rest))
    ∧ IsChain mainHeap
        [(0, Kind.MonkeyHandler), (1, Kind.SquirrelHandler), (2, Kind.DogHandler)]
    ∧ handle mainHeap 3 0 "MeatBall" = some "Dog: I'll eat the MeatBall.\n"
    ∧ handle mainHeap 3 1 "Banana" = some "" := by
  refine ⟨?_, ?_, ?_, by decide, by decide⟩
  · intro heap chain i p k request fuel hchain hi hfuel
    have hlt : i < chain.length := (List.getElem?_eq_some_iff.mp hi).1
    have hdrop : chain.drop i = (p, k) :: chain.drop (i + 1) := by
      have hget := (List.getElem?_eq_some_iff.mp hi).2
      rw [← hget]
      exact List.drop_eq_getElem_cons hlt
    have hc := IsChain.drop heap chain i hchain
    rw [hdrop] at hc ⊢
    have hlen : (chain.drop (i + 1)).length + 1 ≤ fuel := by
      simp only [List.length_drop]
      omega
    simpa using handle_chain_head heap request (chain.drop (i + 1)) p k fuel hc hlen
  · intro heap p k rest hnd
    exact linkAll_isChain rest (allocAll heap ((p, k) :: rest)) p k hnd
      (allocAll_fresh ((p, k) :: rest) heap hnd).1
  · show mainHeap 0 = some ⟨Kind.MonkeyHandler, some 1⟩
      ∧ mainHeap 1 = some ⟨Kind.SquirrelHandler, some 2⟩
      ∧ mainHeap 2 = some ⟨Kind.DogHandler, none⟩
    exact ⟨by decide, by decide, by decide⟩

/-- The chain law at the squirrel (position 1) of the chain of `main`, for the
request "MeatBall". -/
theorem handle_first_match_witness :
    handle mainHeap 2 1 "MeatBall" =
      some (firstResponse
        (([(0, Kind.MonkeyHandler), (1, Kind.SquirrelHandler), (2, Kind.DogHandler)].drop 1).map
          Prod.snd) "MeatBall") :=
  handle_first_match.1 mainHeap
    [(0, Kind.MonkeyHandler), (1, Kind.SquirrelHandler), (2, Kind.DogHandler)]
    1 1 Kind.SquirrelHandler "MeatBall" 2 handle_first_match.2.2.1 (by decide) (by decide)

end ChainExample

/-! ## Chain of Responsibility: requests nobody handles -/

namespace ChainExample

/-- No handler of the list answers the request: no response. -/
theorem firstResponse_of_no_match (request : String) :
    ∀ (kinds : List Kind), (∀ k ∈ kinds, k.food ≠ some request) →
      firstResponse kinds request = "" := by
  intro kinds
  induction kinds with
  | nil => intro _; rfl
  | cons k rest ih =>
    intro h
    have hk : k.food ≠ some request := h k (List.mem_cons_self _ _)
    simp only [firstResponse, hk, if_false]
    exact ih (fun k' hk' => h k' (List.mem_cons_of_mem _ hk'))

/-- The result of `handle` called on the handler at position `i` of a chain. -/
theorem handle_chain_at (heap : Heap) (chain : List (Nat × Kind)) (i p : Nat) (k : Kind)
    (request : String) (fuel : Nat) (hchain : IsChain heap chain)
    (hi : chain[i]? = some (p, k)) (hfuel : chain.length - i ≤ fuel) :
    handle heap fuel p request =
      some (firstResponse ((chain.drop i).map Prod.snd) request) := by
  have hlt : i < chain.length := (List.getElem?_eq_some_iff.mp hi).1
  have hdrop : chain.drop i = (p, k) :: chain.drop (i + 1) := by
    have hget := (List.getElem?_eq_some_iff.mp hi).2
    rw [← hget]
    exact List.drop_eq_getElem_cons hlt
  have hc := IsChain.drop heap chain i hchain
  rw [hdrop] at hc ⊢
  have hlen : (chain.drop (i + 1)).length + 1 ≤ fuel := by
    simp only [List.length_drop]
    omega
  simpa using handle_chain_head heap request (chain.drop (i + 1)) p k fuel hc hlen

/-- C11: in an acyclic chain of any length, `handle` called on a handler with
a request that is the food of none of the handlers from there on returns the
empty string.  "Cup of coffee" is answered by nobody on the chain
Monkey -> Squirrel -> Dog of `main`, on its subchain Squirrel -> Dog, and on a
single handler of any type. -/
theorem handle_no_match :
    (∀ (heap : Heap) (chain : List (Nat × Kind)) (i p : Nat) (k : Kind)
        (request : String) (fuel : Nat),
      IsChain heap chain → chain[i]? = some (p, k) → chain.length - i ≤ fuel →
      (∀ e ∈ chain.drop i, e.2.food ≠ some request) →
      handle heap fuel p request = some "")
    ∧ handle mainHeap 3 0 "Cup of coffee" = some ""
    ∧ handle mainHeap 2 1 "Cup of coffee" = some ""
    ∧ (∀ (k : Kind), handle (emptyHeap.alloc 0 k) 1 0 "Cup of coffee" = some "") := by
  refine ⟨?_, by decide, by decide, ?_⟩
  · intro heap chain i p k request fuel hchain hi hfuel hnone
    rw [handle_chain_at heap chain i p k request fuel hchain hi hfuel]
    rw [firstResponse_of_no_match request]
    intro k' hk'
    obtain ⟨e, he, rfl⟩ := List.mem_map.mp hk'
    exact hnone e he
  · intro k
    cases k <;> decide

/-- The no-match law at the monkey of the chain of `main`, for the request
"Cup of coffee". -/
theorem handle_no_match_witness :
    handle mainHeap 3 0 "Cup of coffee" = some "" :=
  handle_no_match.1 mainHeap
    [(0, Kind.MonkeyHandler), (1, Kind.SquirrelHandler), (2, Kind.DogHandler)]
    0 0 Kind.MonkeyHandler "Cup of coffee" 3
    (linkAll_isChain [(1, Kind.SquirrelHandler), (2, Kind.DogHandler)]
      (allocAll emptyHeap
        [(0, Kind.MonkeyHandler), (1, Kind.SquirrelHandler), (2, Kind.DogHandler)])
      0 Kind.MonkeyHandler (by decide) (by decide))
    (by decide) (by decide) (by decide)

end ChainExample

/-! ## Decorator -/

namespace DecoratorExample

theorem wrap_A (c : Component) : Tag.A.wrap c = Component.ConcreteDecoratorA c := by
  cases c <;> rfl

theorem wrap_B (c : Component) : Tag.B.wrap c = Component.ConcreteDecoratorB c := by
  cases c <;> rfl

/-- Through `const Component&` arguments a stack of decorators nests the
tags. -/
theorem operation_wrapAll (tags : List Tag) :
    ∀ (component : Component),
      (wrapAll component tags).operation = nested component.operation tags := by
  induction tags with
  | nil => intro component; rfl
  | cons t rest ih =>
    intro component
    show (wrapAll (t.wrap component) rest).operation
        = nested (t.name ++ "(" ++ component.operation ++ ")") rest
    rw [ih (t.wrap component)]
    cases t
    · rw [wrap_A]; simp [Tag.name, Component.operation, String.append_assoc]
    · rw [wrap_B]; simp [Tag.name, Component.operation, String.append_assoc]

/-- A declaration whose argument is declared with another class wraps. -/
theorem construct_of_ne (t : Tag) (declared : Declared) (c : Component)
    (h : declared ≠ t.declared) : t.construct declared c = t.wrap c := by
  cases t <;> cases declared <;> cases c <;> first | rfl | exact absurd rfl h

/-- Declarations in the style of `main` nest the tags as long as no object is
constructed from a variable of its own class. -/
theorem operation_declareAll_of_chain :
    ∀ (tags : List Tag) (component : Component) (declared : Declared),
      List.Chain (fun a b => a ≠ b) declared (tags.map Tag.declared) →
      (declareAll component declared tags).operation = nested component.operation tags := by
  intro tags
  induction tags with
  | nil => intro component declared _; rfl
  | cons t rest ih =>
    intro component declared hchain
    rw [List.map_cons, List.chain_cons] at hchain
    show (declareAll (t.construct declared component) t.declared rest).operation = _
    rw [construct_of_ne t declared component hchain.1, ih _ _ hchain.2]
    show _ = nested (t.name ++ "(" ++ component.operation ++ ")") rest
    cases t
    · rw [wrap_A]; simp [Tag.name, Component.operation, String.append_assoc]
    · rw [wrap_B]; simp [Tag.name, Component.operation, String.append_assoc]

/-- C12 (the code at the failing input): with `concreteDecoratorA` declared as
in `main`, the declaration `ConcreteDecoratorA again(concreteDecoratorA);`
selects the implicit copy constructor, so `again` is a copy of
`concreteDecoratorA` and not a wrapper of it: `again.operation()` is
"ConcreteDecoratorA(ConcreteComponent)", not "ConcreteDecoratorA(" +
`concreteDecoratorA.operation()` + ")", and the stack A, A, B of declarations
gives the two-level text of `main`.  The declarations of `main` itself (A, then
B) nest: "ConcreteDecoratorB(ConcreteDecoratorA(ConcreteComponent))". -/
theorem decorator_same_class_copies :
    (declareAll Component.ConcreteComponent Declared.ConcreteComponent
        [Tag.A, Tag.A]).operation = "ConcreteDecoratorA(ConcreteComponent)"
    ∧ (declareAll Component.ConcreteComponent Declared.ConcreteComponent
        [Tag.A, Tag.A]).operation
        ≠ "ConcreteDecoratorA(" ++
            (declareAll Component.ConcreteComponent Declared.ConcreteComponent
              [Tag.A]).operation ++ ")"
    ∧ (declareAll Component.ConcreteComponent Declared.ConcreteComponent
        [Tag.A, Tag.A, Tag.B]).operation
        = "ConcreteDecoratorB(ConcreteDecoratorA(ConcreteComponent))"
    ∧ (declareAll Component.ConcreteComponent Declared.ConcreteComponent
        [Tag.A, Tag.A, Tag.B]).operation
        ≠ nested "ConcreteComponent" [Tag.A, Tag.A, Tag.B]
    ∧ (declareAll Component.ConcreteComponent Declared.ConcreteComponent
        [Tag.B, Tag.B]).operation = "ConcreteDecoratorB(ConcreteComponent)"
    ∧ declareAll Component.ConcreteComponent Declared.ConcreteComponent [Tag.A, Tag.B]
        = mainDecorated
    ∧ mainDecorated.operation = "ConcreteDecoratorB(ConcreteDecoratorA(ConcreteComponent))" := by
  decide

end DecoratorExample

/-! ## State -/

namespace StateExample

/-- A transition to a fresh object, from a context that holds a live state. -/
theorem transitionTo_alloc (typeName : Kind → String) (w : World) (kind kind' : Kind)
    (h : InState w kind) :
    ∃ w', transitionTo typeName (w.alloc kind').1 (w.alloc kind').2
          = some (w', "Context: Transition to " ++ typeName kind' ++ ".\n")
      ∧ InState w' kind' := by
  obtain ⟨a, hs, ha, hlt⟩ := h
  have hne : a ≠ w.next := Nat.ne_of_lt hlt
  have hne' : w.next ≠ a := fun h => hne h.symm
  refine ⟨⟨fun q => if q = w.next then some ⟨kind', true⟩
                    else if q = a then none else (w.alloc kind').1.heap q,
            w.next + 1, some w.next⟩, ?_, ?_⟩
  · simp [transitionTo, World.alloc, World.delete, hs, ha, hne, hne']
  · exact ⟨w.next, rfl, by simp, by simp⟩

/-- `request1()` in state A: the two lines of `ConcreteStateA::handle1`, then
the transition to a new `ConcreteStateB`. -/
theorem request1_in_A (typeName : Kind → String) (w : World)
    (h : InState w Kind.ConcreteStateA) :
    ∃ w', request1 typeName w
          = some (w', "ConcreteStateA handles request1.\n" ++
              "ConcreteStateA wants to change the state of the context.\n" ++
              ("Context: Transition to " ++ typeName Kind.ConcreteStateB ++ ".\n"))
      ∧ InState w' Kind.ConcreteStateB := by
  obtain ⟨w', ht, hin⟩ := transitionTo_alloc typeName w Kind.ConcreteStateA
    Kind.ConcreteStateB h
  obtain ⟨a, hs, ha, _⟩ := h
  refine ⟨w', ?_, hin⟩
  simp only [request1, hs, handle1, ha, if_true]
  rw [ht]

/-- `request2()` in state B: the two lines of `ConcreteStateB::handle2`, then
the transition to a new `ConcreteStateA`. -/
theorem request2_in_B (typeName : Kind → String) (w : World)
    (h : InState w Kind.ConcreteStateB) :
    ∃ w', request2 typeName w
          = some (w', "ConcreteStateB handles request2.\n" ++
              "ConcreteStateB wants to change the state of the context.\n" ++
              ("Context: Transition to " ++ typeName Kind.ConcreteStateA ++ ".\n"))
      ∧ InState w' Kind.ConcreteStateA := by
  obtain ⟨w', ht, hin⟩ := transitionTo_alloc typeName w Kind.ConcreteStateB
    Kind.ConcreteStateA h
  obtain ⟨a, hs, ha, _⟩ := h
  refine ⟨w', ?_, hin⟩
  simp only [request2, hs, handle2, ha, if_true]
  rw [ht]

/-- The context that `main` constructs is in state A. -/
theorem mainStart_in_A (typeName : Kind → String) :
    ∃ w, mainStart typeName
          = some (w, "Context: Transition to " ++ typeName Kind.ConcreteStateA ++ ".\n")
      ∧ InState w Kind.ConcreteStateA := by
  refine ⟨⟨fun q => if q = 0 then some ⟨Kind.ConcreteStateA, true⟩
                    else (emptyWorld.alloc Kind.ConcreteStateA).1.heap q,
            1, some 0⟩, ?_, ?_⟩
  · simp [mainStart, Context.new, transitionTo, World.alloc, World.delete, emptyWorld]
  · exact ⟨0, rfl, by simp, by simp⟩

/-- C13: from a context in `ConcreteStateA`, `request1()` returns and leaves
the context in `ConcreteStateB`, and `request2()` called next returns and
leaves it in `ConcreteStateA` again; the context `main` constructs with
`new ConcreteStateA` is in `ConcreteStateA`. -/
theorem request1_request2_round_trip :
    (∀ (typeName : Kind → String) (w : World), InState w Kind.ConcreteStateA →
      ∃ w1 out1 w2 out2,
        request1 typeName w = some (w1, out1) ∧ InState w1 Kind.ConcreteStateB
        ∧ request2 typeName w1 = some (w2, out2) ∧ InState w2 Kind.ConcreteStateA)
    ∧ (∀ (typeName : Kind → String),
        ∃ w out, mainStart typeName = some (w, out) ∧ InState w Kind.ConcreteStateA) := by
  refine ⟨?_, ?_⟩
  · intro typeName w h
    obtain ⟨w1, h1, hin1⟩ := request1_in_A typeName w h
    obtain ⟨w2, h2, hin2⟩ := request2_in_B typeName w1 hin1
    exact ⟨w1, _, w2, _, h1, hin1, h2, hin2⟩
  · intro typeName
    obtain ⟨w, hw, hin⟩ := mainStart_in_A typeName
    exact ⟨w, _, hw, hin⟩

/-- The round trip at the world where one live `ConcreteStateA` object, at
address 0, is the state of the context. -/
theorem request1_request2_round_trip_witness :
    ∃ w1 out1 w2 out2,
      request1 (fun _ => "State")
          ⟨fun q => if q = 0 then some ⟨Kind.ConcreteStateA, true⟩ else none, 1, some 0⟩
        = some (w1, out1)
      ∧ InState w1 Kind.ConcreteStateB
      ∧ request2 (fun _ => "State") w1 = some (w2, out2)
      ∧ InState w2 Kind.ConcreteStateA :=
  request1_request2_round_trip.1 (fun _ => "State")
    ⟨fun q => if q = 0 then some ⟨Kind.ConcreteStateA, true⟩ else none, 1, some 0⟩
    ⟨0, rfl, rfl, by decide⟩

end StateExample

/-! ## Strategy -/

namespace StrategyExample

/-- C14: `doSomeBusinessLogic()` on a context without strategy returns
normally and prints exactly the line "Context: Strategy isn't set", in which no
algorithm takes part; with a strategy `s` set it prints the header line and
then the line `s.doAlgorithm("aecbd")`.  With `ConcreteStrategyA` that line is
"abcde", with `ConcreteStrategyB` it is "edcba". -/
theorem doSomeBusinessLogic_unset_or_set :
    (Context.new none).doSomeBusinessLogic = "Context: Strategy isn't set\n"
    ∧ (∀ (c : Context) (s s' : Strategy),
        (c.setStrategy none).doSomeBusinessLogic = "Context: Strategy isn't set\n"
        ∧ (c.setStrategy none).doSomeBusinessLogic
            = ((c.setStrategy (some s)).setStrategy none).doSomeBusinessLogic
        ∧ (Context.new (some s)).doSomeBusinessLogic
            = "Context: Sorting data using the strategy (not sure how it'll do it)\n" ++
                s.doAlgorithm "aecbd" ++ "\n"
        ∧ (c.setStrategy (some s)).doSomeBusinessLogic
            = "Context: Sorting data using the strategy (not sure how it'll do it)\n" ++
                s.doAlgorithm "aecbd" ++ "\n"
        ∧ ((c.setStrategy (some s')).setStrategy (some s)).doSomeBusinessLogic
            = (c.setStrategy (some s)).doSomeBusinessLogic)
    ∧ (∀ (signed : Bool), (Context.new (some (ConcreteStrategyA signed))).doSomeBusinessLogic
        = "Context: Sorting data using the strategy (not sure how it'll do it)\nabcde\n")
    ∧ (∀ (signed : Bool), ((Context.new (some (ConcreteStrategyA signed))).setStrategy
          (some (ConcreteStrategyB signed))).doSomeBusinessLogic
        = "Context: Sorting data using the strategy (not sure how it'll do it)\nedcba\n") := by
  refine ⟨rfl, fun c s s' => ⟨rfl, rfl, rfl, rfl, rfl⟩, by decide, by decide⟩

end StrategyExample

/-! ## Template Method -/

namespace TemplateMethodExample

set_option maxRecDepth 20000 in
/-- C15: for every concrete subclass `templateMethod()` prints the steps in the
order baseOperation1, requiredOperations1, baseOperation2, hook1,
requiredOperation2, baseOperation3, hook2, and a hook that is not overridden
prints nothing.  The trace of `ConcreteClass1` is the three `AbstractClass`
lines interleaved with its two operations (5 lines); the trace of
`ConcreteClass2` is the same sequence with its own two lines and
"ConcreteClass2 says: Overridden Hook1" between the line of baseOperation2 and
the line of requiredOperation2 (6 lines). -/
theorem templateMethod_fixed_order :
    (∀ (c : AbstractClass),
      c.templateMethod =
        String.join [baseOperation1, c.requiredOperations1, baseOperation2, c.hook1,
          c.requiredOperation2, baseOperation3, c.hook2])
    ∧ (∀ (r1 r2 : String),
        ({ requiredOperations1 := r1, requiredOperation2 := r2 } : AbstractClass).templateMethod =
          String.join [baseOperation1, r1, baseOperation2, r2, baseOperation3])
    ∧ ConcreteClass1.templateMethod =
        String.join
          ["AbstractClass says: I am doing the bulk of the work\n",
           "ConcreteClass1 says: Implemented Operation1\n",
           "AbstractClass says: But I let subclasses override some operations\n",
           "ConcreteClass1 says: Implemented Operation2\n",
           "AbstractClass says: But I am doing the bulk of the work anyway\n"]
    ∧ lineCount ConcreteClass1.templateMethod = 5
    ∧ ConcreteClass2.templateMethod =
        String.join
          ["AbstractClass says: I am doing the bulk of the work\n",
           "ConcreteClass2 says: Implemented Operation1\n",
           "AbstractClass says: But I let subclasses override some operations\n",
           "ConcreteClass2 says: Overridden Hook1\n",
           "ConcreteClass2 says: Implemented Operation2\n",
           "AbstractClass says: But I am doing the bulk of the work anyway\n"]
    ∧ lineCount ConcreteClass2.templateMethod = 6 := by
  refine ⟨?_, ?_, by decide, by decide, by decide, by decide⟩
  · intro c
    simp [AbstractClass.templateMethod, String.join, String.append_assoc]
  · intro r1 r2
    simp [AbstractClass.templateMethod, String.join, String.append_assoc]

end TemplateMethodExample

/-! ## Iterator -/

namespace IteratorExample

theorem addAll_data {T : Type} (xs : List T) :
    ∀ (self : Container T), (addAll self xs).m_data = self.m_data ++ xs := by
  induction xs with
  | nil => intro self; simp [addAll]
  | cons x rest ih =>
    intro self
    have hstep : addAll self (x :: rest) = addAll (self.add x) rest := rfl
    rw [hstep, ih]
    simp [Container.add]

/-- From position `i` the loop reads the elements from `i` on, stops at
`end()` and makes one `next()` call per element read. -/
theorem traverseLoop_from {T : Type} (container : Container T) :
    ∀ (rest : Nat) (i fuel : Nat), i + rest = container.m_data.length → rest < fuel →
      traverseLoop container fuel ⟨i⟩
        = some ⟨container.m_data.drop i, ⟨container.m_data.length⟩, rest⟩ := by
  intro rest
  induction rest with
  | zero =>
    intro i fuel hi hfuel
    obtain ⟨n, rfl⟩ : ∃ n, fuel = n + 1 := ⟨fuel - 1, by omega⟩
    have hi' : i = container.m_data.length := by omega
    subst hi'
    simp [traverseLoop, Iterator.isDone]
  | succ rest ih =>
    intro i fuel hi hfuel
    obtain ⟨n, rfl⟩ : ∃ n, fuel = n + 1 := ⟨fuel - 1, by omega⟩
    have hlt : i < container.m_data.length := by omega
    have hne : i ≠ container.m_data.length := Nat.ne_of_lt hlt
    have hdrop : container.m_data.drop i
        = container.m_data[i] :: container.m_data.drop (i + 1) :=
      List.drop_eq_getElem_cons hlt
    have hcur : container.m_data[i]? = some container.m_data[i] :=
      List.getElem?_eq_getElem hlt
    unfold traverseLoop
    simp only [Iterator.isDone, beq_iff_eq, hne, if_false, Iterator.current, hcur,
      Iterator.next, hlt, if_true, Bool.false_eq_true]
    rw [ih (i + 1) n (by omega) (by omega), hdrop]

/-- After `k` calls of `next()` from the start, `k` at most the number of
elements, the iterator is at position `k`. -/
theorem nextTimes_from {T : Type} (container : Container T) :
    ∀ (k i : Nat), i + k ≤ container.m_data.length →
      nextTimes container k ⟨i⟩ = some ⟨i + k⟩ := by
  intro k
  induction k with
  | zero => intro i _; rfl
  | succ k ih =>
    intro i hi
    have hlt : i < container.m_data.length := by omega
    unfold nextTimes
    simp only [Iterator.next, hlt, if_true]
    rw [ih (i + 1) (by omega)]
    congr 2
    omega

/-- C16: on the container built by `add(x1)`, ..., `add(xn)` (`n ≥ 0`), from
any iterator position reached by `k ≤ n` calls of `next()`, the loop
`first(); while (!isDone()) { read current(); next(); }` returns, reads exactly
`x1, ..., xn` in insertion order, ends with the iterator at `end()` and makes
exactly `n` calls of `next()`; run again from where it ended it gives the same
reads.  The methods of the iterator only read the container. -/
theorem traverse_reads_all :
    (∀ (T : Type) (xs : List T) (k fuel : Nat), k ≤ xs.length → xs.length < fuel →
      ∃ it, nextTimes (addAll Container.new xs) k
              ((addAll Container.new xs).createIterator) = some it
        ∧ it.m_it = k
        ∧ traverse (addAll Container.new xs) fuel it = some ⟨xs, ⟨xs.length⟩, xs.length⟩
        ∧ traverse (addAll Container.new xs) fuel ⟨xs.length⟩
            = some ⟨xs, ⟨xs.length⟩, xs.length⟩
        ∧ (addAll Container.new xs).m_data = xs)
    ∧ (traverse cont1 11 cont1.createIterator).map (fun r => r.reads)
        = some [0, 1, 2, 3, 4, 5, 6, 7, 8, 9]
    ∧ (traverse cont2 4 cont2.createIterator).map (fun r => r.reads.map Data.data)
        = some [100, 1000, 10000] := by
  refine ⟨?_, by decide, by decide⟩
  intro T xs k fuel hk hfuel
  have hdata : (addAll Container.new xs).m_data = xs := by
    rw [addAll_data]; rfl
  have htrav : ∀ (it : Iterator),
      traverse (addAll Container.new xs) fuel it = some ⟨xs, ⟨xs.length⟩, xs.length⟩ := by
    intro it
    have h := traverseLoop_from (addAll Container.new xs) xs.length 0 fuel
      (by rw [hdata]; simp) hfuel
    rw [hdata] at h
    simpa [traverse, Iterator.first, hdata] using h
  refine ⟨⟨k⟩, ?_, rfl, htrav _, htrav _, hdata⟩
  have h := nextTimes_from (addAll Container.new xs) k 0 (by rw [hdata]; simpa using hk)
  simpa [Container.createIterator] using h

/-- The traversal law on the container built by `add(7)`, `add(8)`, from the
position reached by one `next()`. -/
theorem traverse_reads_all_witness :
    ∃ it, nextTimes (addAll Container.new [(7 : Int), 8]) 1
            ((addAll Container.new [(7 : Int), 8]).createIterator) = some it
      ∧ it.m_it = 1
      ∧ traverse (addAll Container.new [(7 : Int), 8]) 3 it
          = some ⟨[7, 8], ⟨[(7 : Int), 8].length⟩, [(7 : Int), 8].length⟩
      ∧ traverse (addAll Container.new [(7 : Int), 8]) 3 ⟨[(7 : Int), 8].length⟩
          = some ⟨[7, 8], ⟨[(7 : Int), 8].length⟩, [(7 : Int), 8].length⟩
      ∧ (addAll Container.new [(7 : Int), 8]).m_data = [7, 8] :=
  traverse_reads_all.1 Int [7, 8] 1 3 (by decide) (by decide)

end IteratorExample

/-! ## Builder -/

namespace BuilderExample

theorem reset_blank (w : World) (self : Nat) : Holds (w.reset self) self w.next [] := by
  refine ⟨?_, ?_, ?_⟩
  · simp [World.reset]
  · simp [World.reset]
  · simp [World.reset]

theorem producePart_holds (w : World) (self p : Nat) (parts : List String) (part : String)
    (h : Holds w self p parts) :
    ∃ w', producePart w self part = some w' ∧ Holds w' self p (parts ++ [part])
      ∧ w'.next = w.next ∧ w'.builders = w.builders
      ∧ ∀ q, q ≠ p → w'.products q = w.products q := by
  obtain ⟨hb, hp, hlt⟩ := h
  refine ⟨{ w with products := fun q =>
      if q = p then some ⟨parts ++ [part]⟩ else w.products q }, ?_, ⟨hb, ?_, hlt⟩, rfl, rfl, ?_⟩
  · simp [producePart, hb, hp]
  · simp
  · intro q hq
    simp [hq]

theorem step_holds (w : World) (self p : Nat) (parts : List String) (s : Step)
    (h : Holds w self p parts) :
    ∃ w', s.run w self = some w' ∧ Holds w' self p (parts ++ [s.part])
      ∧ w'.next = w.next ∧ w'.builders = w.builders
      ∧ ∀ q, q ≠ p → w'.products q = w.products q := by
  cases s <;> exact producePart_holds w self p parts _ h

theorem getProduct_holds (w : World) (self p : Nat) (parts : List String)
    (h : Holds w self p parts) :
    getProduct w self = some (w.reset self, p)
    ∧ (w.reset self).products p = some ⟨parts⟩
    ∧ Holds (w.reset self) self w.next [] := by
  obtain ⟨hb, hp, hlt⟩ := h
  refine ⟨?_, ?_, reset_blank w self⟩
  · simp [getProduct, hb]
  · have hne : p ≠ w.next := Nat.ne_of_lt hlt
    simp [World.reset, hne, hp]

/-- Building steps append their part names, in call order, to the product the
builder holds. -/
theorem runSteps_holds (self p : Nat) :
    ∀ (steps : List Step) (w : World) (parts : List String), Holds w self p parts →
      ∃ w', runSteps w self steps = some w'
        ∧ Holds w' self p (parts ++ steps.map Step.part) := by
  intro steps
  induction steps with
  | nil =>
    intro w parts h
    exact ⟨w, rfl, by simpa using h⟩
  | cons s rest ih =>
    intro w parts h
    obtain ⟨w1, hrun, hh, _⟩ := step_holds w self p parts s h
    obtain ⟨w2, hrun2, hh2⟩ := ih w1 (parts ++ [s.part]) hh
    refine ⟨w2, ?_, by simpa using hh2⟩
    show runOps w self (Op.step s :: rest.map Op.step) = some w2
    unfold runOps
    rw [hrun]
    exact hrun2

/-- Calls on the builder never touch a product that the builder does not hold
any more. -/
theorem runOps_frame (self p : Nat) :
    ∀ (ops : List Op) (w : World) (q : Nat) (parts : List String),
      Holds w self q parts → q ≠ p → p < w.next →
      ∃ w', runOps w self ops = some w' ∧ w'.products p = w.products p := by
  intro ops
  induction ops with
  | nil => intro w q parts _ _ _; exact ⟨w, rfl, rfl⟩
  | cons op rest ih =>
    intro w q parts h hq hp
    cases op with
    | step s =>
      obtain ⟨w1, hrun, hh, hnext, _, hframe⟩ := step_holds w self q parts s h
      obtain ⟨w2, hrun2, hprod⟩ := ih w1 q _ hh hq (by rw [hnext]; exact hp)
      refine ⟨w2, ?_, ?_⟩
      · unfold runOps
        rw [hrun]
        exact hrun2
      · rw [hprod, hframe p (fun h => hq h.symm)]
    | getProduct =>
      obtain ⟨hget, _, hh⟩ := getProduct_holds w self q parts h
      have hne : w.next ≠ p := fun h => (Nat.ne_of_lt hp) h.symm
      obtain ⟨w2, hrun2, hprod⟩ := ih (w.reset self) w.next [] hh hne
        (by simp only [World.reset]; omega)
      refine ⟨w2, ?_, ?_⟩
      · unfold runOps
        rw [hget]
        exact hrun2
      · rw [hprod]
        have hne' : p ≠ w.next := fun h => hne h.symm
        simp [World.reset, hne']

/-- C17: a new `ConcreteBuilder1` holds a blank product.  Whatever steps are
called on a builder that holds a blank product (after its construction or
after a `getProduct()`), `getProduct()` returns a product whose parts are
exactly the part names of the steps, in call order, and leaves the builder
with a new blank product: any later calls on the builder leave the retrieved
product as it is, and a `getProduct()` that follows at once returns another
product, without parts.  Through the director,
`buildMinimalViableProduct` gives [PartA1] and `buildFullFeaturedProduct`
gives [PartA1, PartB1, PartC1]. -/
theorem getProduct_returns_steps_and_resets :
    (∀ (w : World) (self : Nat), Blank (ConcreteBuilder1.new w self) self)
    ∧ (∀ (w : World) (self : Nat) (steps : List Step), Blank w self →
        ∃ w1 w2 p,
          runSteps w self steps = some w1
          ∧ getProduct w1 self = some (w2, p)
          ∧ w2.products p = some ⟨steps.map Step.part⟩
          ∧ Blank w2 self
          ∧ (∀ (ops : List Op), ∃ w3, runOps w2 self ops = some w3
              ∧ w3.products p = some ⟨steps.map Step.part⟩)
          ∧ (∃ w4 p', getProduct w2 self = some (w4, p') ∧ p' ≠ p
              ∧ w4.products p' = some ⟨[]⟩
              ∧ w4.products p = some ⟨steps.map Step.part⟩))
    ∧ partsOf clientMinimal = some ["PartA1"]
    ∧ partsOf clientFull = some ["PartA1", "PartB1", "PartC1"] := by
  refine ⟨fun w self => ⟨w.next, reset_blank w self⟩, ?_, by decide, by decide⟩
  intro w self steps hblank
  obtain ⟨p, hp⟩ := hblank
  obtain ⟨w1, hrun, hh⟩ := runSteps_holds self p steps w [] hp
  simp only [List.nil_append] at hh
  obtain ⟨hget, hprod, hh2⟩ := getProduct_holds w1 self p _ hh
  have hlt : p < w1.next := hh.2.2
  have hne : w1.next ≠ p := fun h => (Nat.ne_of_lt hlt) h.symm
  have hlt' : p < (w1.reset self).next := by simp only [World.reset]; omega
  refine ⟨w1, w1.reset self, p, hrun, hget, hprod, ⟨w1.next, hh2⟩, ?_, ?_⟩
  · intro ops
    obtain ⟨w3, hrun3, hprod3⟩ := runOps_frame self p ops (w1.reset self) w1.next [] hh2 hne hlt'
    exact ⟨w3, hrun3, by rw [hprod3, hprod]⟩
  · obtain ⟨hget2, hprod2, _⟩ := getProduct_holds (w1.reset self) self w1.next [] hh2
    refine ⟨(w1.reset self).reset self, w1.next, hget2, hne, hprod2, ?_⟩
    have hne' : p ≠ (w1.reset self).next := Nat.ne_of_lt hlt'
    have hstep : ((w1.reset self).reset self).products p = (w1.reset self).products p := by
      simp only [World.reset] at hne' ⊢
      simp [hne']
    rw [hstep, hprod]

/-- The builder law on a new builder at address 0 with the steps
`producePartA()`, `producePartC()` (the custom product of `clientCode`). -/
theorem getProduct_returns_steps_and_resets_witness :
    ∃ w1 w2 p,
      runSteps (ConcreteBuilder1.new emptyWorld 0) 0 [Step.producePartA, Step.producePartC]
        = some w1
      ∧ getProduct w1 0 = some (w2, p)
      ∧ w2.products p = some ⟨[Step.producePartA, Step.producePartC].map Step.part⟩
      ∧ Blank w2 0
      ∧ (∀ (ops : List Op), ∃ w3, runOps w2 0 ops = some w3
          ∧ w3.products p = some ⟨[Step.producePartA, Step.producePartC].map Step.part⟩)
      ∧ (∃ w4 p', getProduct w2 0 = some (w4, p') ∧ p' ≠ p
          ∧ w4.products p' = some ⟨[]⟩
          ∧ w4.products p = some ⟨[Step.producePartA, Step.producePartC].map Step.part⟩) :=
  getProduct_returns_steps_and_resets.2.1 (ConcreteBuilder1.new emptyWorld 0) 0
    [Step.producePartA, Step.producePartC]
    (getProduct_returns_steps_and_resets.1 emptyWorld 0)

end BuilderExample

/-! ## Mediator -/

namespace MediatorExample

/-- The constructor of the mediator wires two new components at distinct
addresses. -/
theorem new_wired (heap : Heap) (c1 c2 m : Nat) (o1 o2 : Option Nat)
    (h1 : heap c1 = some (Obj.Component1 o1)) (h2 : heap c2 = some (Obj.Component2 o2))
    (h12 : c1 ≠ c2) (h1m : c1 ≠ m) (h2m : c2 ≠ m) :
    Wired (ConcreteMediator.new heap m c1 c2) c1 c2 m := by
  have h21 : c2 ≠ c1 := fun h => h12 h.symm
  have hm1 : m ≠ c1 := fun h => h1m h.symm
  have hm2 : m ≠ c2 := fun h => h2m h.symm
  refine ⟨?_, ?_, ?_⟩ <;>
    simp [ConcreteMediator.new, setMediator, Heap.store, h1, h2, h12, h1m, h2m, h21, hm1, hm2]

/-- The reaction of the wired mediator to the events "B" and "C", and to any
event other than "A" and "D": nothing. -/
theorem notify_other (heap : Heap) (c1 c2 m sender fuel : Nat) (event : String)
    (hw : Wired heap c1 c2 m) (hA : event ≠ "A") (hD : event ≠ "D") :
    exec heap (fuel + 1) (Call.notify m sender event) = some "" := by
  obtain ⟨_, _, hm⟩ := hw
  simp [exec, hm, hA, hD]

theorem doB_wired (heap : Heap) (c1 c2 m fuel : Nat) (hw : Wired heap c1 c2 m) :
    exec heap (fuel + 2) (Call.doB c1) = some "Component1 does B.\n" := by
  have hn := notify_other heap c1 c2 m c1 fuel "B" hw (by decide) (by decide)
  obtain ⟨h1, _, _⟩ := hw
  unfold exec
  simp only [h1]
  rw [hn]
  rfl

theorem doC_wired (heap : Heap) (c1 c2 m fuel : Nat) (hw : Wired heap c1 c2 m) :
    exec heap (fuel + 2) (Call.doC c2) = some "Component2 does C.\n" := by
  have hn := notify_other heap c1 c2 m c2 fuel "C" hw (by decide) (by decide)
  obtain ⟨_, h2, _⟩ := hw
  unfold exec
  simp only [h2]
  rw [hn]
  rfl

theorem notify_A_wired (heap : Heap) (c1 c2 m sender fuel : Nat) (hw : Wired heap c1 c2 m) :
    exec heap (fuel + 3) (Call.notify m sender "A") =
      some ("Mediator reacts on A and triggers following operations:\n" ++
        "Component2 does C.\n") := by
  have hc := doC_wired heap c1 c2 m fuel hw
  obtain ⟨_, _, hm⟩ := hw
  unfold exec
  simp only [hm, if_true]
  rw [hc]
  simp

theorem notify_D_wired (heap : Heap) (c1 c2 m sender fuel : Nat) (hw : Wired heap c1 c2 m) :
    exec heap (fuel + 3) (Call.notify m sender "D") =
      some ("Mediator reacts on D and triggers following operations:\n" ++
        "Component1 does B.\n" ++ "Component2 does C.\n") := by
  have hb := doB_wired heap c1 c2 m fuel hw
  have hc := doC_wired heap c1 c2 m fuel hw
  obtain ⟨_, _, hm⟩ := hw
  unfold exec
  simp only [hm, if_true]
  rw [hb, hc]
  simp

/-- C18: with a `Component1` and a `Component2` wired to one
`ConcreteMediator`, every component operation prints its own line and then
what the mediator's `notify` prints for its tag; the mediator reacts to "A"
with `doC`, to "D" with `doB` then `doC`, and to "B", "C" (and any other tag)
with nothing.  So every operation returns (four nested calls suffice), `doA()`
prints "Component1 does A.", "Mediator reacts on A and triggers following
operations:", "Component2 does C.", and `doD()` prints "Component2 does D.",
"Mediator reacts on D and triggers following operations:", "Component1 does
B.", "Component2 does C.".  The constructor of the mediator wires the
components, as in `main`. -/
theorem mediator_reaction_table :
    (∀ (heap : Heap) (c1 c2 m fuel : Nat), Wired heap c1 c2 m →
      doA heap (fuel + 1) c1
          = (notify heap fuel m c1 "A").map (fun out => "Component1 does A.\n" ++ out)
      ∧ doB heap (fuel + 1) c1
          = (notify heap fuel m c1 "B").map (fun out => "Component1 does B.\n" ++ out)
      ∧ doC heap (fuel + 1) c2
          = (notify heap fuel m c2 "C").map (fun out => "Component2 does C.\n" ++ out)
      ∧ doD heap (fuel + 1) c2
          = (notify heap fuel m c2 "D").map (fun out => "Component2 does D.\n" ++ out))
    ∧ (∀ (heap : Heap) (c1 c2 m sender fuel : Nat), Wired heap c1 c2 m → 3 ≤ fuel →
      notify heap fuel m sender "A"
          = (doC heap (fuel - 1) c2).map
              (fun out => "Mediator reacts on A and triggers following operations:\n" ++ out)
      ∧ notify heap fuel m sender "D"
          = some ("Mediator reacts on D and triggers following operations:\n" ++
              "Component1 does B.\n" ++ "Component2 does C.\n")
      ∧ (∀ (event : String), event ≠ "A" → event ≠ "D" →
          notify heap fuel m sender event = some ""))
    ∧ (∀ (heap : Heap) (c1 c2 m fuel : Nat), Wired heap c1 c2 m → 4 ≤ fuel →
      doA heap fuel c1
          = some ("Component1 does A.\n" ++
              "Mediator reacts on A and triggers following operations:\n" ++
              "Component2 does C.\n")
      ∧ doB heap fuel c1 = some "Component1 does B.\n"
      ∧ doC heap fuel c2 = some "Component2 does C.\n"
      ∧ doD heap fuel c2
          = some ("Component2 does D.\n" ++
              "Mediator reacts on D and triggers following operations:\n" ++
              "Component1 does B.\n" ++ "Component2 does C.\n"))
    ∧ Wired mainHeap 1 2 0 := by
  refine ⟨?_, ?_, ?_, ?_⟩
  · intro heap c1 c2 m fuel hw
    obtain ⟨h1, h2, _⟩ := hw
    refine ⟨?_, ?_, ?_, ?_⟩
    · simp only [doA, notify]
      conv_lhs => unfold exec
      simp only [h1]
      cases exec heap fuel (Call.notify m c1 "A") <;> rfl
    · simp only [doB, notify]
      conv_lhs => unfold exec
      simp only [h1]
      cases exec heap fuel (Call.notify m c1 "B") <;> rfl
    · simp only [doC, notify]
      conv_lhs => unfold exec
      simp only [h2]
      cases exec heap fuel (Call.notify m c2 "C") <;> rfl
    · simp only [doD, notify]
      conv_lhs => unfold exec
      simp only [h2]
      cases exec heap fuel (Call.notify m c2 "D") <;> rfl
  · intro heap c1 c2 m sender fuel hw hfuel
    obtain ⟨n, rfl⟩ : ∃ n, fuel = n + 3 := ⟨fuel - 3, by omega⟩
    refine ⟨?_, ?_, ?_⟩
    · simp only [notify, doC]
      rw [notify_A_wired heap c1 c2 m sender n hw]
      rw [show n + 3 - 1 = n + 2 from rfl, doC_wired heap c1 c2 m n hw]
      rfl
    · exact notify_D_wired heap c1 c2 m sender n hw
    · intro event hA hD
      exact notify_other heap c1 c2 m sender (n + 2) event hw hA hD
  · intro heap c1 c2 m fuel hw hfuel
    obtain ⟨n, rfl⟩ : ∃ n, fuel = n + 4 := ⟨fuel - 4, by omega⟩
    have hA := notify_A_wired heap c1 c2 m c1 n hw
    have hD := notify_D_wired heap c1 c2 m c2 n hw
    have hB := doB_wired heap c1 c2 m (n + 2) hw
    have hC := doC_wired heap c1 c2 m (n + 2) hw
    obtain ⟨h1, h2, _⟩ := hw
    refine ⟨?_, hB, hC, ?_⟩
    · simp only [doA]
      unfold exec
      simp only [h1]
      rw [hA]
      simp [String.append_assoc]
    · simp only [doD]
      unfold exec
      simp only [h2]
      rw [hD]
      simp [String.append_assoc]
  · exact new_wired ((emptyHeap.store 1 (Obj.Component1 none)).store 2 (Obj.Component2 none))
      1 2 0 none none (by decide) (by decide) (by decide) (by decide) (by decide)

/-- The mediator law on the objects of `main`: `c1->doA()` and `c2->doD()`. -/
theorem mediator_reaction_table_witness :
    doA mainHeap 4 1
        = some ("Component1 does A.\n" ++
            "Mediator reacts on A and triggers following operations:\n" ++
            "Component2 does C.\n")
    ∧ doD mainHeap 4 2
        = some ("Component2 does D.\n" ++
            "Mediator reacts on D and triggers following operations:\n" ++
            "Component1 does B.\n" ++ "Component2 does C.\n") :=
  ⟨(mediator_reaction_table.2.2.1 mainHeap 1 2 0 4 mediator_reaction_table.2.2.2
      (by decide)).1,
   (mediator_reaction_table.2.2.1 mainHeap 1 2 0 4 mediator_reaction_table.2.2.2
      (by decide)).2.2.2⟩

end MediatorExample

/-! ## Command -/

namespace CommandExample

/-- An invoker whose two pointers are null prints its own three lines. -/
theorem doSomethingImportant_null :
    (Invoker.mk Ptr.null Ptr.null).doSomethingImportant
      = some ("Invoker: Does anybody want something done before I begin?\n" ++
          "Invoker: ...doing something really important...\n" ++
          "Invoker: Does anybody want something done after I finish?\n") := by
  decide

set_option maxRecDepth 20000 in
/-- C19: with `onStart = s` and `onFinish = f` set, `doSomethingImportant()`
prints "Invoker: Does anybody want something done before I begin?", then what
`s.execute()` prints, then "Invoker: ...doing something really important..."
and "Invoker: Does anybody want something done after I finish?", then what
`f.execute()` prints, and nothing else.  The `execute` of a `SimpleCommand`
prints one line with its payload; the `execute` of a `ComplexCommand` prints
its own line, then the receiver's `doSomething(a)` line, then the receiver's
`doSomethingElse(b)` line. -/
theorem doSomethingImportant_fixed_order :
    (∀ (invoker : Invoker) (s f : Command) (outS outF : String),
      s.execute = some outS → f.execute = some outF →
      ((invoker.setOnStart (some s)).setOnFinish (some f)).doSomethingImportant
        = some ("Invoker: Does anybody want something done before I begin?\n" ++
            outS ++
            "Invoker: ...doing something really important...\n" ++
            "Invoker: Does anybody want something done after I finish?\n" ++
            outF))
    ∧ (∀ (payload : String),
        (Command.SimpleCommand payload).execute
          = some ("SimpleCommand: See, I can do simple things like printing (" ++
              payload ++ ").\n"))
    ∧ (∀ (receiver : Receiver) (a b : String),
        (Command.ComplexCommand (some receiver) a b).execute
          = some ("ComplexCommand: Complex stuff should be done by a receiver object.\n" ++
              receiver.doSomething a ++ receiver.doSomethingElse b)
        ∧ receiver.doSomething a = "Receiver: Working on (" ++ a ++ ").\n"
        ∧ receiver.doSomethingElse b = "Receiver: Also working on (" ++ b ++ ").\n")
    ∧ mainInvoker.doSomethingImportant
        = some ("Invoker: Does anybody want something done before I begin?\n" ++
            "SimpleCommand: See, I can do simple things like printing (Say Hi!).\n" ++
            "Invoker: ...doing something really important...\n" ++
            "Invoker: Does anybody want something done after I finish?\n" ++
            "ComplexCommand: Complex stuff should be done by a receiver object.\n" ++
            "Receiver: Working on (Send email).\n" ++
            "Receiver: Also working on (Save report).\n") := by
  refine ⟨?_, fun _ => rfl, fun _ _ _ => ⟨rfl, rfl, rfl⟩, by decide⟩
  intro invoker s f outS outF hs hf
  simp [Invoker.doSomethingImportant, Invoker.setOnStart, Invoker.setOnFinish, Ptr.ofArg,
    Ptr.executeIfSet, hs, hf]

/-- The fixed-order law at the two commands of `main`. -/
theorem doSomethingImportant_fixed_order_witness :
    ((Invoker.new.setOnStart (some (Command.SimpleCommand "Say Hi!"))).setOnFinish
        (some (Command.ComplexCommand (some ⟨⟩) "Send email" "Save report"))).doSomethingImportant
      = some ("Invoker: Does anybody want something done before I begin?\n" ++
          "SimpleCommand: See, I can do simple things like printing (Say Hi!).\n" ++
          "Invoker: ...doing something really important...\n" ++
          "Invoker: Does anybody want something done after I finish?\n" ++
          ("ComplexCommand: Complex stuff should be done by a receiver object.\n" ++
            "Receiver: Working on (Send email).\n" ++
            "Receiver: Also working on (Save report).\n")) :=
  doSomethingImportant_fixed_order.1 Invoker.new (Command.SimpleCommand "Say Hi!")
    (Command.ComplexCommand (some ⟨⟩) "Send email" "Save report") _ _ (by decide) (by decide)

set_option maxRecDepth 20000 in
/-- C20 (the code at the failing input): on an invoker created by `new Invoker`
on which no setter, or only one of the two setters, was called,
`doSomethingImportant()` tests a pointer that was never written, so the call
has no defined result; only when both pointers have been written (with
`nullptr` for an absent command) does it print just the commands that are set
and its own three lines. -/
theorem doSomethingImportant_unset_pointers :
    Invoker.new.doSomethingImportant = none
    ∧ (Invoker.new.setOnStart (some (Command.SimpleCommand "Say Hi!"))).doSomethingImportant
        = none
    ∧ (Invoker.new.setOnFinish (some (Command.SimpleCommand "Say Hi!"))).doSomethingImportant
        = none
    ∧ ((Invoker.new.setOnStart none).setOnFinish none).doSomethingImportant
        = some ("Invoker: Does anybody want something done before I begin?\n" ++
            "Invoker: ...doing something really important...\n" ++
            "Invoker: Does anybody want something done after I finish?\n")
    ∧ ((Invoker.new.setOnStart (some (Command.SimpleCommand "Say Hi!"))).setOnFinish
          none).doSomethingImportant
        = some ("Invoker: Does anybody want something done before I begin?\n" ++
            "SimpleCommand: See, I can do simple things like printing (Say Hi!).\n" ++
            "Invoker: ...doing something really important...\n" ++
            "Invoker: Does anybody want something done after I finish?\n") := by
  decide

end CommandExample

/-! ## Prototype -/

namespace PrototypeExample

/-- A clone is a new object with the class and the fields of the original,
which stays as it is. -/
theorem clone_copy {F : Type} (w : World F) (p : Nat) (obj : Prototype F)
    (hp : w.heap p = some obj) :
    clone w p = some (⟨fun q => if q = w.next then some obj else w.heap q, w.next + 1⟩, w.next)
    := by
  obtain ⟨cls, name, field⟩ := obj
  unfold clone
  rw [hp]
  cases cls <;> rfl

/-- `method(x)` on a live object sets its field and leaves the other objects
as they are. -/
theorem method_live {F : Type} (fmt : F → String) (w : World F) (q : Nat) (obj : Prototype F)
    (x : F) (hq : w.heap q = some obj) :
    method fmt w q x =
      some (⟨fun r => if r = q then some { obj with m_prototypeField := x } else w.heap r,
              w.next⟩,
            "call method from " ++ obj.m_prototypeName ++ " with field: " ++ fmt x ++ "\n") := by
  unfold method
  rw [hq]

/-- The factory is intact after its constructor. -/
theorem new_intact {F : Type} (f50 f60 : F) (w : World F) :
    FactoryIntact f50 f60 (PrototypeFactory.new f50 f60 w).2
      ⟨(PrototypeFactory.new f50 f60 w).1, []⟩ := by
  refine ⟨?_, ?_⟩
  · intro t
    cases t
    · simp [PrototypeFactory.new, World.alloc, registered]
      omega
    · simp [PrototypeFactory.new, World.alloc, registered]
  · intro q hq
    cases hq

/-- Every operation of the client leaves the factory intact. -/
theorem runOp_intact {F : Type} (fmt : F → String) (f50 f60 : F)
    (factory : PrototypeFactory) (c c' : Client F) (op : ClientOp F)
    (h : FactoryIntact f50 f60 factory c) (hrun : runOp fmt factory c op = some c') :
    FactoryIntact f50 f60 factory c' := by
  obtain ⟨hreg, hclones⟩ := h
  cases op with
  | createPrototype t =>
    have hc := clone_copy c.world (factory.m_prototypes t) _ (hreg t).1
    simp only [runOp, PrototypeFactory.createPrototype, hc, Option.some.injEq] at hrun
    subst hrun
    refine ⟨?_, ?_⟩
    · intro t'
      have hne : factory.m_prototypes t' ≠ c.world.next := Nat.ne_of_lt (hreg t').2
      refine ⟨?_, ?_⟩
      · simp only [hne, if_false]
        exact (hreg t').1
      · exact Nat.lt_succ_of_lt (hreg t').2
    · intro q hq
      rcases List.mem_append.mp hq with hq | hq
      · exact ⟨Nat.lt_succ_of_lt (hclones q hq).1, (hclones q hq).2⟩
      · have hq' : q = c.world.next := by simpa using hq
        subst hq'
        exact ⟨Nat.lt_succ_self _, fun t' h => Nat.lt_irrefl _ (h ▸ (hreg t').2)⟩
  | method i x =>
    simp only [runOp] at hrun
    cases hi : c.clones[i]? with
    | none => simp [hi] at hrun
    | some p =>
      have hp := hclones p (List.getElem?_mem hi)
      cases hm : c.world.heap p with
      | none => simp [hi, method, hm] at hrun
      | some obj =>
        simp only [hi, method, hm, Option.some.injEq] at hrun
        subst hrun
        refine ⟨?_, hclones⟩
        intro t
        have hne : factory.m_prototypes t ≠ p := fun h => hp.2 t h.symm
        refine ⟨?_, (hreg t).2⟩
        simp only [hne, if_false]
        exact (hreg t).1
  | delete i =>
    simp only [runOp] at hrun
    cases hi : c.clones[i]? with
    | none => simp [hi] at hrun
    | some p =>
      have hp := hclones p (List.getElem?_mem hi)
      cases hm : c.world.heap p with
      | none => simp [hi, World.delete, hm] at hrun
      | some obj =>
        simp only [hi, World.delete, hm, Option.some.injEq] at hrun
        subst hrun
        refine ⟨?_, hclones⟩
        intro t
        have hne : factory.m_prototypes t ≠ p := fun h => hp.2 t h.symm
        refine ⟨?_, (hreg t).2⟩
        simp only [hne, if_false]
        exact (hreg t).1

theorem runOps_intact {F : Type} (fmt : F → String) (f50 f60 : F)
    (factory : PrototypeFactory) :
    ∀ (ops : List (ClientOp F)) (c c' : Client F), FactoryIntact f50 f60 factory c →
      runOps fmt factory c ops = some c' → FactoryIntact f50 f60 factory c' := by
  intro ops
  induction ops with
  | nil =>
    intro c c' h hrun
    simp only [runOps, Option.some.injEq] at hrun
    subst hrun
    exact h
  | cons op rest ih =>
    intro c c' h hrun
    simp only [runOps] at hrun
    cases hop : runOp fmt factory c op with
    | none => simp [hop] at hrun
    | some c1 =>
      simp only [hop] at hrun
      exact ih c1 c' (runOp_intact fmt f50 f60 factory c c1 op h hop) hrun

/-- C21: `clone()` of a live prototype `p` returns a new object, other than
`p`, of `p`'s own concrete class with the same name and field, and `method(x)`
on the clone sets the clone's field to `x` and leaves `p` as it is.  Hence,
after the factory's constructor and whatever the client then did with the
clones it was given (creating more, calling `method` on them, deleting them),
`createPrototype(t)` returns a new object that equals the registered prototype
for `t`: name "PROTOTYPE_1 " with field 50, or name "PROTOTYPE_2 " with
field 60. -/
theorem clone_independent_copy :
    (∀ (F : Type) (fmt : F → String) (w : World F) (p : Nat) (obj : Prototype F),
      w.heap p = some obj → p < w.next →
      ∃ w' q, clone w p = some (w', q) ∧ q ≠ p
        ∧ w'.heap q = some obj ∧ w'.heap p = some obj
        ∧ ∀ (x : F), ∃ w'' out, method fmt w' q x = some (w'', out)
            ∧ w''.heap q = some { obj with m_prototypeField := x }
            ∧ w''.heap p = some obj)
    ∧ (∀ (F : Type) (fmt : F → String) (f50 f60 : F) (w : World F)
        (ops : List (ClientOp F)) (c : Client F) (t : ProtoType),
      runOps fmt (PrototypeFactory.new f50 f60 w).2
          ⟨(PrototypeFactory.new f50 f60 w).1, []⟩ ops = some c →
      ∃ w' q, (PrototypeFactory.new f50 f60 w).2.createPrototype c.world t = some (w', q)
        ∧ w'.heap q = some (registered f50 f60 t)
        ∧ q ∉ c.clones
        ∧ (∀ t', q ≠ (PrototypeFactory.new f50 f60 w).2.m_prototypes t')
        ∧ (∀ t', w'.heap ((PrototypeFactory.new f50 f60 w).2.m_prototypes t')
              = some (registered f50 f60 t')))
    ∧ (∀ (F : Type) (f50 f60 : F),
        registered f50 f60 ProtoType.PROTOTYPE_1
          = ⟨Class.ConcretePrototype1, "PROTOTYPE_1 ", f50⟩
        ∧ registered f50 f60 ProtoType.PROTOTYPE_2
          = ⟨Class.ConcretePrototype2, "PROTOTYPE_2 ", f60⟩) := by
  refine ⟨?_, ?_, fun F f50 f60 => ⟨rfl, rfl⟩⟩
  · intro F fmt w p obj hp hlt
    have hne : p ≠ w.next := Nat.ne_of_lt hlt
    refine ⟨_, _, clone_copy w p obj hp, fun h => hne h.symm, by simp, by simp [hne, hp], ?_⟩
    intro x
    refine ⟨_, _, method_live fmt _ w.next obj x (by simp), by simp, by simp [hne, hp]⟩
  · intro F fmt f50 f60 w ops c t hrun
    obtain ⟨hreg, hclones⟩ := runOps_intact fmt f50 f60 _ ops _ c (new_intact f50 f60 w) hrun
    refine ⟨⟨fun q => if q = c.world.next then some (registered f50 f60 t)
                      else c.world.heap q, c.world.next + 1⟩, c.world.next, ?_, ?_, ?_, ?_, ?_⟩
    · exact clone_copy c.world _ _ (hreg t).1
    · simp
    · intro hq
      exact Nat.lt_irrefl _ (hclones _ hq).1
    · intro t' h
      exact Nat.lt_irrefl _ (h ▸ (hreg t').2)
    · intro t'
      have hne : (PrototypeFactory.new f50 f60 w).2.m_prototypes t' ≠ c.world.next :=
        Nat.ne_of_lt (hreg t').2
      simp only [hne, if_false]
      exact (hreg t').1

/-- The prototype law on the run of `client`: a clone of prototype 1 gets
`method(90)` and is deleted; the next `createPrototype(PROTOTYPE_1)` still
returns a copy of the registered prototype. -/
theorem clone_independent_copy_witness :
    ∃ w' q, (PrototypeFactory.new (50 : Int) 60 emptyWorld).2.createPrototype
          (⟨fun q => if q = 2 then none
              else if q = 2 then some ⟨Class.ConcretePrototype1, "PROTOTYPE_1 ", 90⟩
              else (PrototypeFactory.new (50 : Int) 60 emptyWorld).1.heap q, 3⟩ : World Int)
          ProtoType.PROTOTYPE_1 = some (w', q)
      ∧ w'.heap q = some (registered (50 : Int) 60 ProtoType.PROTOTYPE_1) := by
  obtain ⟨w', q, h1, h2, _⟩ := clone_independent_copy.2.1 Int (fun x => toString x) 50 60
    emptyWorld
    [ClientOp.createPrototype ProtoType.PROTOTYPE_1, ClientOp.method 0 90, ClientOp.delete 0]
    ⟨⟨fun q => if q = 2 then none
        else if q = 2 then some ⟨Class.ConcretePrototype1, "PROTOTYPE_1 ", 90⟩
        else (PrototypeFactory.new (50 : Int) 60 emptyWorld).1.heap q, 3⟩, [2]⟩
    ProtoType.PROTOTYPE_1 (by
      simp [runOps, runOp, PrototypeFactory.createPrototype, PrototypeFactory.new, clone,
        World.alloc, method, World.delete, emptyWorld]
      funext q
      by_cases h2 : q = 2 <;> by_cases h1 : q = 1 <;> by_cases h0 : q = 0 <;> simp_all)
  exact ⟨w', q, h1, h2⟩

end PrototypeExample

/-! ## Proxy -/

namespace ProxyExample

/-- C22: `Proxy::request()` prints the access-check line first; then, exactly
when `checkAccess()` returns true, the line "RealSubject: Handling request."
followed by the logging line, and nothing more when the check fails.
`checkAccess()` as written always returns true, so the trace of `request()`
is always access check, real request, access log, in this order. -/
theorem proxy_request_guard_then_log :
    (∀ (p : Proxy) (line : String),
      p.requestAfter (line, true)
          = line ++ "RealSubject: Handling request.\n" ++ "Proxy: Logging the time of request.\n"
      ∧ p.requestAfter (line, false) = line)
    ∧ (∀ (p : Proxy),
        p.checkAccess = ("Proxy: Checking access prior to firing a real request.\n", true)
        ∧ p.request =
            "Proxy: Checking access prior to firing a real request.\n" ++
            "RealSubject: Handling request.\n" ++
            "Proxy: Logging the time of request.\n"
        ∧ clientCode (Subject.Proxy p) = p.request)
    ∧ clientCode (Subject.RealSubject ⟨⟩) = "RealSubject: Handling request.\n" := by
  refine ⟨?_, ?_, rfl⟩
  · intro p line
    refine ⟨?_, ?_⟩
    · simp [Proxy.requestAfter, RealSubject.request, Proxy.logAccess, String.append_assoc]
    · simp [Proxy.requestAfter]
  · intro p
    refine ⟨rfl, ?_, rfl⟩
    simp [Proxy.request, Proxy.requestAfter, Proxy.checkAccess, RealSubject.request,
      Proxy.logAccess, String.append_assoc]

end ProxyExample

/-! ## Adapter: the two variants -/

namespace ObjectAdapterExample

/-- C23: to the client the class adapter and the object adapter behave the
same.  In both `Adapter::request()` is `Adaptee::specificRequest()`, so
`clientCode` prints the same text for either adapter, and a plain `Target`
returns its own default `request()` string in both programs. -/
theorem adapters_equivalent :
    (∀ (a : ClassAdapterExample.Adaptee) (b : Adaptee),
      (ClassAdapterExample.Target.Adapter a).request = a.specificRequest
      ∧ (Target.Adapter (some b)).request = some b.specificRequest
      ∧ (Target.Adapter (some b)).request = some (ClassAdapterExample.Target.Adapter a).request
      ∧ clientCode (Target.Adapter (some b))
          = some (ClassAdapterExample.clientCode (ClassAdapterExample.Target.Adapter a)))
    ∧ ClassAdapterExample.Target.Plain.request = "Target: virtual std::string request() const"
    ∧ Target.Plain.request = some "Target: virtual std::string request() const"
    ∧ clientCode Target.Plain
        = some (ClassAdapterExample.clientCode ClassAdapterExample.Target.Plain)
    ∧ clientCode (Target.Adapter (some ⟨⟩))
        = some ("void clientCode(const Target* const target)\n" ++
            "Adaptee: std::string specificRequest() const" ++ "\n")
    ∧ clientCode (Target.Adapter (some ⟨⟩)) ≠ clientCode Target.Plain := by
  refine ⟨fun a b => ⟨rfl, rfl, rfl, rfl⟩, rfl, rfl, rfl, rfl, by decide⟩

end ObjectAdapterExample

/-! ## Composite: a child added twice -/

namespace CompositeExample

/-- C24 (the code at the failing input): with the same leaf added twice the
loop takes the first child for the last one, because it compares the pointer
with `m_children.back()`, and leaves the separator out: the result is
"Branch( LeafLeaf )", not the join "Branch( Leaf + Leaf )"; children
`leaf1, leaf2, leaf1` give "Branch( LeafLeaf + Leaf )".  A composite without
children gives "Branch(  )", the join of no results. -/
theorem composite_operation_duplicate_child :
    operation twiceHeap 2 0 = some "Branch( LeafLeaf )"
    ∧ operation twiceHeap 2 0
        ≠ some ("Branch( " ++ String.intercalate " + " ["Leaf", "Leaf"] ++ " )")
    ∧ operation thriceHeap 2 0 = some "Branch( LeafLeaf + Leaf )"
    ∧ operation thriceHeap 2 0
        ≠ some ("Branch( " ++ String.intercalate " + " ["Leaf", "Leaf", "Leaf"] ++ " )")
    ∧ operation (emptyHeap.store 0 (Component.Composite [])) 1 0
        = some ("Branch( " ++ String.intercalate " + " [] ++ " )") := by
  decide

end CompositeExample

/-! ## Observer: the observer list -/

namespace ObserverExample

/-- `attach` of an observer that is not attached and `detach` keep the list
free of repetitions. -/
theorem run_nodup :
    ∀ (ops : List Op) (self : Subject), self.m_observers.Nodup → AttachesAbsent self ops →
      (self.run ops).m_observers.Nodup := by
  intro ops
  induction ops with
  | nil => intro self h _; exact h
  | cons op rest ih =>
    intro self h habs
    cases op with
    | attach o =>
      have hstep : self.run (Op.attach o :: rest) = (self.attach o).run rest := rfl
      rw [hstep]
      refine ih (self.attach o) ?_ habs.2
      have hnot : o ∉ self.m_observers := habs.1
      simp only [Subject.attach]
      exact List.Nodup.append h (List.nodup_singleton o)
        (by simpa [List.disjoint_singleton] using hnot)
    | detach o =>
      have hstep : self.run (Op.detach o :: rest) = (self.detach o).run rest := rfl
      rw [hstep]
      refine ih (self.detach o) ?_ habs
      simp only [Subject.detach]
      exact h.filter _

/-- C25 (counterexample): `attach` called twice with the same observer stores
the pointer twice, and `notify()` then calls its `update` twice. -/
theorem attach_twice_notifies_twice :
    ((Subject.new.run [Op.attach 1, Op.attach 1]).m_observers = [1, 1])
    ∧ ¬ (Subject.new.run [Op.attach 1, Op.attach 1]).m_observers.Nodup
    ∧ ((Subject.new.run [Op.attach 1, Op.attach 1]).notify
          (emptyHeap.store 1 ⟨"", 1⟩)).map (fun r => r.calls)
        = some [(1, ""), (1, "")] := by
  decide

/-- C25 (amended): the observer collection is an ordered list.  `attach`
appends the observer, also when it is attached already, `detach` removes every
occurrence of it, and `notify()` calls `update` once per element of the list.
After every sequence of `attach` and `detach` calls, on a new subject, in which
no observer is attached while it is attached already, the list holds each
observer at most once. -/
theorem observers_nodup_when_attached_once :
    (∀ (ops : List Op), AttachesAbsent Subject.new ops →
      (Subject.new.run ops).m_observers.Nodup)
    ∧ (∀ (self : Subject) (o : Nat),
        (self.attach o).m_observers = self.m_observers ++ [o]
        ∧ (self.attach o).m_observers.count o = self.m_observers.count o + 1
        ∧ o ∉ (self.detach o).m_observers)
    ∧ (∀ (self : Subject) (heap : Heap),
        (∀ o ∈ self.m_observers, (heap o).isSome = true) →
        ∃ r, self.notify heap = some r
          ∧ r.calls = self.m_observers.map (fun o => (o, self.m_message))) := by
  refine ⟨?_, ?_, ?_⟩
  · intro ops h
    exact run_nodup ops Subject.new List.nodup_nil h
  · intro self o
    refine ⟨rfl, ?_, ?_⟩
    · simp [Subject.attach]
    · simp [Subject.detach]
  · intro self heap hlive
    obtain ⟨r, hr, hcalls, _⟩ := notifyLoop_calls self.m_message self.m_observers heap hlive
    refine ⟨⟨r.heap, r.calls, self.howManyObservers ++ r.output⟩, ?_, hcalls⟩
    unfold Subject.notify
    rw [hr]

/-- The amended law on the subscription calls of `main` (the observers 1 to 5
are attached once each, and 3, 2, 5, 4, 1 detached). -/
theorem observers_nodup_when_attached_once_witness :
    (Subject.new.run
      [Op.attach 1, Op.attach 2, Op.attach 3, Op.detach 3, Op.attach 4, Op.detach 2,
        Op.attach 5, Op.detach 5, Op.detach 4, Op.detach 1]).m_observers.Nodup :=
  observers_nodup_when_attached_once.1
    [Op.attach 1, Op.attach 2, Op.attach 3, Op.detach 3, Op.attach 4, Op.detach 2,
      Op.attach 5, Op.detach 5, Op.detach 4, Op.detach 1]
    (by
      show (_ ∧ _ ∧ _ ∧ _ ∧ _ ∧ True)
      exact ⟨by decide, by decide, by decide, by decide, by decide, trivial⟩)

/-- The loop over observers that detach nobody still to come calls `update` on
every observer of the list. -/
theorem notifyLoopDetaching_only_earlier (detaching : Nat → List Nat) (message : String) :
    ∀ (rest removed : List Nat), (∀ d ∈ removed, d ∉ rest) →
      DetachesOnlyEarlier detaching rest →
      ∃ removed', notifyLoopDetaching detaching message rest removed
          = some (rest.map (fun o => (o, message)), removed')
        ∧ ∀ d, d ∈ removed' ↔ d ∈ removed ∨ ∃ o ∈ rest, d ∈ detaching o := by
  intro rest
  induction rest with
  | nil =>
    intro removed _ _
    exact ⟨removed, rfl, fun d => by simp⟩
  | cons o tl ih =>
    intro removed hrem hdet
    obtain ⟨ho, htl⟩ := hdet
    have h1 : o ∉ removed := fun h => hrem o h (List.mem_cons_self _ _)
    have h2 : o ∉ detaching o := fun h => ho o h (List.mem_cons_self _ _)
    have hrem' : ∀ d ∈ removed ++ detaching o, d ∉ tl := by
      intro d hd hmem
      rcases List.mem_append.mp hd with hd | hd
      · exact hrem d hd (List.mem_cons_of_mem _ hmem)
      · exact ho d hd (List.mem_cons_of_mem _ hmem)
    obtain ⟨removed', hloop, hmem⟩ := ih (removed ++ detaching o) hrem' htl
    refine ⟨removed', ?_, ?_⟩
    · unfold notifyLoopDetaching
      simp only [h1, h2, if_false]
      rw [hloop]
      rfl
    · intro d
      rw [hmem d]
      simp only [List.mem_append, List.mem_cons, exists_eq_or_imp]
      tauto

/-- C26 (counterexample): with O1, O2, O3 attached, an `update` of O1 that
detaches O3 takes O3 out of the current pass: `update` is called on O1 and O2
only, not on every observer that was attached when `notify()` began. -/
theorem detach_during_notify_skips_observer :
    (Subject.mk [1, 2, 3] "m").notifyDetaching (fun o => if o = 1 then [3] else [])
        = some (Subject.mk [1, 2] "m", [(1, "m"), (2, "m")])
    ∧ ((Subject.mk [1, 2, 3] "m").notifyDetaching (fun o => if o = 1 then [3] else [])).map
          (fun r => r.2)
        ≠ some ([1, 2, 3].map (fun o => (o, "m"))) := by
  decide

/-- C26 (amended): if the `update` methods detach only observers that were
updated already in the current pass (or that are not attached), the pass is not
affected: `update` is called on every observer that was attached when
`notify()` began, once per attachment and in attachment order, and the
detached observers are gone from the list afterwards, for later passes. -/
theorem detach_of_updated_observer_keeps_pass (self : Subject)
    (detaching : Nat → List Nat) (h : DetachesOnlyEarlier detaching self.m_observers) :
    ∃ self', self.notifyDetaching detaching
        = some (self', self.m_observers.map (fun o => (o, self.m_message)))
      ∧ self'.m_message = self.m_message
      ∧ ∀ o, o ∈ self'.m_observers ↔
          o ∈ self.m_observers ∧ ¬ ∃ o' ∈ self.m_observers, o ∈ detaching o' := by
  obtain ⟨removed', hloop, hmem⟩ :=
    notifyLoopDetaching_only_earlier detaching self.m_message self.m_observers []
      (fun d hd => by cases hd) h
  refine ⟨{ self with m_observers := self.m_observers.filter (fun o => o ∉ removed') },
    ?_, rfl, ?_⟩
  · unfold Subject.notifyDetaching
    rw [hloop]
  · intro o
    simp only [List.mem_filter, decide_eq_true_eq]
    rw [hmem o]
    simp

/-- The amended law on O1, O2, O3 where the `update` of O3 detaches O1 and the
other two detach nobody: all three are updated, and O1 is gone afterwards. -/
theorem detach_of_updated_observer_keeps_pass_witness :
    ∃ self', (Subject.mk [1, 2, 3] "m").notifyDetaching (fun o => if o = 3 then [1] else [])
        = some (self', [1, 2, 3].map (fun o => (o, "m")))
      ∧ self'.m_message = "m"
      ∧ ∀ o, o ∈ self'.m_observers ↔
          o ∈ [1, 2, 3] ∧ ¬ ∃ o' ∈ [1, 2, 3], o ∈ (if o' = 3 then [1] else []) :=
  detach_of_updated_observer_keeps_pass (Subject.mk [1, 2, 3] "m")
    (fun o => if o = 3 then [1] else [])
    (by
      show (_ ∧ _ ∧ _ ∧ True)
      exact ⟨by decide, by decide, by decide, trivial⟩)

end ObserverExample

/-! ## State: the reachable states -/

namespace StateExample

/-- A transition to a fresh object releases the old state object, which was the
only one, and leaves the new one as the only one. -/
theorem transitionTo_alloc_only (typeName : Kind → String) (w : World) (kind kind' : Kind)
    (h : OnlyState w kind) :
    ∃ w', transitionTo typeName (w.alloc kind').1 (w.alloc kind').2
          = some (w', "Context: Transition to " ++ typeName kind' ++ ".\n")
      ∧ OnlyState w' kind' := by
  obtain ⟨⟨a, hs, ha, hlt⟩, honly⟩ := h
  have hne : a ≠ w.next := Nat.ne_of_lt hlt
  have hne' : w.next ≠ a := fun h => hne h.symm
  refine ⟨⟨fun q => if q = w.next then some ⟨kind', true⟩
                    else if q = a then none else (w.alloc kind').1.heap q,
            w.next + 1, some w.next⟩, ?_, ⟨w.next, rfl, by simp, by simp⟩, ?_⟩
  · simp [transitionTo, World.alloc, World.delete, hs, ha, hne, hne']
  · intro q hq
    by_cases hq1 : q = w.next
    · simp [hq1]
    · by_cases hq2 : q = a
      · subst hq2
        simp [hq1] at hq
      · simp only [hq1, hq2, if_false, World.alloc] at hq
        have := honly q hq
        rw [hs] at this
        exact absurd (Option.some.inj this).symm hq2

/-- One request from a context whose state object is the only one. -/
theorem request_only (typeName : Kind → String) (w : World) (kind : Kind) (r : Request)
    (h : OnlyState w kind) :
    ∃ w' out, r.run typeName w = some (w', out) ∧ OnlyState w' (kind.step r) := by
  obtain ⟨a, hs, ha, _⟩ := h.1
  cases kind <;> cases r
  · obtain ⟨w', ht, hin⟩ := transitionTo_alloc_only typeName w Kind.ConcreteStateA
      Kind.ConcreteStateB h
    refine ⟨w', "ConcreteStateA handles request1.\n" ++
        "ConcreteStateA wants to change the state of the context.\n" ++
        ("Context: Transition to " ++ typeName Kind.ConcreteStateB ++ ".\n"), ?_, hin⟩
    simp only [Request.run, request1, hs, handle1, ha, if_true]
    rw [ht]
  · refine ⟨w, "ConcreteStateA handles request2.\n", ?_, h⟩
    simp only [Request.run, request2, hs, handle2, ha]
  · refine ⟨w, "ConcreteStateB handles request1.\n", ?_, h⟩
    simp only [Request.run, request1, hs, handle1, ha]
  · obtain ⟨w', ht, hin⟩ := transitionTo_alloc_only typeName w Kind.ConcreteStateB
      Kind.ConcreteStateA h
    refine ⟨w', "ConcreteStateB handles request2.\n" ++
        "ConcreteStateB wants to change the state of the context.\n" ++
        ("Context: Transition to " ++ typeName Kind.ConcreteStateA ++ ".\n"), ?_, hin⟩
    simp only [Request.run, request2, hs, handle2, ha, if_true]
    rw [ht]

theorem runRequests_only (typeName : Kind → String) :
    ∀ (reqs : List Request) (w : World) (kind : Kind), OnlyState w kind →
      ∃ w' out, runRequests typeName w reqs = some (w', out)
        ∧ OnlyState w' (reqs.foldl Kind.step kind) := by
  intro reqs
  induction reqs with
  | nil => intro w kind h; exact ⟨w, "", rfl, h⟩
  | cons r rest ih =>
    intro w kind h
    obtain ⟨w1, out1, hr, h1⟩ := request_only typeName w kind r h
    obtain ⟨w2, out2, hrest, h2⟩ := ih w1 (kind.step r) h1
    refine ⟨w2, out1 ++ out2, ?_, h2⟩
    simp only [runRequests, hr, hrest]

/-- The constructor of the context, given a new state object in a world
without state objects, leaves that object as the only one. -/
theorem new_only (typeName : Kind → String) (w0 : World) (kind : Kind)
    (hempty : ∀ a, w0.heap a = none) :
    ∃ w, Context.new typeName (w0.alloc kind).1 (w0.alloc kind).2
          = some (w, "Context: Transition to " ++ typeName kind ++ ".\n")
      ∧ OnlyState w kind := by
  refine ⟨⟨fun q => if q = w0.next then some ⟨kind, true⟩ else (w0.alloc kind).1.heap q,
            w0.next + 1, some w0.next⟩, ?_, ⟨w0.next, rfl, by simp, by simp⟩, ?_⟩
  · simp [Context.new, transitionTo, World.alloc, World.delete]
  · intro q hq
    by_cases hq1 : q = w0.next
    · simp [hq1]
    · simp [hq1, World.alloc, hempty q] at hq

/-- C27: a context constructed with a new `ConcreteStateA` or `ConcreteStateB`
holds that object as the only live state object, and after any sequence of
`request1()`/`request2()` calls every call has returned and the context again
holds exactly one live state object, whose class follows the table: A goes to
B on `request1()`, B goes to A on `request2()`, and `request2()` in A and
`request1()` in B leave the state (and the whole world) unchanged.  Requests
are the calls `handle1()`/`handle2()` on the current state object.  So
`request1()` called twice from A ends in B. -/
theorem context_holds_one_state :
    (∀ (typeName : Kind → String) (w0 : World) (kind : Kind), (∀ a, w0.heap a = none) →
      ∃ w out, Context.new typeName (w0.alloc kind).1 (w0.alloc kind).2 = some (w, out)
        ∧ OnlyState w kind)
    ∧ (∀ (typeName : Kind → String) (w : World) (kind : Kind) (reqs : List Request),
        OnlyState w kind →
        ∃ w' out, runRequests typeName w reqs = some (w', out)
          ∧ OnlyState w' (reqs.foldl Kind.step kind))
    ∧ (Kind.ConcreteStateA.step Request.request1 = Kind.ConcreteStateB
        ∧ Kind.ConcreteStateB.step Request.request2 = Kind.ConcreteStateA
        ∧ Kind.ConcreteStateA.step Request.request2 = Kind.ConcreteStateA
        ∧ Kind.ConcreteStateB.step Request.request1 = Kind.ConcreteStateB)
    ∧ (∀ (typeName : Kind → String) (w : World),
        (OnlyState w Kind.ConcreteStateA →
          request2 typeName w = some (w, "ConcreteStateA handles request2.\n"))
        ∧ (OnlyState w Kind.ConcreteStateB →
          request1 typeName w = some (w, "ConcreteStateB handles request1.\n")))
    ∧ (∀ (typeName : Kind → String) (w : World) (a : Nat), w.m_state = some a →
        request1 typeName w = handle1 typeName w a
        ∧ request2 typeName w = handle2 typeName w a)
    ∧ [Request.request1, Request.request1].foldl Kind.step Kind.ConcreteStateA
        = Kind.ConcreteStateB := by
  refine ⟨?_, ?_, ⟨rfl, rfl, rfl, rfl⟩, ?_, ?_, rfl⟩
  · intro typeName w0 kind hempty
    obtain ⟨w, hw, hin⟩ := new_only typeName w0 kind hempty
    exact ⟨w, _, hw, hin⟩
  · intro typeName w kind reqs h
    exact runRequests_only typeName reqs w kind h
  · intro typeName w
    refine ⟨?_, ?_⟩
    · intro h
      obtain ⟨a, hs, ha, _⟩ := h.1
      simp only [request2, hs, handle2, ha]
    · intro h
      obtain ⟨a, hs, ha, _⟩ := h.1
      simp only [request1, hs, handle1, ha]
  · intro typeName w a hs
    simp only [request1, request2, hs, and_self]

/-- The state law on the context of `main`, for `request1()` called twice. -/
theorem context_holds_one_state_witness :
    ∃ w' out,
      runRequests (fun _ => "State")
          ⟨fun q => if q = 0 then some ⟨Kind.ConcreteStateA, true⟩ else none, 1, some 0⟩
          [Request.request1, Request.request1] = some (w', out)
      ∧ OnlyState w'
          ([Request.request1, Request.request1].foldl Kind.step Kind.ConcreteStateA) :=
  context_holds_one_state.2.1 (fun _ => "State")
    ⟨fun q => if q = 0 then some ⟨Kind.ConcreteStateA, true⟩ else none, 1, some 0⟩
    Kind.ConcreteStateA [Request.request1, Request.request1]
    ⟨⟨0, rfl, rfl, by decide⟩, by
      intro a ha
      by_cases h0 : a = 0
      · rw [h0]
      · simp [h0] at ha⟩

end StateExample

/-! ## Strategy: the two sorting strategies -/

namespace StrategyExample

theorem stdSort_toList (value : Char → Int) (comp : Int → Int → Prop) [DecidableRel comp]
    (data : String) :
    (stdSort value comp data).toList
      = data.toList.insertionSort (fun a b => ¬ comp (value b) (value a)) := rfl

/-- `std::sort` returns a permutation of its input. -/
theorem stdSort_perm (value : Char → Int) (comp : Int → Int → Prop) [DecidableRel comp]
    (data : String) :
    (stdSort value comp data).toList.Perm data.toList := by
  rw [stdSort_toList]
  exact List.perm_insertionSort _ _

/-- With `<` no character of the result has a smaller value than one before
it. -/
theorem stdSort_lt_sorted (value : Char → Int) (data : String) :
    (stdSort value (fun a b => a < b) data).toList.Sorted
      (fun a b => ¬ value b < value a) := by
  haveI : IsTotal Char (fun a b => ¬ value b < value a) :=
    ⟨fun a b => by
      rcases le_total (value a) (value b) with h | h
      · exact Or.inl (not_lt.mpr h)
      · exact Or.inr (not_lt.mpr h)⟩
  haveI : IsTrans Char (fun a b => ¬ value b < value a) :=
    ⟨fun a b c hab hbc => not_lt.mpr (le_trans (not_lt.mp hab) (not_lt.mp hbc))⟩
  rw [stdSort_toList]
  exact List.sorted_insertionSort _ _

/-- With `>` no character of the result has a greater value than one before
it. -/
theorem stdSort_gt_sorted (value : Char → Int) (data : String) :
    (stdSort value (fun a b => a > b) data).toList.Sorted
      (fun a b => ¬ value b > value a) := by
  haveI : IsTotal Char (fun a b => ¬ value b > value a) :=
    ⟨fun a b => by
      rcases le_total (value a) (value b) with h | h
      · exact Or.inr (not_lt.mpr h)
      · exact Or.inl (not_lt.mpr h)⟩
  haveI : IsTrans Char (fun a b => ¬ value b > value a) :=
    ⟨fun a b c hab hbc => not_lt.mpr (le_trans (not_lt.mp hbc) (not_lt.mp hab))⟩
  rw [stdSort_toList]
  exact List.sorted_insertionSort _ _

/-- Two bytes with the same `char` value are the same byte. -/
theorem charValue_inj (signed : Bool) (a b : Char) (ha : a.toNat < 256) (hb : b.toNat < 256)
    (h : charValue signed a = charValue signed b) : a = b := by
  apply Char.ext
  apply UInt32.eq_of_val_eq
  apply Fin.ext
  show a.toNat = b.toNat
  unfold charValue at h
  split_ifs at h <;> omega

/-- Two sorted arrangements of the same elements are equal when the order
identifies the elements it ranks equal. -/
theorem eq_of_perm_of_sorted_on {α : Type} (r : α → α → Prop) :
    ∀ (l₁ l₂ : List α), (∀ a ∈ l₁, ∀ b ∈ l₁, r a b → r b a → a = b) →
      l₁.Perm l₂ → l₁.Sorted r → l₂.Sorted r → l₁ = l₂ := by
  intro l₁
  induction l₁ with
  | nil => intro l₂ _ hp _ _; exact hp.nil_eq
  | cons a t ih =>
    intro l₂ hanti hp h1 h2
    cases l₂ with
    | nil => exact absurd hp.length_eq (by simp)
    | cons b t₂ =>
      have hab : a = b := by
        by_contra hne
        have ha : a ∈ b :: t₂ := hp.subset (List.mem_cons_self _ _)
        have hb : b ∈ a :: t := hp.symm.subset (List.mem_cons_self _ _)
        have ha' : a ∈ t₂ := (List.mem_cons.mp ha).resolve_left hne
        have hb' : b ∈ t := (List.mem_cons.mp hb).resolve_left (Ne.symm hne)
        exact hne (hanti a (List.mem_cons_self _ _) b hb
          (List.rel_of_sorted_cons h1 b hb') (List.rel_of_sorted_cons h2 a ha'))
      subst hab
      rw [ih t₂ (fun x hx y hy => hanti x (List.mem_cons_of_mem _ hx) y
            (List.mem_cons_of_mem _ hy))
          hp.cons_inv h1.of_cons h2.of_cons]

/-- C28: for every input string, and whether `char` is signed or not,
`ConcreteStrategyA::doAlgorithm` returns a permutation of the characters of the
input in non-decreasing order of their `char` values, and applied to its own
result it changes nothing; "aecbd" gives "abcde".  (For the bytes 'a' and 0xE9
a signed `char` puts 0xE9 first, an unsigned one 'a'.) -/
theorem strategyA_sorts_ascending :
    (∀ (signed : Bool) (data : String),
      ((ConcreteStrategyA signed).doAlgorithm data).toList.Perm data.toList
      ∧ ((ConcreteStrategyA signed).doAlgorithm data).toList.Sorted
          (fun a b => charValue signed a ≤ charValue signed b)
      ∧ (ConcreteStrategyA signed).doAlgorithm ((ConcreteStrategyA signed).doAlgorithm data)
          = (ConcreteStrategyA signed).doAlgorithm data)
    ∧ (∀ (signed : Bool), (ConcreteStrategyA signed).doAlgorithm "aecbd" = "abcde")
    ∧ (ConcreteStrategyA true).doAlgorithm "a\xE9" = "\xE9a"
    ∧ (ConcreteStrategyA false).doAlgorithm "a\xE9" = "a\xE9" := by
  refine ⟨?_, by decide, by decide, by decide⟩
  intro signed data
  have hs := stdSort_lt_sorted (charValue signed) data
  refine ⟨stdSort_perm _ _ data, ?_, ?_⟩
  · exact List.Pairwise.imp (fun h => not_lt.mp h) hs
  · have hid : (stdSort (charValue signed) (fun a b => a < b) data).toList.insertionSort
        (fun a b => ¬ charValue signed b < charValue signed a)
          = (stdSort (charValue signed) (fun a b => a < b) data).toList :=
      List.Sorted.insertionSort_eq hs
    show String.mk ((stdSort (charValue signed) (fun a b => a < b) data).toList.insertionSort
        (fun a b => ¬ charValue signed b < charValue signed a)) = _
    rw [hid]
    rfl

/-- C29: for every input string (a string of bytes), and whether `char` is
signed or not, `ConcreteStrategyB::doAlgorithm` returns exactly the reversal of
what `ConcreteStrategyA::doAlgorithm` returns, which is a permutation of the
input in non-increasing order of the `char` values; "aecbd" gives "edcba". -/
theorem strategyB_is_reverse_of_A :
    (∀ (signed : Bool) (data : String), IsByteString data →
      (ConcreteStrategyB signed).doAlgorithm data
          = String.mk ((ConcreteStrategyA signed).doAlgorithm data).toList.reverse)
    ∧ (∀ (signed : Bool) (data : String),
        ((ConcreteStrategyB signed).doAlgorithm data).toList.Perm data.toList
        ∧ ((ConcreteStrategyB signed).doAlgorithm data).toList.Sorted
            (fun a b => charValue signed a ≥ charValue signed b))
    ∧ (∀ (signed : Bool), (ConcreteStrategyB signed).doAlgorithm "aecbd" = "edcba")
    ∧ (ConcreteStrategyB true).doAlgorithm "a\xE9" = "a\xE9"
    ∧ (ConcreteStrategyB false).doAlgorithm "a\xE9" = "\xE9a" := by
  refine ⟨?_, ?_, by decide, by decide, by decide⟩
  · intro signed data hbytes
    have hA := stdSort_lt_sorted (charValue signed) data
    have hB := stdSort_gt_sorted (charValue signed) data
    have hpA := stdSort_perm (charValue signed) (fun a b => a < b) data
    have hpB := stdSort_perm (charValue signed) (fun a b => a > b) data
    have hrev : (stdSort (charValue signed) (fun a b => a < b) data).toList.reverse.Sorted
        (fun a b => ¬ charValue signed b > charValue signed a) := by
      unfold List.Sorted
      rw [List.pairwise_reverse]
      exact hA
    have hperm : (stdSort (charValue signed) (fun a b => a > b) data).toList.Perm
        (stdSort (charValue signed) (fun a b => a < b) data).toList.reverse :=
      hpB.trans ((List.reverse_perm _).trans hpA).symm
    have hanti : ∀ a ∈ (stdSort (charValue signed) (fun a b => a > b) data).toList,
        ∀ b ∈ (stdSort (charValue signed) (fun a b => a > b) data).toList,
        ¬ charValue signed b > charValue signed a →
        ¬ charValue signed a > charValue signed b → a = b := by
      intro a ha b hb hab hba
      exact charValue_inj signed a b (hbytes a (hpB.subset ha)) (hbytes b (hpB.subset hb))
        (le_antisymm (not_lt.mp hba) (not_lt.mp hab))
    have heq := eq_of_perm_of_sorted_on _ _ _ hanti hperm hB hrev
    show String.mk (stdSort (charValue signed) (fun a b => a > b) data).toList = _
    rw [heq]
    rfl
  · intro signed data
    exact ⟨stdSort_perm _ _ data,
      List.Pairwise.imp (fun h => not_lt.mp h) (stdSort_gt_sorted (charValue signed) data)⟩

/-- The reversal law on the bytes 'a', 0xE9 with a signed `char`. -/
theorem strategyB_is_reverse_of_A_witness :
    (ConcreteStrategyB true).doAlgorithm "a\xE9"
      = String.mk ((ConcreteStrategyA true).doAlgorithm "a\xE9").toList.reverse :=
  strategyB_is_reverse_of_A.1 true "a\xE9" (by unfold IsByteString; decide)

end StrategyExample

/-! ## Flyweight: the registry invariant -/

namespace FlyweightExample

theorem FlyweightMap.find_eq_none_iff (m : FlyweightMap) (key : String) :
    m.find key = none ↔ key ∉ m.map Prod.fst := by
  induction m with
  | nil => simp [FlyweightMap.find]
  | cons e rest ih =>
    obtain ⟨k, f⟩ := e
    by_cases hk : k = key
    · simp [FlyweightMap.find, hk]
    · have hk' : ¬ key = k := fun h => hk h.symm
      simp [FlyweightMap.find, hk, hk', ih]

/-- `emplace` keeps every entry, adds at most one at the end, and keeps the
registry well formed when the key is the key of the new flyweight. -/
theorem emplace_ok (m : FlyweightMap) (f : Flyweight) (h : RegistryOK m) :
    RegistryOK (m.emplace (getKey f.m_brand f.m_model f.m_color) f).1
    ∧ ∃ added, (m.emplace (getKey f.m_brand f.m_model f.m_color) f).1 = m ++ added := by
  unfold FlyweightMap.emplace
  cases hfind : m.find (getKey f.m_brand f.m_model f.m_color) with
  | some stored => exact ⟨h, [], by simp⟩
  | none =>
    refine ⟨⟨?_, ?_⟩, [(getKey f.m_brand f.m_model f.m_color, f)], rfl⟩
    · intro e he
      rcases List.mem_append.mp he with he | he
      · exact h.1 e he
      · have : e = (getKey f.m_brand f.m_model f.m_color, f) := by simpa using he
        rw [this]
    · have hnot := (FlyweightMap.find_eq_none_iff m _).mp hfind
      simp only [List.map_append, List.map_cons, List.map_nil]
      exact List.Nodup.append h.2 (List.nodup_singleton _)
        (by simpa [List.disjoint_singleton] using hnot)

/-- The constructor of the factory keeps a well-formed registry well formed. -/
theorem foldl_emplace_ok :
    ∀ (sharedStates : List (String × String × String)) (m : FlyweightMap), RegistryOK m →
      RegistryOK (sharedStates.foldl
        (fun m sharedState =>
          (m.emplace (getKey sharedState.1 sharedState.2.1 sharedState.2.2)
            ⟨sharedState.1, sharedState.2.1, sharedState.2.2⟩).1) m) := by
  intro sharedStates
  induction sharedStates with
  | nil => intro m h; exact h
  | cons st rest ih =>
    intro m h
    exact ih _ (emplace_ok m ⟨st.1, st.2.1, st.2.2⟩ h).1

/-- One `getFlyweight` call keeps every entry, adds at most one at the end, and
keeps the registry well formed. -/
theorem getFlyweight_ok (self : FlyweightFactory) (brand model color : String) :
    (∃ added, (getFlyweight self brand model color).1.m_flyweights
        = self.m_flyweights ++ added)
    ∧ (RegistryOK self.m_flyweights →
        RegistryOK (getFlyweight self brand model color).1.m_flyweights) := by
  cases hfind : self.m_flyweights.find (getKey brand model color) with
  | some stored =>
    rw [getFlyweight_of_hit self brand model color stored hfind]
    exact ⟨⟨[], by simp⟩, fun h => h⟩
  | none =>
    rw [getFlyweight_of_miss self brand model color hfind]
    refine ⟨⟨_, rfl⟩, fun h => ?_⟩
    have hem := (emplace_ok self.m_flyweights ⟨brand, model, color⟩ h).1
    simpa [FlyweightMap.emplace, hfind] using hem

theorem run_ok :
    ∀ (requests : List (String × String × String)) (self : FlyweightFactory),
      (∃ added, (self.run requests).m_flyweights = self.m_flyweights ++ added)
      ∧ (RegistryOK self.m_flyweights → RegistryOK (self.run requests).m_flyweights) := by
  intro requests
  induction requests with
  | nil => intro self; exact ⟨⟨[], by simp [FlyweightFactory.run]⟩, fun h => h⟩
  | cons r rest ih =>
    intro self
    obtain ⟨⟨a1, h1⟩, hok1⟩ := getFlyweight_ok self r.1 r.2.1 r.2.2
    obtain ⟨⟨a2, h2⟩, hok2⟩ := ih (getFlyweight self r.1 r.2.1 r.2.2).1
    refine ⟨⟨a1 ++ a2, ?_⟩, fun h => hok2 (hok1 h)⟩
    show ((getFlyweight self r.1 r.2.1 r.2.2).1.run rest).m_flyweights = _
    rw [h2, h1, List.append_assoc]

/-- C30: in every factory state reached from the constructor, with any list of
initial shared states (duplicates included), by any sequence of `getFlyweight`
calls, every stored flyweight is registered under the key
brand + "_" + model + "_" + color of its own fields and no key occurs twice;
every `getFlyweight` call keeps all entries as they are and adds at most one,
so the registry size never decreases. -/
theorem registry_invariant :
    (∀ (sharedStates requests : List (String × String × String)),
      RegistryOK ((FlyweightFactory.new sharedStates).run requests).m_flyweights
      ∧ (∃ added, ((FlyweightFactory.new sharedStates).run requests).m_flyweights
            = (FlyweightFactory.new sharedStates).m_flyweights ++ added)
      ∧ (FlyweightFactory.new sharedStates).size
          ≤ ((FlyweightFactory.new sharedStates).run requests).size)
    ∧ (∀ (self : FlyweightFactory) (brand model color : String),
        (∃ added, (getFlyweight self brand model color).1.m_flyweights
            = self.m_flyweights ++ added)
        ∧ self.size ≤ (getFlyweight self brand model color).1.size
        ∧ (getFlyweight self brand model color).1.size ≤ self.size + 1)
    ∧ (∀ (brand model color : String),
        getKey brand model color = brand ++ "_" ++ model ++ "_" ++ color)
    ∧ (FlyweightFactory.new
          [("BMW", "M5", "red"), ("BMW", "M5", "red"), ("BMW", "X6", "white")]).m_flyweights
        = [("BMW_M5_red", ⟨"BMW", "M5", "red"⟩), ("BMW_X6_white", ⟨"BMW", "X6", "white"⟩)] := by
  refine ⟨?_, ?_, fun _ _ _ => rfl, by decide⟩
  · intro sharedStates requests
    have h0 : RegistryOK (FlyweightFactory.new sharedStates).m_flyweights :=
      foldl_emplace_ok sharedStates [] ⟨fun e he => (by cases he), List.nodup_nil⟩
    obtain ⟨⟨added, hadd⟩, hok⟩ := run_ok requests (FlyweightFactory.new sharedStates)
    refine ⟨hok h0, ⟨added, hadd⟩, ?_⟩
    simp only [FlyweightFactory.size]
    rw [hadd, List.length_append]
    exact Nat.le_add_right _ _
  · intro self brand model color
    cases hfind : self.m_flyweights.find (getKey brand model color) with
    | some stored =>
      rw [getFlyweight_of_hit self brand model color stored hfind]
      exact ⟨⟨[], by simp⟩, Nat.le_refl _, Nat.le_succ _⟩
    | none =>
      rw [getFlyweight_of_miss self brand model color hfind]
      refine ⟨⟨_, rfl⟩, ?_, ?_⟩ <;> simp [FlyweightFactory.size]

end FlyweightExample

/-! ## Flyweight: which object a call returns -/

namespace FlyweightExample

/-- C3 (the code at the failing input): two `getFlyweight("BMW", "M5", "red")`
calls on the factory of `main` find the same stored flyweight, under the key
"BMW_M5_red", and leave the registry unchanged, but each call returns a copy
of it: the two objects returned are different objects, and neither is the
stored one; only their fields are equal.  The same holds for every factory
state and every triple. -/
theorem getFlyweight_returns_copies :
    (getFlyweightObject 0 mainFactory "BMW" "M5" "red").2.1.found
        = Instance.stored "BMW_M5_red"
    ∧ (getFlyweightObject 1 (getFlyweightObject 0 mainFactory "BMW" "M5" "red").1
          "BMW" "M5" "red").2.1.found = Instance.stored "BMW_M5_red"
    ∧ (getFlyweightObject 1 (getFlyweightObject 0 mainFactory "BMW" "M5" "red").1
          "BMW" "M5" "red").1 = mainFactory
    ∧ (getFlyweightObject 0 mainFactory "BMW" "M5" "red").2.1.object
        ≠ (getFlyweightObject 1 (getFlyweightObject 0 mainFactory "BMW" "M5" "red").1
            "BMW" "M5" "red").2.1.object
    ∧ (getFlyweightObject 0 mainFactory "BMW" "M5" "red").2.1.object
        ≠ (getFlyweightObject 0 mainFactory "BMW" "M5" "red").2.1.found
    ∧ (getFlyweightObject 0 mainFactory "BMW" "M5" "red").2.1.value
        = (getFlyweightObject 1 (getFlyweightObject 0 mainFactory "BMW" "M5" "red").1
            "BMW" "M5" "red").2.1.value
    ∧ (∀ (self : FlyweightFactory) (brand model color : String) (call later : Nat),
        (getFlyweightObject call self brand model color).2.1.object
          ≠ (getFlyweightObject (call + later + 1)
              (getFlyweightObject call self brand model color).1
              brand model color).2.1.object
        ∧ (getFlyweightObject call self brand model color).2.1.object
          ≠ (getFlyweightObject call self brand model color).2.1.found
        ∧ (getFlyweightObject call self brand model color).2.1.found
          = (getFlyweightObject (call + later + 1)
              (getFlyweightObject call self brand model color).1
              brand model color).2.1.found) := by
  refine ⟨by decide, by decide, by decide, by decide, by decide, by decide, ?_⟩
  intro self brand model color call later
  refine ⟨?_, ?_, rfl⟩
  · intro h
    have := Instance.result.inj h
    omega
  · intro h
    cases h

end FlyweightExample
